import Mathlib

/-!
# DirectSound audio renderer (dlls/quartz/dsoundrender.c)

A shallow embedding of the ring-buffer position tracker, the write-position
planner, the sample feeder and the receive path of the renderer, followed by
theorems about them.

Conventions of the embedding.

* `DWORD` values are natural numbers below `2 ^ 32`; every `DWORD` addition and
  subtraction of the source is written with `DWORD_add` / `DWORD_sub`, which
  wrap modulo `2 ^ 32`.
* `REFERENCE_TIME` (a signed 64-bit count of 100 ns ticks) is an `Int`.  Signed
  division and remainder truncate toward zero as in C (`Int.tdiv`, `Int.tmod`).
  Signed overflow is undefined behaviour in C and is not modelled.
* The hardware buffer is a function from byte offsets to byte values together
  with the properties the renderer sets on it.  What the hardware, the clock
  and other threads do is passed to each function explicitly.
-/

namespace DSoundRender

/-! ## Data model -/

/-- Result codes used by the renderer.  `DSERR` stands for any other failure
code handed back by a collaborator. -/
inductive HRESULT where
  | S_OK
  | S_FALSE
  | VFW_E_WRONG_STATE
  | VFW_E_TYPE_NOT_ACCEPTED
  | VFW_E_ALREADY_CONNECTED
  | E_INVALIDARG
  | E_FAIL
  | E_POINTER
  | DSERR (code : Nat)
  deriving DecidableEq, Repr

/-- The `FAILED` test: every code except the two success codes. -/
def FAILED : HRESULT → Bool
  | HRESULT.S_OK => false
  | HRESULT.S_FALSE => false
  | _ => true

/-- Filter states of the stream state machine. -/
inductive FILTER_STATE where
  | State_Stopped
  | State_Paused
  | State_Running
  deriving DecidableEq, Repr

/-- The wave format block of the connection media type. -/
structure WAVEFORMATEX where
  wFormatTag : Nat := 1
  nChannels : Nat := 0
  nSamplesPerSec : Nat := 0
  nAvgBytesPerSec : Nat := 0
  nBlockAlign : Nat := 0
  wBitsPerSample : Nat := 0
  cbSize : Nat := 0
  deriving DecidableEq, Repr

/-- The hardware playback buffer: its memory and the properties set on it. -/
structure IDirectSoundBuffer where
  bytes : Nat → Nat := fun _ => 0
  frequency : Nat := 0
  volume : Int := 0
  pan : Int := 0
  playing : Bool := false

/-- The renderer (`struct dsound_render`).  `state`, `clock` and `flushing`
are the fields `filter.state`, `filter.clock` and `sink.flushing` of the base
classes, `mt` is the format block of `sink.pin.mt` and `peer` tells whether
the pin is connected. -/
structure dsound_render where
  mt : WAVEFORMATEX := {}
  state : FILTER_STATE := FILTER_STATE.State_Stopped
  clock : Bool := false
  flushing : Bool := false
  peer : Bool := false
  state_event : Bool := false
  flush_event : Bool := false
  stream_start : Int := 0
  eos : Bool := false
  dsbuffer : Option IDirectSoundBuffer := none
  buf_size : Nat := 0
  last_playpos : Nat := 0
  writepos : Nat := 0
  volume : Int := 0
  pan : Int := 0

/-- What `IDirectSoundBuffer_GetCurrentPosition` reports. -/
structure Cursor where
  playpos : Nat
  writepos : Nat
  deriving DecidableEq, Repr

/-! ## Machine arithmetic and memory -/

/-- Addition of two `DWORD`s. -/
def DWORD_add (a b : Nat) : Nat := (a + b) % 4294967296

/-- Subtraction of two `DWORD`s. -/
def DWORD_sub (a b : Nat) : Nat := (a + (4294967296 - b % 4294967296)) % 4294967296

/-- Conversion of a `REFERENCE_TIME` to `DWORD`. -/
def DWORD_of (t : Int) : Nat := (t % 4294967296).toNat

/-- The C library `memset` on the buffer memory: `n` bytes from `dst` on. -/
def memset (mem : Nat → Nat) (dst c n : Nat) : Nat → Nat :=
  fun i => if dst ≤ i ∧ i < dst + n then c else mem i

/-- The C library `memcpy` from a byte sequence into the buffer memory. -/
def memcpy (mem : Nat → Nat) (dst : Nat) (src : List Nat) (n : Nat) : Nat → Nat :=
  fun i => if dst ≤ i ∧ i < dst + n then src.getD (i - dst) 0 else mem i

/-- The two spans handed out by a lock: offset and size of each. -/
structure LockedSpans where
  buf1 : Nat
  size1 : Nat
  buf2 : Nat
  size2 : Nat
  deriving DecidableEq, Repr

/-- Modelled from the spec: `IDirectSoundBuffer_Lock` of the hardware transport,
whose code is outside the sources at hand.  A lock of `bytes` bytes at `offset`
in a buffer of `buf_size` bytes yields the span up to the end of the buffer
and, when the range wraps, a second span at the start of the buffer ("wrapping
across the buffer boundary as two contiguous segments"). -/
def IDirectSoundBuffer_Lock (buf_size offset bytes : Nat) : LockedSpans :=
  if offset + bytes ≤ buf_size then
    { buf1 := offset, size1 := bytes, buf2 := 0, size2 := 0 }
  else
    { buf1 := offset, size1 := buf_size - offset,
      buf2 := 0, size2 := bytes - (buf_size - offset) }

/-! ## Conversions between byte offsets and time -/

/-- Maximum buffered time before the planner blocks: 150 ms. -/
def DSoundRenderer_Max_Fill : Int := 150 * 10000

/-- Time covered by `pos` bytes.  (`nAvgBytesPerSec = 0` is a division by zero
in the source; here it yields 0.) -/
def time_from_pos (filter : dsound_render) (pos : Nat) : Int :=
  let ret : Int := 10000000
  let ret := Int.tdiv (ret * (pos : Int)) (filter.mt.nAvgBytesPerSec : Int)
  ret

/-- Bytes covered by `time`, truncated to a whole number of blocks and
converted to `DWORD`.  (`nBlockAlign = 0` is a division by zero in the source;
here the remainder is then the dividend and the result 0.) -/
def pos_from_time (filter : dsound_render) (time : Int) : Nat :=
  let ret : Int := time
  let ret := ret * (filter.mt.nAvgBytesPerSec : Int)
  let ret := Int.tdiv ret 10000000
  let ret := ret - Int.tmod ret (filter.mt.nBlockAlign : Int)
  DWORD_of ret

/-! ## Ring buffer position tracker -/

/-- Out-parameters of `DSoundRender_UpdatePositions` with the updated filter;
`underrun` tells whether the call reported "Underrun of data occurred!". -/
structure Positions where
  filter : dsound_render
  seqwritepos : Nat
  minwritepos : Nat
  underrun : Bool := false

/-- `DSoundRender_UpdatePositions`; `hw` is what the hardware reports. -/
def DSoundRender_UpdatePositions (filter : dsound_render) (hw : Cursor) : Positions :=
  let wfx := filter.mt
  let writepos_set : Bool := decide (filter.writepos < filter.buf_size)
  -- Update position and zero
  let old_writepos := filter.writepos
  let old_playpos := filter.last_playpos
  let old_writepos :=
    if old_writepos ≤ old_playpos then DWORD_add old_writepos filter.buf_size else old_writepos
  let playpos := hw.playpos
  let writepos := hw.writepos
  let adv :=
    if old_playpos > playpos then DWORD_sub (DWORD_add filter.buf_size playpos) old_playpos
    else DWORD_sub playpos old_playpos
  let filter := { filter with last_playpos := playpos }
  let filter :=
    if adv ≠ 0 then
      let l := IDirectSoundBuffer_Lock filter.buf_size old_playpos adv
      let c := if wfx.wBitsPerSample = 8 then 128 else 0
      { filter with
        dsbuffer := filter.dsbuffer.map fun b =>
          { b with bytes := memset (memset b.bytes l.buf1 c l.size1) l.buf2 c l.size2 } }
    else filter
  let minwritepos := writepos
  if !writepos_set || decide (old_writepos < writepos) then
    let filter := if writepos_set then { filter with writepos := filter.buf_size } else filter
    { filter := filter, seqwritepos := writepos, minwritepos := minwritepos,
      underrun := writepos_set }
  else
    { filter := filter, seqwritepos := filter.writepos, minwritepos := minwritepos }

/-! ## Write-position planner -/

/-- Result and out-parameters of `DSoundRender_GetWritePos` with the updated
filter.  `ret_writepos` and `pfree` are `none` when the source returns without
writing them. -/
structure WritePos where
  hr : HRESULT
  filter : dsound_render
  ret_writepos : Option Nat
  pfree : Option Nat
  skip : Nat

/-- The code after the label `end:` of `DSoundRender_GetWritePos`: the free
space before the play position and the saturation test. -/
def DSoundRender_GetWritePos_end (filter : dsound_render) (playpos ret_writepos skip : Nat) :
    WritePos :=
  let pfree :=
    if playpos ≥ ret_writepos then DWORD_sub playpos ret_writepos
    else DWORD_sub (DWORD_add filter.buf_size playpos) ret_writepos
  if time_from_pos filter (DWORD_sub filter.buf_size pfree) ≥ DSoundRenderer_Max_Fill then
    { hr := HRESULT.S_FALSE, filter := filter, ret_writepos := some ret_writepos,
      pfree := some pfree, skip := skip }
  else
    { hr := HRESULT.S_OK, filter := filter, ret_writepos := some ret_writepos,
      pfree := some pfree, skip := skip }

/-- `DSoundRender_GetWritePos`; `hw` is what the hardware reports and `now`
what `IReferenceClock_GetTime` returns when a clock is attached.  (`cur` is
uninitialised and unused in the source when no clock is attached; it is 0
here.  A remainder by `buf_size = 0` is a division by zero in the source.) -/
def DSoundRender_GetWritePos (filter : dsound_render) (write_at : Int) (hw : Cursor)
    (now : Int) : WritePos :=
  let p := DSoundRender_UpdatePositions filter hw
  let filter := p.filter
  let writepos := p.seqwritepos
  let min_writepos := p.minwritepos
  let playpos := filter.last_playpos
  let cur : Int := if filter.clock then now - filter.stream_start else 0
  let write_at : Int := if filter.clock then write_at else -1
  let max_lag : Int := if writepos = min_writepos then 0 else 50 * 10000
  if write_at < 0 then
    DSoundRender_GetWritePos_end filter playpos writepos 0
  else
    let writepos_t : Int :=
      if writepos ≥ playpos then cur + time_from_pos filter (DWORD_sub writepos playpos)
      else cur + time_from_pos filter (DWORD_sub (DWORD_add filter.buf_size writepos) playpos)
    -- write_at: Starting time of sample
    -- cur: current time of play position
    -- writepos_t: current time of our pointer play position
    let delta_t := write_at - writepos_t
    if delta_t ≥ -max_lag ∧ delta_t ≤ max_lag then
      DSoundRender_GetWritePos_end filter playpos writepos 0
    else if delta_t < 0 then
      let min_writepos_t : Int :=
        if min_writepos ≥ playpos then
          cur + time_from_pos filter (DWORD_sub min_writepos playpos)
        else
          cur + time_from_pos filter (DWORD_add (DWORD_sub filter.buf_size playpos) min_writepos)
      let past := min_writepos_t - write_at
      if past ≥ 0 then
        let skipbytes := pos_from_time filter past
        DSoundRender_GetWritePos_end filter playpos min_writepos skipbytes
      else
        let aheadbytes := pos_from_time filter (-past)
        DSoundRender_GetWritePos_end filter playpos
          (DWORD_add min_writepos aheadbytes % filter.buf_size) 0
    else -- delta_t > 0
      let aheadbytes := pos_from_time filter delta_t
      if delta_t ≥ DSoundRenderer_Max_Fill then
        { hr := HRESULT.S_FALSE, filter := filter, ret_writepos := none, pfree := none,
          skip := 0 }
      else
        DSoundRender_GetWritePos_end filter playpos
          (DWORD_add min_writepos aheadbytes % filter.buf_size) 0

/-! ## Sample feeder -/

/-- What the outside world does during one pass of the feeder loop: the
cursors the hardware reports, the clock reading, the result of locking the
buffer, and the stream state and flushing flag that other threads have left
behind when the 10 ms wait on the flush event is over.  (State changes made
by other threads are observed at the wait only.) -/
structure Tick where
  cursor : Cursor
  now : Int := 0
  lock_hr : HRESULT := HRESULT.S_OK
  state : FILTER_STATE
  flushing : Bool := false

/-- Where one pass of the feeder loop leaves the function: it returns, or it
goes round again with the updated loop variables. -/
inductive LoopStep where
  | ret (hr : HRESULT) (filter : dsound_render)
  | next (filter : dsound_render) (tStart : Int) (data : List Nat)

/-- Body of the `while` loop of `DSoundRender_SendSampleData`.  `data` is the
rest of the sample, so `size` is `data.length`.  (The locals `writepos` and
`free` are uninitialised in the source until the planner writes them.) -/
def DSoundRender_SendSampleData_body (filter : dsound_render) (tStart : Int)
    (data : List Nat) (t : Tick) : LoopStep :=
  let r : WritePos :=
    if filter.state = FILTER_STATE.State_Running then
      DSoundRender_GetWritePos filter tStart t.cursor t.now
    else
      { hr := HRESULT.S_FALSE, filter := filter, ret_writepos := none, pfree := none, skip := 0 }
  let filter := r.filter
  if r.hr ≠ HRESULT.S_OK then
    -- WaitForSingleObject(filter->flush_event, 10)
    let filter := { filter with state := t.state, flushing := t.flushing }
    if filter.flushing || decide (filter.state = FILTER_STATE.State_Stopped) then
      LoopStep.ret
        (if filter.state = FILTER_STATE.State_Paused then HRESULT.S_OK
         else HRESULT.VFW_E_WRONG_STATE) filter
    else
      LoopStep.next filter tStart data
  else
    let writepos := r.ret_writepos.getD 0
    let free := r.pfree.getD 0
    let skip := r.skip
    let tStart : Int := -1
    if skip ≥ data.length then
      LoopStep.ret HRESULT.S_OK filter
    else
      let data := data.drop skip
      if t.lock_hr ≠ HRESULT.S_OK then
        LoopStep.ret HRESULT.S_OK filter -- break
      else
        let l := IDirectSoundBuffer_Lock filter.buf_size writepos (min free data.length)
        let filter :=
          { filter with
            dsbuffer := filter.dsbuffer.map fun (b : IDirectSoundBuffer) =>
              let m := memcpy b.bytes l.buf1 data l.size1
              let m := if l.size2 ≠ 0 then memcpy m l.buf2 (data.drop l.size1) l.size2 else m
              { b with bytes := m } }
        let filter :=
          { filter with
            writepos := DWORD_add (DWORD_add writepos l.size1) l.size2 % filter.buf_size }
        LoopStep.next filter tStart (data.drop (l.size1 + l.size2))

/-- Result of a call that may block: `hr` is `none` when the call is still in
its retry loop after the last observed tick. -/
structure Outcome where
  hr : Option HRESULT
  filter : dsound_render

/-- `DSoundRender_SendSampleData`: the loop runs one pass per tick. -/
def DSoundRender_SendSampleData (filter : dsound_render) (tStart tStop : Int)
    (data : List Nat) (env : List Tick) : Outcome :=
  if data.length = 0 ∨ filter.state = FILTER_STATE.State_Stopped then
    { hr := some HRESULT.S_OK, filter := filter }
  else
    match env with
    | [] => { hr := none, filter := filter }
    | t :: rest =>
      match DSoundRender_SendSampleData_body filter tStart data t with
      | LoopStep.ret hr filter => { hr := some hr, filter := filter }
      | LoopStep.next filter tStart data =>
        DSoundRender_SendSampleData filter tStart tStop data rest

/-! ## Receive path -/

/-- A media sample as seen through `IMediaSample`: the attached media type
when the format changes, the result of `GetPointer`, the payload, the time
stamps when `GetTime` succeeds, and the preroll flag. -/
structure IMediaSample where
  media_type : Option WAVEFORMATEX := none
  pointer_hr : HRESULT := HRESULT.S_OK
  data : List Nat := []
  time : Option (Int × Int) := none
  preroll : Bool := false

/-- Result of `DSoundRender_PrepareReceive` with the updated filter and sample. -/
structure Prepared where
  hr : HRESULT
  filter : dsound_render
  sample : IMediaSample

/-- `DSoundRender_PrepareReceive`; `SetFrequency_hr` is the result of
`IDirectSoundBuffer_SetFrequency` should it be called. -/
def DSoundRender_PrepareReceive (filter : dsound_render) (pSample : IMediaSample)
    (SetFrequency_hr : HRESULT) : Prepared :=
  match pSample.media_type with
  | some newfmt =>
    let origfmt := filter.mt
    if origfmt.wFormatTag = newfmt.wFormatTag ∧
        origfmt.nChannels = newfmt.nChannels ∧
        origfmt.nBlockAlign = newfmt.nBlockAlign ∧
        origfmt.wBitsPerSample = newfmt.wBitsPerSample ∧
        origfmt.cbSize = newfmt.cbSize then
      if origfmt.nSamplesPerSec ≠ newfmt.nSamplesPerSec then
        if FAILED SetFrequency_hr then
          { hr := HRESULT.VFW_E_TYPE_NOT_ACCEPTED, filter := filter, sample := pSample }
        else
          { hr := HRESULT.S_OK,
            filter :=
              { filter with
                mt := newfmt,
                dsbuffer := filter.dsbuffer.map fun b =>
                  { b with frequency := newfmt.nSamplesPerSec } },
            sample := { pSample with media_type := none } }
      else
        { hr := HRESULT.S_OK, filter := filter, sample := pSample }
    else
      { hr := HRESULT.VFW_E_TYPE_NOT_ACCEPTED, filter := filter, sample := pSample }
  | none => { hr := HRESULT.S_OK, filter := filter, sample := pSample }

/-- `DSoundRender_DoRenderSample`. -/
def DSoundRender_DoRenderSample (filter : dsound_render) (pSample : IMediaSample)
    (env : List Tick) : Outcome :=
  if FAILED pSample.pointer_hr then
    { hr := some pSample.pointer_hr, filter := filter }
  else
    let tStart : Int := match pSample.time with
      | some (start, _) => start
      | none => -1
    let tStop : Int := match pSample.time with
      | some (_, stop) => stop
      | none => -1
    if pSample.preroll then
      { hr := some HRESULT.S_OK, filter := filter }
    else
      DSoundRender_SendSampleData filter tStart tStop pSample.data env

/-- `dsound_render_sink_Receive`.  (The call that records the start time in
the seeking passthrough, an object of the base class library, has no effect on
the renderer and is left out.) -/
def dsound_render_sink_Receive (filter : dsound_render) (sample : IMediaSample)
    (SetFrequency_hr : HRESULT) (env : List Tick) : Outcome :=
  if filter.eos || filter.flushing then
    { hr := some HRESULT.S_FALSE, filter := filter }
  else if filter.state = FILTER_STATE.State_Stopped then
    { hr := some HRESULT.VFW_E_WRONG_STATE, filter := filter }
  else
    let p := DSoundRender_PrepareReceive filter sample SetFrequency_hr
    if FAILED p.hr then
      { hr := some p.hr, filter := p.filter }
    else
      let filter := p.filter
      let sample := p.sample
      let filter :=
        if filter.state = FILTER_STATE.State_Paused then { filter with state_event := true }
        else filter
      DSoundRender_DoRenderSample filter sample env

/-! ## End of stream -/

/-- `DSoundRender_HandleEndOfStream`: the loop runs one pass per tick; the state
and flushing flag of the tick are what other threads have left behind when
the 10 ms wait is over. -/
def DSoundRender_HandleEndOfStream (filter : dsound_render) (env : List Tick) : Outcome :=
  if filter.state ≠ FILTER_STATE.State_Running then
    { hr := some HRESULT.S_OK, filter := filter }
  else
    match env with
    | [] => { hr := none, filter := filter }
    | t :: rest =>
      let p := DSoundRender_UpdatePositions filter t.cursor
      if p.seqwritepos = p.minwritepos then
        { hr := some HRESULT.S_OK, filter := p.filter } -- break
      else
        -- WaitForSingleObject(filter->flush_event, 10)
        DSoundRender_HandleEndOfStream
          { p.filter with state := t.state, flushing := t.flushing } rest

/-- Modelled from the spec: `IDirectSoundBuffer_Lock` with `DSBLOCK_ENTIREBUFFER`,
whose code is outside the sources at hand.  The lock yields one span that
covers the whole buffer of `buf_size` bytes ("the buffer is fully zeroed"). -/
def IDirectSoundBuffer_Lock_entire (buf_size : Nat) : LockedSpans :=
  { buf1 := 0, size1 := buf_size, buf2 := 0, size2 := 0 }

/-- What `dsound_render_sink_eos` does that others can observe, in the order of
the source: the `EC_COMPLETE` notification to the event sink, the return of
the drain loop `DSoundRender_HandleEndOfStream`, and the zeroing of the whole
buffer. -/
inductive EosAction where
  | EC_COMPLETE
  | drain_finished
  | buffer_zeroed
  deriving DecidableEq, Repr

/-- Result of `dsound_render_sink_eos`: as `Outcome`, with the actions taken so
far in order. -/
structure EosOutcome where
  hr : Option HRESULT
  filter : dsound_render
  actions : List EosAction

/-- `dsound_render_sink_eos`; `event_sink` tells whether the filter graph is
there and hands out its `IMediaEventSink`.  (The call into the seeking
passthrough has no effect on the renderer and is left out.) -/
def dsound_render_sink_eos (filter : dsound_render) (event_sink : Bool) (env : List Tick) :
    EosOutcome :=
  let filter := { filter with eos := true }
  let actions : List EosAction :=
    if filter.state = FILTER_STATE.State_Running ∧ event_sink = true then
      [EosAction.EC_COMPLETE]
    else []
  let filter := { filter with state_event := true }
  let o := DSoundRender_HandleEndOfStream filter env
  match o.hr with
  | none => { hr := none, filter := o.filter, actions := actions }
  | some _ =>
    let filter := o.filter
    let actions := actions ++ [EosAction.drain_finished]
    let l := IDirectSoundBuffer_Lock_entire filter.buf_size
    let filter :=
      { filter with
        dsbuffer := filter.dsbuffer.map fun (b : IDirectSoundBuffer) =>
          { b with bytes := memset b.bytes l.buf1 0 l.size1 } }
    { hr := some HRESULT.S_OK, filter := filter,
      actions := actions ++ [EosAction.buffer_zeroed] }

/-! ## Connection, flush and stop -/

/-- The renderer as `dsound_render_create` leaves it when it succeeds: zeroed
memory, both events created in the signalled state, no buffer yet. -/
def dsound_render_create : dsound_render :=
  { state := FILTER_STATE.State_Stopped, state_event := true, flush_event := true }

/-- `dsound_render_sink_connect`; `format` is the format block of the proposed
media type, `CreateSoundBuffer_hr` the result of creating the hardware buffer,
`created` the buffer handed back when that succeeds, and `SetVolume_hr`,
`SetPan_hr` the results of the two calls that follow. -/
def dsound_render_sink_connect (filter : dsound_render) (format : WAVEFORMATEX)
    (CreateSoundBuffer_hr : HRESULT) (created : IDirectSoundBuffer)
    (SetVolume_hr SetPan_hr : HRESULT) : HRESULT × dsound_render :=
  let filter := { filter with buf_size := format.nAvgBytesPerSec }
  let hr := CreateSoundBuffer_hr
  let filter :=
    if FAILED hr then filter else { filter with dsbuffer := some created }
  let filter := { filter with writepos := filter.buf_size }
  if !FAILED hr then
    let filter :=
      if FAILED SetVolume_hr then filter
      else
        { filter with
          dsbuffer := filter.dsbuffer.map fun (b : IDirectSoundBuffer) =>
            { b with volume := filter.volume } }
    let filter :=
      if FAILED SetPan_hr then filter
      else
        { filter with
          dsbuffer := filter.dsbuffer.map fun (b : IDirectSoundBuffer) =>
            { b with pan := filter.pan } }
    (HRESULT.S_OK, filter)
  else if hr ≠ HRESULT.VFW_E_ALREADY_CONNECTED then
    (hr, { filter with dsbuffer := none })
  else
    (hr, filter)

/-- `dsound_render_sink_disconnect`: the hardware buffer is released. -/
def dsound_render_sink_disconnect (filter : dsound_render) : dsound_render :=
  { filter with dsbuffer := none }

/-- `dsound_render_sink_end_flush`.  (The call into the seeking passthrough is
left out.) -/
def dsound_render_sink_end_flush (filter : dsound_render) : HRESULT × dsound_render :=
  let filter := { filter with eos := false }
  let filter := { filter with flush_event := false }
  let filter :=
    match filter.dsbuffer with
    | some b =>
      -- Force a reset
      let l := IDirectSoundBuffer_Lock_entire filter.buf_size
      { filter with
        dsbuffer := some { b with bytes := memset b.bytes l.buf1 0 l.size1 },
        writepos := filter.buf_size }
    | none => filter
  (HRESULT.S_OK, filter)

/-- `dsound_render_stop_stream`. -/
def dsound_render_stop_stream (filter : dsound_render) : HRESULT × dsound_render :=
  let filter :=
    if filter.peer then
      { filter with
        dsbuffer := filter.dsbuffer.map fun (b : IDirectSoundBuffer) =>
          { b with playing := false },
        writepos := filter.buf_size }
    else filter
  (HRESULT.S_OK, filter)

/-! ## Volume and balance -/

/-- Modelled from the spec: the lowest volume of the valid hardware range,
`DSBVOLUME_MIN` of the DirectSound header, which is not among the sources. -/
def DSBVOLUME_MIN : Int := -10000

/-- Modelled from the spec: the highest volume of the valid hardware range,
`DSBVOLUME_MAX` of the DirectSound header, which is not among the sources. -/
def DSBVOLUME_MAX : Int := 0

/-- Modelled from the spec: the leftmost pan of the valid hardware range,
`DSBPAN_LEFT` of the DirectSound header, which is not among the sources. -/
def DSBPAN_LEFT : Int := -10000

/-- Modelled from the spec: the rightmost pan of the valid hardware range,
`DSBPAN_RIGHT` of the DirectSound header, which is not among the sources. -/
def DSBPAN_RIGHT : Int := 10000

/-- `Basicaudio_put_Volume`; `SetVolume_hr` is the result of
`IDirectSoundBuffer_SetVolume` should it be called. -/
def Basicaudio_put_Volume (filter : dsound_render) (lVolume : Int) (SetVolume_hr : HRESULT) :
    HRESULT × dsound_render :=
  if lVolume > DSBVOLUME_MAX ∨ lVolume < DSBVOLUME_MIN then
    (HRESULT.E_INVALIDARG, filter)
  else if filter.dsbuffer.isSome ∧ FAILED SetVolume_hr = true then
    (HRESULT.E_FAIL, filter)
  else
    (HRESULT.S_OK,
      { filter with
        dsbuffer := filter.dsbuffer.map fun (b : IDirectSoundBuffer) =>
          { b with volume := lVolume },
        volume := lVolume })

/-- `Basicaudio_get_Volume`; `plVolume` is `none` for a null pointer and holds
what the pointer refers to otherwise. -/
def Basicaudio_get_Volume (filter : dsound_render) (plVolume : Option Int) :
    HRESULT × Option Int :=
  match plVolume with
  | none => (HRESULT.E_POINTER, none)
  | some _ => (HRESULT.S_OK, some filter.volume)

/-- `Basicaudio_put_Balance`; `SetPan_hr` is the result of
`IDirectSoundBuffer_SetPan` should it be called. -/
def Basicaudio_put_Balance (filter : dsound_render) (lBalance : Int) (SetPan_hr : HRESULT) :
    HRESULT × dsound_render :=
  if lBalance < DSBPAN_LEFT ∨ lBalance > DSBPAN_RIGHT then
    (HRESULT.E_INVALIDARG, filter)
  else if filter.dsbuffer.isSome ∧ FAILED SetPan_hr = true then
    (HRESULT.E_FAIL, filter)
  else
    (HRESULT.S_OK,
      { filter with
        dsbuffer := filter.dsbuffer.map fun (b : IDirectSoundBuffer) =>
          { b with pan := lBalance },
        pan := lBalance })

/-- `Basicaudio_get_Balance`; `plBalance` is `none` for a null pointer. -/
def Basicaudio_get_Balance (filter : dsound_render) (plBalance : Option Int) :
    HRESULT × Option Int :=
  match plBalance with
  | none => (HRESULT.E_POINTER, none)
  | some _ => (HRESULT.S_OK, some filter.pan)

/-! ## Auxiliary definitions used by the statements and proofs -/

/-- The advance of the play cursor as `DSoundRender_UpdatePositions` computes it. -/
def play_advance (buf_size old_playpos playpos : Nat) : Nat :=
  if old_playpos > playpos then DWORD_sub (DWORD_add buf_size playpos) old_playpos
  else DWORD_sub playpos old_playpos

/-- The memory after the lock, the two `memset`s and the unlock of
`DSoundRender_UpdatePositions`. -/
def clear_played (buf_size old_playpos adv c : Nat) (mem : Nat → Nat) : Nat → Nat :=
  memset
    (memset mem (IDirectSoundBuffer_Lock buf_size old_playpos adv).buf1 c
      (IDirectSoundBuffer_Lock buf_size old_playpos adv).size1)
    (IDirectSoundBuffer_Lock buf_size old_playpos adv).buf2 c
    (IDirectSoundBuffer_Lock buf_size old_playpos adv).size2

/-- The test of `DSoundRender_UpdatePositions` that makes the sequential write
position follow the hardware write cursor. -/
def follows_hardware (filter : dsound_render) (hw : Cursor) : Bool :=
  !decide (filter.writepos < filter.buf_size) ||
    decide ((if filter.writepos ≤ filter.last_playpos then
        DWORD_add filter.writepos filter.buf_size else filter.writepos) < hw.writepos)

/-! ### Concrete renderers, cursors and ticks -/

/-- A ring of 8 bytes holding 1, 2, ..., 8. -/
def small_buffer : IDirectSoundBuffer := { bytes := fun i => i + 1 }

/-- A connected renderer over `small_buffer` whose last play position is 6. -/
def small_filter : dsound_render :=
  { mt := { nSamplesPerSec := 8, nAvgBytesPerSec := 8, nBlockAlign := 1, nChannels := 1,
            wBitsPerSample := 16 },
    dsbuffer := some small_buffer, buf_size := 8, last_playpos := 6, writepos := 8 }

/-- The format 44100 Hz, 16 bit, stereo: 176400 bytes per second in blocks of 4. -/
def pcm_stereo : WAVEFORMATEX :=
  { wFormatTag := 1, nChannels := 2, nSamplesPerSec := 44100, nAvgBytesPerSec := 176400,
    nBlockAlign := 4, wBitsPerSample := 16, cbSize := 0 }

/-- An unconnected renderer carrying the format `pcm_stereo`. -/
def stereo_filter : dsound_render := { mt := pcm_stereo }

/-- A running renderer with a clock, one second of `pcm_stereo` as ring buffer,
nothing written yet. -/
def clocked_filter : dsound_render :=
  { mt := pcm_stereo, state := FILTER_STATE.State_Running, clock := true, peer := true,
    dsbuffer := some {}, buf_size := 176400, last_playpos := 0, writepos := 176400 }

/-- The hardware 10 ms after the start: play cursor 0, write cursor 1764. -/
def early_cursor : Cursor := { playpos := 0, writepos := 1764 }

/-- The renderer `clocked_filter` without a clock and with half a second queued. -/
def half_full_filter : dsound_render :=
  { clocked_filter with clock := false, writepos := 88200 }

/-- A connected renderer at 22050 Hz, 16 bit, mono (44100 bytes per second)
with last play position 1000 and tracked write position 2000. -/
def scenario_filter : dsound_render :=
  { mt := { nSamplesPerSec := 22050, nAvgBytesPerSec := 44100, nBlockAlign := 2,
            nChannels := 1, wBitsPerSample := 16 },
    state := FILTER_STATE.State_Running, peer := true,
    dsbuffer := some { bytes := fun _ => 7 }, buf_size := 44100, last_playpos := 1000,
    writepos := 2000 }

/-- The renderer `scenario_filter` at 44100 Hz, 8 bit, mono (44100 bytes per second). -/
def scenario_filter8 : dsound_render :=
  { scenario_filter with
    mt := { nSamplesPerSec := 44100, nAvgBytesPerSec := 44100, nBlockAlign := 1,
            nChannels := 1, wBitsPerSample := 8 } }

/-- A running renderer connected with `pcm_stereo`, with 1000 bytes queued. -/
def running_filter : dsound_render :=
  { mt := pcm_stereo, state := FILTER_STATE.State_Running, peer := true,
    dsbuffer := some { frequency := 44100 }, buf_size := 176400, last_playpos := 500,
    writepos := 1500 }

/-- A stopped renderer on which end of stream has been signalled. -/
def stopped_eos_filter : dsound_render :=
  { running_filter with state := FILTER_STATE.State_Stopped, eos := true }

/-- A paused renderer connected with `pcm_stereo`, nothing signalled. -/
def paused_filter : dsound_render :=
  { running_filter with state := FILTER_STATE.State_Paused }

/-- A tick during which the renderer stays paused; `flushing` tells whether a
flush has begun. -/
def paused_tick (flushing : Bool) : Tick :=
  { cursor := { playpos := 500, writepos := 600 }, state := FILTER_STATE.State_Paused,
    flushing := flushing }

/-- The renderer a pass of the feeder loop leaves behind. -/
def LoopStep.renderer : LoopStep → dsound_render
  | LoopStep.ret _ filter => filter
  | LoopStep.next filter _ _ => filter

/-- `Reachable origin filter`: the renderer `filter` can be reached from
`origin`, the renderer right after a successful connect (of any renderer, so
also of one that was connected before), by position updates, planning,
feeding, receiving, stop, end of flush and format changes, with the hardware
reporting cursors below `buf_size`; the base class may change the stream
state, the clock, the flushing flag and the stream start in between. -/
inductive Reachable : dsound_render → dsound_render → Prop where
  | connect (filter : dsound_render) (format : WAVEFORMATEX) (CreateSoundBuffer_hr : HRESULT)
      (created : IDirectSoundBuffer) (SetVolume_hr SetPan_hr : HRESULT) :
      (dsound_render_sink_connect filter format CreateSoundBuffer_hr created SetVolume_hr
        SetPan_hr).1 = HRESULT.S_OK →
      Reachable
        (dsound_render_sink_connect filter format CreateSoundBuffer_hr created SetVolume_hr
          SetPan_hr).2
        (dsound_render_sink_connect filter format CreateSoundBuffer_hr created SetVolume_hr
          SetPan_hr).2
  | update_positions (origin filter : dsound_render) (hw : Cursor) :
      Reachable origin filter → hw.playpos < filter.buf_size →
      hw.writepos < filter.buf_size →
      Reachable origin (DSoundRender_UpdatePositions filter hw).filter
  | plan_write (origin filter : dsound_render) (write_at : Int) (hw : Cursor) (now : Int) :
      Reachable origin filter → hw.playpos < filter.buf_size →
      hw.writepos < filter.buf_size →
      Reachable origin (DSoundRender_GetWritePos filter write_at hw now).filter
  | feed (origin filter : dsound_render) (tStart tStop : Int) (data : List Nat)
      (env : List Tick) :
      Reachable origin filter →
      (∀ t ∈ env, t.cursor.playpos < filter.buf_size ∧ t.cursor.writepos < filter.buf_size) →
      Reachable origin (DSoundRender_SendSampleData filter tStart tStop data env).filter
  | receive (origin filter : dsound_render) (sample : IMediaSample)
      (SetFrequency_hr : HRESULT) (env : List Tick) :
      Reachable origin filter →
      (∀ t ∈ env, t.cursor.playpos < filter.buf_size ∧ t.cursor.writepos < filter.buf_size) →
      Reachable origin (dsound_render_sink_Receive filter sample SetFrequency_hr env).filter
  | stop (origin filter : dsound_render) :
      Reachable origin filter → Reachable origin (dsound_render_stop_stream filter).2
  | end_flush (origin filter : dsound_render) :
      Reachable origin filter → Reachable origin (dsound_render_sink_end_flush filter).2
  | format_change (origin filter : dsound_render) (pSample : IMediaSample)
      (SetFrequency_hr : HRESULT) :
      Reachable origin filter →
      Reachable origin (DSoundRender_PrepareReceive filter pSample SetFrequency_hr).filter
  | base_class (origin filter : dsound_render) (state : FILTER_STATE) (clock flushing : Bool)
      (stream_start : Int) :
      Reachable origin filter →
      Reachable origin { filter with
        state := state, clock := clock, flushing := flushing, stream_start := stream_start }

/-- The format 8000 Hz, 8 bit, mono: 8000 bytes per second in blocks of 1. -/
def pcm_phone : WAVEFORMATEX :=
  { wFormatTag := 1, nChannels := 1, nSamplesPerSec := 8000, nAvgBytesPerSec := 8000,
    nBlockAlign := 1, wBitsPerSample := 8, cbSize := 0 }

/-- A renderer that was connected with `pcm_stereo`, has played up to byte
100000 of its ring of 176400 bytes and has been disconnected. -/
def played_filter : dsound_render :=
  dsound_render_sink_disconnect
    (DSoundRender_UpdatePositions
      (dsound_render_sink_connect dsound_render_create pcm_stereo HRESULT.S_OK {}
        HRESULT.S_OK HRESULT.S_OK).2 (Cursor.mk 100000 100900)).filter

/-- A renderer over a ring of 100 bytes with the previous play position
`last_playpos` and the tracked write cursor `writepos`. -/
def ring100 (last_playpos writepos : Nat) : dsound_render :=
  { mt := { nSamplesPerSec := 100, nAvgBytesPerSec := 100, nBlockAlign := 1, nChannels := 1,
            wBitsPerSample := 8 },
    state := FILTER_STATE.State_Running, peer := true, dsbuffer := some {}, buf_size := 100,
    last_playpos := last_playpos, writepos := writepos }

/-- A running renderer without a clock whose tracked write cursor is unset. -/
def unset_filter : dsound_render := { running_filter with writepos := 176400 }

/-- A tick in the running state with the play cursor at 0 and the write cursor
at 1764, during which locking the buffer gives `lock_hr`. -/
def running_tick (lock_hr : HRESULT) : Tick :=
  { cursor := { playpos := 0, writepos := 1764 }, lock_hr := lock_hr,
    state := FILTER_STATE.State_Running }

/-- A tick during which a flush begins while the renderer is running. -/
def flush_tick : Tick :=
  { cursor := { playpos := 0, writepos := 1764 }, state := FILTER_STATE.State_Running,
    flushing := true }

/-- The renderer `clocked_filter` with half a second queued. -/
def queued_filter : dsound_render := { clocked_filter with writepos := 88200 }

/-- A 48000 Hz, 24 bit, mono format: 144000 bytes per second, 3-byte frames. -/
def pcm24_mono : WAVEFORMATEX :=
  { wFormatTag := 1, nChannels := 1, nSamplesPerSec := 48000, nAvgBytesPerSec := 144000,
    nBlockAlign := 3, wBitsPerSample := 24, cbSize := 0 }

/-- A running renderer with a clock, one second of `pcm24_mono` as ring buffer,
nothing written yet. -/
def mono24_filter : dsound_render :=
  { clocked_filter with mt := pcm24_mono, buf_size := 144000, writepos := 144000 }

/-- The bytes of the ring after one locked write of `n` bytes of `src` at
offset `w`: the two `memcpy` calls of the feeder on the spans of the lock. -/
def ring_write (mem : Nat → Nat) (bs w : Nat) (src : List Nat) (n : Nat) : Nat → Nat :=
  let l := IDirectSoundBuffer_Lock bs w n
  let m := memcpy mem l.buf1 src l.size1
  if l.size2 ≠ 0 then memcpy m l.buf2 (src.drop l.size1) l.size2 else m

/-- The hardware buffer after one locked write of the feeder. -/
def buffer_write (b : IDirectSoundBuffer) (bs w : Nat) (src : List Nat) (n : Nat) :
    IDirectSoundBuffer :=
  { b with bytes := ring_write b.bytes bs w src n }
/-- A tick in the running state with the play cursor at 90 and the write cursor
at 95 of a ring of 100 bytes; the lock succeeds. -/
def ring_tick : Tick :=
  { cursor := { playpos := 90, writepos := 95 }, state := FILTER_STATE.State_Running }

/-- The loop variables at the head of one pass of the loop of
`DSoundRender_SendSampleData`, with the tick the pass runs in. -/
structure Pass where
  filter : dsound_render
  tStart : Int
  data : List Nat
  tick : Tick

/-- The passes one call of `DSoundRender_SendSampleData` runs, in order: the
loop variables with which `DSoundRender_SendSampleData_body` is entered. -/
def SendSampleData_passes (filter : dsound_render) (tStart : Int) (data : List Nat)
    (env : List Tick) : List Pass :=
  if data.length = 0 ∨ filter.state = FILTER_STATE.State_Stopped then
    []
  else
    match env with
    | [] => []
    | t :: rest =>
      { filter := filter, tStart := tStart, data := data, tick := t } ::
        match DSoundRender_SendSampleData_body filter tStart data t with
        | LoopStep.ret _ _ => []
        | LoopStep.next filter tStart data => SendSampleData_passes filter tStart data rest

/-- What the pass does. -/
def Pass.step (p : Pass) : LoopStep :=
  DSoundRender_SendSampleData_body p.filter p.tStart p.data p.tick

/-- The plan the planner gives (or would give) in the pass. -/
def Pass.plan (p : Pass) : WritePos :=
  DSoundRender_GetWritePos p.filter p.tStart p.tick.cursor p.tick.now

/-- The pass calls the planner and obtains an `S_OK` plan. -/
def Pass.planned (p : Pass) : Bool :=
  decide (p.filter.state = FILTER_STATE.State_Running) && decide (p.plan.hr = HRESULT.S_OK)
/-- A running renderer with a clock over a ring of 100 bytes (100 bytes per
second), nothing written yet. -/
def clocked_ring : dsound_render := { ring100 0 100 with clock := true }

/-- Two ticks 100 ms apart, during which the hardware plays 10 bytes; the
write cursor is 5 bytes ahead of the play cursor. -/
def ring_env : List Tick :=
  [{ cursor := { playpos := 0, writepos := 5 }, now := 0,
     state := FILTER_STATE.State_Running },
   { cursor := { playpos := 10, writepos := 15 }, now := 1000000,
     state := FILTER_STATE.State_Running }]

/-- A sample of 97 bytes. -/
def ring_sample : List Nat := List.replicate 97 7

/-- The pass obtains an `S_OK` plan and goes on to write: it does not return. -/
def Pass.writes (p : Pass) : Bool :=
  p.planned &&
    match p.step with
    | LoopStep.next _ _ _ => true
    | LoopStep.ret _ _ => false

/-- The bytes a pass with an `S_OK` plan has put into the ring: the bytes found
in the hardware buffer after the pass, from the target offset of the plan on,
as many as the pass has taken from the input after the skipped ones. -/
def Pass.written (p : Pass) : List Nat :=
  match p.step with
  | LoopStep.next g _ d =>
    if p.planned then
      (List.range (p.data.length - p.plan.skip - d.length)).map fun i =>
        match g.dsbuffer with
        | some b => b.bytes ((p.plan.ret_writepos.getD 0 + i) % g.buf_size)
        | none => 0
    else []
  | LoopStep.ret _ _ => []

/-- The bytes one call of `DSoundRender_SendSampleData` writes, in order. -/
def SendSampleData_written (filter : dsound_render) (tStart : Int) (data : List Nat)
    (env : List Tick) : List Nat :=
  ((SendSampleData_passes filter tStart data env).map Pass.written).flatten

/-- The `skip` of the first `S_OK` plan of a call, 0 if there is none. -/
def SendSampleData_first_skip (filter : dsound_render) (tStart : Int) (data : List Nat)
    (env : List Tick) : Nat :=
  (((SendSampleData_passes filter tStart data env).find? Pass.planned).map
    fun p => p.plan.skip).getD 0

/-- A tick during which the renderer is stopped. -/
def stop_tick : Tick :=
  { cursor := { playpos := 500, writepos := 600 }, state := FILTER_STATE.State_Stopped }

/-! ## Lemmas -/

theorem mod_wrap (a bs : Nat) (h : a < 2 * bs) :
    a % bs = if a < bs then a else a - bs := by
  split_ifs with h1
  · exact Nat.mod_eq_of_lt h1
  · have h2 : a = (a - bs) + bs := by omega
    rw [h2, Nat.add_mod_right, Nat.mod_eq_of_lt (by omega)]
    omega

theorem UpdatePositions_last_playpos (filter : dsound_render) (hw : Cursor) :
    (DSoundRender_UpdatePositions filter hw).filter.last_playpos = hw.playpos := by
  unfold DSoundRender_UpdatePositions
  simp only
  split_ifs <;> rfl

theorem UpdatePositions_dsbuffer (filter : dsound_render) (hw : Cursor) :
    (DSoundRender_UpdatePositions filter hw).filter.dsbuffer =
      if play_advance filter.buf_size filter.last_playpos hw.playpos ≠ 0 then
        filter.dsbuffer.map fun b =>
          { b with
            bytes := clear_played filter.buf_size filter.last_playpos
              (play_advance filter.buf_size filter.last_playpos hw.playpos)
              (if filter.mt.wBitsPerSample = 8 then 128 else 0) b.bytes }
      else filter.dsbuffer := by
  unfold DSoundRender_UpdatePositions play_advance clear_played
  simp only
  split_ifs <;> rfl

theorem play_advance_eq (bs old p : Nat) (hdw : bs < 4294967296) (hold : old < bs)
    (hp : p < bs) : play_advance bs old p = (p + bs - old) % bs := by
  rw [mod_wrap _ _ (by omega)]
  unfold play_advance DWORD_sub DWORD_add
  split_ifs <;> omega

theorem clear_played_apply (bs old adv c : Nat) (mem : Nat → Nat) (j : Nat)
    (hold : old < bs) (hadv : adv < bs) :
    clear_played bs old adv c mem j =
      if (old ≤ j ∧ j < old + adv ∧ j < bs) ∨ (j + bs < old + adv) then c else mem j := by
  unfold clear_played memset IDirectSoundBuffer_Lock
  by_cases h : old + adv ≤ bs
  · simp only [h, if_true]
    split_ifs <;> first | rfl | omega
  · simp only [h, if_false]
    split_ifs <;> first | rfl | omega

theorem time_from_pos_eq (filter : dsound_render) (pos : Nat) :
    time_from_pos filter pos = ((10000000 * pos / filter.mt.nAvgBytesPerSec : Nat) : Int) := by
  unfold time_from_pos
  simp only
  rw [Int.ofNat_tdiv]
  push_cast
  rfl

theorem pos_from_time_ofNat (filter : dsound_render) (t : Nat) :
    pos_from_time filter (t : Int) =
      (t * filter.mt.nAvgBytesPerSec / 10000000
        - t * filter.mt.nAvgBytesPerSec / 10000000 % filter.mt.nBlockAlign) % 4294967296 := by
  unfold pos_from_time DWORD_of
  simp only
  have h1 : Int.tdiv ((t : Int) * (filter.mt.nAvgBytesPerSec : Int)) 10000000
      = ((t * filter.mt.nAvgBytesPerSec / 10000000 : Nat) : Int) := by
    rw [Int.ofNat_tdiv]; push_cast; rfl
  rw [h1]
  generalize t * filter.mt.nAvgBytesPerSec / 10000000 = q
  have h2 : Int.tmod (q : Int) (filter.mt.nBlockAlign : Int)
      = ((q % filter.mt.nBlockAlign : Nat) : Int) := by
    rw [Int.ofNat_tmod]
  rw [h2]
  have h3 : q % filter.mt.nBlockAlign ≤ q := Nat.mod_le _ _
  omega


/-! ## The position tracker clears what has been played (C1) -/

/-- C1: with `buf_size < 2 ^ 32`, a previous play position `old < buf_size` (so
`buf_size > 0`) and a hardware play cursor `p < buf_size`,
`DSoundRender_UpdatePositions` sets `last_playpos` to `p` and fills the
`adv = (p - old) mod buf_size` bytes at the offsets `(old + i) mod buf_size`,
`i < adv`, with 0 (with 128 when `wBitsPerSample` is 8); these offsets are
pairwise distinct, every other byte is unchanged, and with `adv = 0` the
memory is unchanged. -/
theorem C1_UpdatePositions_clears_played_range (filter : dsound_render) (hw : Cursor)
    (b : IDirectSoundBuffer) (hb : filter.dsbuffer = some b)
    (hdw : filter.buf_size < 4294967296)
    (hold : filter.last_playpos < filter.buf_size) (hp : hw.playpos < filter.buf_size) :
    ∃ b1 : IDirectSoundBuffer,
      (DSoundRender_UpdatePositions filter hw).filter.dsbuffer = some b1 ∧
      (DSoundRender_UpdatePositions filter hw).filter.last_playpos = hw.playpos ∧
      (∀ i, i < (hw.playpos + filter.buf_size - filter.last_playpos) % filter.buf_size →
        b1.bytes ((filter.last_playpos + i) % filter.buf_size) =
          if filter.mt.wBitsPerSample = 8 then 128 else 0) ∧
      (∀ i k, i < (hw.playpos + filter.buf_size - filter.last_playpos) % filter.buf_size →
        k < (hw.playpos + filter.buf_size - filter.last_playpos) % filter.buf_size →
        (filter.last_playpos + i) % filter.buf_size = (filter.last_playpos + k) % filter.buf_size →
        i = k) ∧
      (∀ j, (∀ i, i < (hw.playpos + filter.buf_size - filter.last_playpos) % filter.buf_size →
          j ≠ (filter.last_playpos + i) % filter.buf_size) → b1.bytes j = b.bytes j) ∧
      ((hw.playpos + filter.buf_size - filter.last_playpos) % filter.buf_size = 0 →
        b1.bytes = b.bytes) := by
  have hadv := play_advance_eq filter.buf_size filter.last_playpos hw.playpos hdw hold hp
  have hlt : (hw.playpos + filter.buf_size - filter.last_playpos) % filter.buf_size
      < filter.buf_size := Nat.mod_lt _ (by omega)
  generalize (hw.playpos + filter.buf_size - filter.last_playpos) % filter.buf_size = adv
    at hadv hlt ⊢
  rw [UpdatePositions_dsbuffer, UpdatePositions_last_playpos, hb, hadv]
  by_cases h0 : adv = 0
  · subst h0
    refine ⟨b, by simp, rfl, ?_, ?_, ?_, ?_⟩
    · intro i hi; omega
    · intro i k hi; omega
    · intro j _; rfl
    · intro _; rfl
  · refine ⟨_, by simp only [h0, ne_eq, not_false_eq_true, if_true, Option.map_some']; rfl,
      rfl, ?_, ?_, ?_, ?_⟩
    · intro i hi
      simp only
      rw [clear_played_apply _ _ _ _ _ _ hold hlt, mod_wrap _ _ (by omega)]
      split_ifs <;> first | rfl | omega
    · intro i k hi hk
      rw [mod_wrap _ _ (by omega), mod_wrap _ _ (by omega)]
      split_ifs <;> omega
    · intro j hj
      simp only
      rw [clear_played_apply _ _ _ _ _ _ hold hlt]
      rw [if_neg]
      rintro (⟨h1, h2, h3⟩ | h1)
      · apply hj (j - filter.last_playpos) (by omega)
        rw [mod_wrap _ _ (by omega)]
        split_ifs <;> omega
      · apply hj (j + filter.buf_size - filter.last_playpos) (by omega)
        rw [mod_wrap _ _ (by omega)]
        split_ifs <;> omega
    · intro h; omega

/-- Witness for C1: a ring of 8 bytes whose play cursor wraps from 6 to 2. -/
theorem C1_UpdatePositions_clears_played_range_witness :
    (small_filter.dsbuffer = some small_buffer ∧ small_filter.buf_size < 4294967296 ∧
      small_filter.last_playpos < small_filter.buf_size ∧
      (Cursor.mk 2 3).playpos < small_filter.buf_size) ∧
    ∃ b1 : IDirectSoundBuffer,
      (DSoundRender_UpdatePositions small_filter (Cursor.mk 2 3)).filter.dsbuffer = some b1 ∧
      b1.bytes 6 = 0 ∧ b1.bytes 7 = 0 ∧ b1.bytes 0 = 0 ∧ b1.bytes 1 = 0 ∧
      b1.bytes 2 = 3 ∧ b1.bytes 5 = 6 := by
  refine ⟨⟨rfl, by decide, by decide, by decide⟩, ?_⟩
  obtain ⟨b1, h1, _, h3, _, h5, _⟩ :=
    C1_UpdatePositions_clears_played_range small_filter (Cursor.mk 2 3) small_buffer rfl
      (by decide) (by decide) (by decide)
  refine ⟨b1, h1, h3 0 (by decide), h3 1 (by decide), h3 2 (by decide), h3 3 (by decide),
    ?_, ?_⟩
  · rw [h5 2 (by decide)]; rfl
  · rw [h5 5 (by decide)]; rfl

/-! ## Round trip of the conversions (C2) -/

/-- C2 fails as stated: at 176400 bytes per second and 4-byte blocks the
block-aligned offset 4 maps to 226 ticks, and 226 ticks map back to offset 0. -/
theorem C2_counterexample :
    0 < stereo_filter.mt.nAvgBytesPerSec ∧ 0 < stereo_filter.mt.nBlockAlign ∧
    4 % stereo_filter.mt.nBlockAlign = 0 ∧
    pos_from_time stereo_filter (time_from_pos stereo_filter 4) = 0 ∧
    pos_from_time stereo_filter (time_from_pos stereo_filter 4) ≠ 4 := by
  decide

/-- C2, amended: for a format with `nAvgBytesPerSec > 0` and `nBlockAlign > 0`
and a 32-bit byte offset `x` that is a multiple of `nBlockAlign`,
`pos_from_time (time_from_pos x)` is at most `x`, and it equals `x` exactly
when `nAvgBytesPerSec` divides `10000000 * x`. -/
theorem C2_round_trip_iff (filter : dsound_render) (x : Nat)
    (_hB : 0 < filter.mt.nAvgBytesPerSec) (_hA : 0 < filter.mt.nBlockAlign)
    (hx : x < 4294967296) (hal : x % filter.mt.nBlockAlign = 0) :
    pos_from_time filter (time_from_pos filter x) ≤ x ∧
    (pos_from_time filter (time_from_pos filter x) = x ↔
      filter.mt.nAvgBytesPerSec ∣ 10000000 * x) := by
  rw [time_from_pos_eq, pos_from_time_ofNat]
  generalize filter.mt.nAvgBytesPerSec = B at *
  generalize filter.mt.nBlockAlign = A at *
  have h1 : 10000000 * x / B * B ≤ 10000000 * x := Nat.div_mul_le_self _ _
  have hdiv : B ∣ 10000000 * x ↔ 10000000 * x / B * B = 10000000 * x :=
    ⟨fun h => Nat.div_mul_cancel h, fun h => ⟨10000000 * x / B, by rw [Nat.mul_comm B, h]⟩⟩
  rw [hdiv]
  generalize 10000000 * x / B * B = m at *
  have h3 : m / 10000000 % A ≤ m / 10000000 := Nat.mod_le _ _
  constructor
  · omega
  · constructor
    · intro h
      omega
    · intro h
      subst h
      have h5 : 10000000 * x / 10000000 = x := by omega
      rw [h5, hal]
      omega

/-- Witness for C2: one second of audio (176400 bytes) round-trips exactly. -/
theorem C2_round_trip_iff_witness :
    (0 < stereo_filter.mt.nAvgBytesPerSec ∧ 0 < stereo_filter.mt.nBlockAlign ∧
      176400 < 4294967296 ∧ 176400 % stereo_filter.mt.nBlockAlign = 0) ∧
    pos_from_time stereo_filter (time_from_pos stereo_filter 176400) ≤ 176400 ∧
    (pos_from_time stereo_filter (time_from_pos stereo_filter 176400) = 176400 ↔
      stereo_filter.mt.nAvgBytesPerSec ∣ 10000000 * 176400) :=
  ⟨⟨by decide, by decide, by decide, by decide⟩,
    C2_round_trip_iff stereo_filter 176400 (by decide) (by decide) (by decide) (by decide)⟩

/-! ## Lemmas on the planner -/

theorem ring_distance_eq (bs a b : Nat) (hdw : bs < 4294967296) (ha : a < bs) (hb : b < bs) :
    (if a ≥ b then DWORD_sub a b else DWORD_sub (DWORD_add bs a) b) = (a + bs - b) % bs := by
  rw [mod_wrap _ _ (by omega)]
  unfold DWORD_sub DWORD_add
  split_ifs <;> omega

theorem UpdatePositions_mt (filter : dsound_render) (hw : Cursor) :
    (DSoundRender_UpdatePositions filter hw).filter.mt = filter.mt := by
  unfold DSoundRender_UpdatePositions
  simp only
  split_ifs <;> rfl

theorem UpdatePositions_clock (filter : dsound_render) (hw : Cursor) :
    (DSoundRender_UpdatePositions filter hw).filter.clock = filter.clock := by
  unfold DSoundRender_UpdatePositions
  simp only
  split_ifs <;> rfl

theorem UpdatePositions_stream_start (filter : dsound_render) (hw : Cursor) :
    (DSoundRender_UpdatePositions filter hw).filter.stream_start = filter.stream_start := by
  unfold DSoundRender_UpdatePositions
  simp only
  split_ifs <;> rfl

theorem UpdatePositions_buf_size (filter : dsound_render) (hw : Cursor) :
    (DSoundRender_UpdatePositions filter hw).filter.buf_size = filter.buf_size := by
  unfold DSoundRender_UpdatePositions
  simp only
  split_ifs <;> rfl

theorem UpdatePositions_minwritepos (filter : dsound_render) (hw : Cursor) :
    (DSoundRender_UpdatePositions filter hw).minwritepos = hw.writepos := by
  unfold DSoundRender_UpdatePositions
  simp only
  split_ifs <;> rfl

theorem UpdatePositions_seqwritepos (filter : dsound_render) (hw : Cursor) :
    (DSoundRender_UpdatePositions filter hw).seqwritepos =
      if follows_hardware filter hw then hw.writepos else filter.writepos := by
  unfold DSoundRender_UpdatePositions follows_hardware
  simp only
  split_ifs <;> rfl

theorem UpdatePositions_seqwritepos_lt (filter : dsound_render) (hw : Cursor)
    (hw_lt : hw.writepos < filter.buf_size) :
    (DSoundRender_UpdatePositions filter hw).seqwritepos < filter.buf_size := by
  rw [UpdatePositions_seqwritepos]
  by_cases h : follows_hardware filter hw = true
  · rw [if_pos h]; exact hw_lt
  · rw [if_neg h]
    unfold follows_hardware at h
    simp only [Bool.or_eq_true, Bool.not_eq_true', decide_eq_false_iff_not, decide_eq_true_eq,
      not_or, not_not] at h
    exact h.1

theorem time_from_pos_congr (f g : dsound_render) (h : f.mt = g.mt) (pos : Nat) :
    time_from_pos f pos = time_from_pos g pos := by
  unfold time_from_pos
  rw [h]

theorem pos_from_time_congr (f g : dsound_render) (h : f.mt = g.mt) (t : Int) :
    pos_from_time f t = pos_from_time g t := by
  unfold pos_from_time
  rw [h]

theorem GetWritePos_end_ret_writepos (filter : dsound_render) (playpos w skip : Nat) :
    (DSoundRender_GetWritePos_end filter playpos w skip).ret_writepos = some w := by
  unfold DSoundRender_GetWritePos_end
  simp only
  split_ifs <;> rfl

theorem GetWritePos_end_skip (filter : dsound_render) (playpos w skip : Nat) :
    (DSoundRender_GetWritePos_end filter playpos w skip).skip = skip := by
  unfold DSoundRender_GetWritePos_end
  simp only
  split_ifs <;> rfl

theorem writepos_t_eq (g filter : dsound_render) (cur : Int) (bs a b : Nat)
    (hmt : g.mt = filter.mt) (hdw : bs < 4294967296) (ha : a < bs) (hb : b < bs) :
    (if a ≥ b then cur + time_from_pos g (DWORD_sub a b)
      else cur + time_from_pos g (DWORD_sub (DWORD_add bs a) b))
      = cur + time_from_pos filter ((a + bs - b) % bs) := by
  rw [← ring_distance_eq bs a b hdw ha hb]
  simp only [time_from_pos_congr g filter hmt]
  split_ifs <;> rfl

theorem min_writepos_t_eq (g filter : dsound_render) (cur : Int) (bs a b : Nat)
    (hmt : g.mt = filter.mt) (hdw : bs < 4294967296) (ha : a < bs) (hb : b < bs) :
    (if a ≥ b then cur + time_from_pos g (DWORD_sub a b)
      else cur + time_from_pos g (DWORD_add (DWORD_sub bs b) a))
      = cur + time_from_pos filter ((a + bs - b) % bs) := by
  rw [← ring_distance_eq bs a b hdw ha hb]
  simp only [time_from_pos_congr g filter hmt]
  have h : ¬ a ≥ b → DWORD_add (DWORD_sub bs b) a = DWORD_sub (DWORD_add bs a) b := by
    intro h
    unfold DWORD_add DWORD_sub
    omega
  split_ifs with h1
  · rfl
  · rw [h h1]

/-- The planner in a form that names the quantities of its decision. -/
theorem GetWritePos_eq (filter : dsound_render) (write_at now : Int) (hw : Cursor)
    (hdw : filter.buf_size < 4294967296)
    (hplay : hw.playpos < filter.buf_size) (hwrite : hw.writepos < filter.buf_size)
    (seq : Nat) (hseq : seq = (DSoundRender_UpdatePositions filter hw).seqwritepos)
    (delta : Int) (hdelta : delta = write_at - (now - filter.stream_start + time_from_pos filter
      ((seq + filter.buf_size - hw.playpos) % filter.buf_size)))
    (past : Int) (hpast : past = now - filter.stream_start + time_from_pos filter
      ((hw.writepos + filter.buf_size - hw.playpos) % filter.buf_size) - write_at)
    (tol : Int) (htol : tol = if hw.writepos = seq then 0 else 500000) :
    DSoundRender_GetWritePos filter write_at hw now =
      if filter.clock = false ∨ write_at < 0 then
        DSoundRender_GetWritePos_end (DSoundRender_UpdatePositions filter hw).filter
          hw.playpos seq 0
      else if -tol ≤ delta ∧ delta ≤ tol then
        DSoundRender_GetWritePos_end (DSoundRender_UpdatePositions filter hw).filter
          hw.playpos seq 0
      else if delta < 0 then
        if 0 ≤ past then
          DSoundRender_GetWritePos_end (DSoundRender_UpdatePositions filter hw).filter
            hw.playpos hw.writepos (pos_from_time filter past)
        else
          DSoundRender_GetWritePos_end (DSoundRender_UpdatePositions filter hw).filter
            hw.playpos (DWORD_add hw.writepos (pos_from_time filter (-past)) % filter.buf_size) 0
      else if DSoundRenderer_Max_Fill ≤ delta then
        { hr := HRESULT.S_FALSE, filter := (DSoundRender_UpdatePositions filter hw).filter,
          ret_writepos := none, pfree := none, skip := 0 }
      else
        DSoundRender_GetWritePos_end (DSoundRender_UpdatePositions filter hw).filter
          hw.playpos (DWORD_add hw.writepos (pos_from_time filter delta) % filter.buf_size) 0 := by
  have hs := UpdatePositions_seqwritepos_lt filter hw hwrite
  have hmt := UpdatePositions_mt filter hw
  rw [← hseq] at hs
  unfold DSoundRender_GetWritePos
  simp only [UpdatePositions_last_playpos, UpdatePositions_clock, UpdatePositions_stream_start,
    UpdatePositions_buf_size, UpdatePositions_minwritepos, ← hseq,
    writepos_t_eq _ filter _ _ _ _ hmt hdw hs hplay,
    min_writepos_t_eq _ filter _ _ _ _ hmt hdw hwrite hplay,
    pos_from_time_congr _ filter hmt]
  have htol2 : (if seq = hw.writepos then (0 : Int) else 50 * 10000) = tol := by
    rw [htol]; split_ifs <;> first | rfl | omega
  rw [htol2]
  subst hdelta hpast
  cases hc : filter.clock
  · simp
  · simp only [if_true, Bool.true_eq_false, false_or, ge_iff_le]

theorem GetWritePos_end_spec (g filter : dsound_render) (play w s : Nat)
    (hmt : g.mt = filter.mt) (hbs : g.buf_size = filter.buf_size)
    (hdw : filter.buf_size < 4294967296) (hplay : play < filter.buf_size)
    (hw : w < filter.buf_size) :
    (DSoundRender_GetWritePos_end g play w s).ret_writepos = some w ∧
    (DSoundRender_GetWritePos_end g play w s).skip = s ∧
    (DSoundRender_GetWritePos_end g play w s).filter = g ∧
    (DSoundRender_GetWritePos_end g play w s).pfree
      = some ((play + filter.buf_size - w) % filter.buf_size) ∧
    (DSoundRender_GetWritePos_end g play w s).hr
      = if 1500000 ≤ time_from_pos filter
            (filter.buf_size - (play + filter.buf_size - w) % filter.buf_size)
        then HRESULT.S_FALSE else HRESULT.S_OK := by
  have hd := ring_distance_eq filter.buf_size play w hdw hplay hw
  have hlt : (play + filter.buf_size - w) % filter.buf_size < filter.buf_size :=
    Nat.mod_lt _ (by omega)
  have hsub : DWORD_sub filter.buf_size ((play + filter.buf_size - w) % filter.buf_size)
      = filter.buf_size - (play + filter.buf_size - w) % filter.buf_size := by
    unfold DWORD_sub; omega
  unfold DSoundRender_GetWritePos_end
  simp only [hbs, hd, hsub, time_from_pos_congr g filter hmt, DSoundRenderer_Max_Fill]
  split_ifs with h1 h2 h2
  · exact ⟨rfl, rfl, rfl, rfl, rfl⟩
  · omega
  · omega
  · exact ⟨rfl, rfl, rfl, rfl, rfl⟩

/-! ## The planner (C3, C4, C5) -/

/-- C3: with a clock attached, `write_at ≥ 0` and hardware cursors inside the
ring, let `seq` be the sequential write position delivered by
`DSoundRender_UpdatePositions`, `delta = write_at - (cur + time_from_pos ((seq -
play) mod buf_size))` with `cur = now - stream_start`, and `tol = 0` if the
minimum write position equals `seq` and 500000 ticks otherwise.  Whenever
`-tol ≤ delta ≤ tol`, `DSoundRender_GetWritePos` returns the target offset
`seq` and `skip = 0`. -/
theorem C3_GetWritePos_steady_state (filter : dsound_render) (write_at now : Int) (hw : Cursor)
    (hclock : filter.clock = true) (hat : 0 ≤ write_at)
    (hdw : filter.buf_size < 4294967296)
    (hplay : hw.playpos < filter.buf_size) (hwrite : hw.writepos < filter.buf_size)
    (hlo : -(if (DSoundRender_UpdatePositions filter hw).minwritepos
              = (DSoundRender_UpdatePositions filter hw).seqwritepos then (0 : Int) else 500000)
        ≤ write_at - (now - filter.stream_start + time_from_pos filter
            (((DSoundRender_UpdatePositions filter hw).seqwritepos + filter.buf_size
              - hw.playpos) % filter.buf_size)))
    (hhi : write_at - (now - filter.stream_start + time_from_pos filter
            (((DSoundRender_UpdatePositions filter hw).seqwritepos + filter.buf_size
              - hw.playpos) % filter.buf_size))
        ≤ (if (DSoundRender_UpdatePositions filter hw).minwritepos
              = (DSoundRender_UpdatePositions filter hw).seqwritepos then (0 : Int) else 500000)) :
    (DSoundRender_GetWritePos filter write_at hw now).ret_writepos
        = some (DSoundRender_UpdatePositions filter hw).seqwritepos ∧
      (DSoundRender_GetWritePos filter write_at hw now).skip = 0 := by
  rw [UpdatePositions_minwritepos] at hlo hhi
  rw [GetWritePos_eq filter write_at now hw hdw hplay hwrite _ rfl _ rfl _ rfl _ rfl,
    if_neg (by simp only [hclock, Bool.true_eq_false, false_or]; omega), if_pos ⟨hlo, hhi⟩]
  exact ⟨GetWritePos_end_ret_writepos _ _ _ _, GetWritePos_end_skip _ _ _ _⟩


/-- Witness for C3: nothing queued, sample stamped with the time of the
hardware write cursor (10 ms). -/
theorem C3_GetWritePos_steady_state_witness :
    (clocked_filter.clock = true ∧ (0 : Int) ≤ 100000 ∧ clocked_filter.buf_size < 4294967296 ∧
      early_cursor.playpos < clocked_filter.buf_size ∧ early_cursor.writepos < clocked_filter.buf_size) ∧
    (DSoundRender_GetWritePos clocked_filter 100000 early_cursor 0).ret_writepos = some 1764 ∧
    (DSoundRender_GetWritePos clocked_filter 100000 early_cursor 0).skip = 0 :=
  ⟨⟨rfl, by decide, by decide, by decide, by decide⟩,
    C3_GetWritePos_steady_state clocked_filter 100000 0 early_cursor rfl (by decide) (by decide)
      (by decide) (by decide) (by decide) (by decide)⟩


/-- C4: with a clock attached, `write_at ≥ 0` and hardware cursors inside the
ring, whenever `delta = write_at - writepos_t` is at least 1500000 ticks,
`DSoundRender_GetWritePos` returns `S_FALSE`, whatever the tracked cursors
`last_playpos` and `writepos` of the filter are. -/
theorem C4_GetWritePos_blocks_early (filter : dsound_render) (write_at now : Int) (hw : Cursor)
    (hclock : filter.clock = true) (hat : 0 ≤ write_at)
    (hdw : filter.buf_size < 4294967296)
    (hplay : hw.playpos < filter.buf_size) (hwrite : hw.writepos < filter.buf_size)
    (hlead : 1500000 ≤ write_at - (now - filter.stream_start + time_from_pos filter
            (((DSoundRender_UpdatePositions filter hw).seqwritepos + filter.buf_size
              - hw.playpos) % filter.buf_size))) :
    (DSoundRender_GetWritePos filter write_at hw now).hr = HRESULT.S_FALSE := by
  rw [GetWritePos_eq filter write_at now hw hdw hplay hwrite _ rfl _ rfl _ rfl _ rfl,
    if_neg (by simp only [hclock, Bool.true_eq_false, false_or]; omega),
    if_neg (by split_ifs <;> omega), if_neg (by omega),
    if_pos (by unfold DSoundRenderer_Max_Fill; omega)]


/-- Witness for C4: a sample stamped 150 ms after the time of the write
position. -/
theorem C4_GetWritePos_blocks_early_witness :
    (clocked_filter.clock = true ∧ (0 : Int) ≤ 1600000 ∧ clocked_filter.buf_size < 4294967296 ∧
      early_cursor.playpos < clocked_filter.buf_size ∧ early_cursor.writepos < clocked_filter.buf_size ∧
      (1500000 : Int) ≤ 1600000 - (0 - clocked_filter.stream_start + time_from_pos clocked_filter
        (((DSoundRender_UpdatePositions clocked_filter early_cursor).seqwritepos + clocked_filter.buf_size
          - early_cursor.playpos) % clocked_filter.buf_size))) ∧
    (DSoundRender_GetWritePos clocked_filter 1600000 early_cursor 0).hr = HRESULT.S_FALSE :=
  ⟨⟨rfl, by decide, by decide, by decide, by decide, by decide⟩,
    C4_GetWritePos_blocks_early clocked_filter 1600000 0 early_cursor rfl (by decide) (by decide)
      (by decide) (by decide) (by decide)⟩


/-- C5: with hardware cursors inside the ring, whenever
`DSoundRender_GetWritePos` reaches a target offset `w`, the free space is
`(play - w) mod buf_size`, and if `time_from_pos (buf_size - free)` is at least
1500000 ticks the result is `S_FALSE`.  A target offset is reached on every
path except the early return at a lead of 150 ms or more, and in particular
the result is `S_FALSE` for a full buffer when `delta` is within tolerance. -/
theorem C5_GetWritePos_blocks_when_full (filter : dsound_render) (write_at now : Int)
    (hw : Cursor) (hdw : filter.buf_size < 4294967296)
    (hplay : hw.playpos < filter.buf_size) (hwrite : hw.writepos < filter.buf_size) :
    (∀ w, (DSoundRender_GetWritePos filter write_at hw now).ret_writepos = some w →
      (DSoundRender_GetWritePos filter write_at hw now).pfree
        = some ((hw.playpos + filter.buf_size - w) % filter.buf_size) ∧
      (1500000 ≤ time_from_pos filter
          (filter.buf_size - (hw.playpos + filter.buf_size - w) % filter.buf_size) →
        (DSoundRender_GetWritePos filter write_at hw now).hr = HRESULT.S_FALSE)) ∧
    ((DSoundRender_GetWritePos filter write_at hw now).ret_writepos = none →
      filter.clock = true ∧ 0 ≤ write_at ∧
      1500000 ≤ write_at - (now - filter.stream_start + time_from_pos filter
        (((DSoundRender_UpdatePositions filter hw).seqwritepos + filter.buf_size
          - hw.playpos) % filter.buf_size))) ∧
    (filter.clock = true → 0 ≤ write_at →
      -(if (DSoundRender_UpdatePositions filter hw).minwritepos
            = (DSoundRender_UpdatePositions filter hw).seqwritepos then (0 : Int) else 500000)
        ≤ write_at - (now - filter.stream_start + time_from_pos filter
            (((DSoundRender_UpdatePositions filter hw).seqwritepos + filter.buf_size
              - hw.playpos) % filter.buf_size)) →
      write_at - (now - filter.stream_start + time_from_pos filter
            (((DSoundRender_UpdatePositions filter hw).seqwritepos + filter.buf_size
              - hw.playpos) % filter.buf_size))
        ≤ (if (DSoundRender_UpdatePositions filter hw).minwritepos
              = (DSoundRender_UpdatePositions filter hw).seqwritepos then (0 : Int) else 500000) →
      1500000 ≤ time_from_pos filter
          (filter.buf_size - (hw.playpos + filter.buf_size
            - (DSoundRender_UpdatePositions filter hw).seqwritepos) % filter.buf_size) →
      (DSoundRender_GetWritePos filter write_at hw now).hr = HRESULT.S_FALSE) := by
  have hmt := UpdatePositions_mt filter hw
  have hbs := UpdatePositions_buf_size filter hw
  have hs := UpdatePositions_seqwritepos_lt filter hw hwrite
  have hpos : 0 < filter.buf_size := by omega
  have hend : ∀ w s, w < filter.buf_size → _ :=
    fun w s h => GetWritePos_end_spec (DSoundRender_UpdatePositions filter hw).filter filter
      hw.playpos w s hmt hbs hdw hplay h
  have key : ∀ w s, w < filter.buf_size → ∀ w1,
      (DSoundRender_GetWritePos_end (DSoundRender_UpdatePositions filter hw).filter
        hw.playpos w s).ret_writepos = some w1 →
      (DSoundRender_GetWritePos_end (DSoundRender_UpdatePositions filter hw).filter
        hw.playpos w s).pfree = some ((hw.playpos + filter.buf_size - w1) % filter.buf_size) ∧
      (1500000 ≤ time_from_pos filter
          (filter.buf_size - (hw.playpos + filter.buf_size - w1) % filter.buf_size) →
        (DSoundRender_GetWritePos_end (DSoundRender_UpdatePositions filter hw).filter
          hw.playpos w s).hr = HRESULT.S_FALSE) := by
    intro w s h w1 h1
    obtain ⟨e1, _, _, e4, e5⟩ := hend w s h
    rw [e1] at h1
    cases h1
    exact ⟨e4, fun h6 => by rw [e5, if_pos h6]⟩
  rw [UpdatePositions_minwritepos]
  rw [GetWritePos_eq filter write_at now hw hdw hplay hwrite _ rfl _ rfl _ rfl _ rfl]
  refine ⟨?_, ?_, ?_⟩
  · split_ifs <;>
      first
      | exact key _ _ hs
      | exact key _ _ hwrite
      | exact key _ _ (Nat.mod_lt _ hpos)
      | (intro w h; cases h)
  · by_cases h1 : filter.clock = false ∨ write_at < 0
    · rw [if_pos h1, (hend _ _ hs).1]
      intro h; cases h
    · rw [if_neg h1]
      simp only [not_or, Bool.not_eq_false, not_lt] at h1
      split_ifs with h2 h3 h4 h5 <;>
        first
        | (rw [(hend _ _ hs).1]; intro h; cases h)
        | (rw [(hend _ _ hwrite).1]; intro h; cases h)
        | (rw [(hend _ _ (Nat.mod_lt _ hpos)).1]; intro h; cases h)
        | (intro _
           unfold DSoundRenderer_Max_Fill at *
           exact ⟨h1.1, h1.2, by omega⟩)
  · intro hclock hat hlo hhi hfull
    rw [if_neg (by simp only [hclock, Bool.true_eq_false, false_or]; omega), if_pos ⟨hlo, hhi⟩,
      (hend _ 0 hs).2.2.2.2, if_pos hfull]

/-- Witness for C5: no clock and half a second queued ahead of the play
cursor. -/
theorem C5_GetWritePos_blocks_when_full_witness :
    (half_full_filter.buf_size < 4294967296 ∧ early_cursor.playpos < half_full_filter.buf_size ∧
      early_cursor.writepos < half_full_filter.buf_size) ∧
    (DSoundRender_GetWritePos half_full_filter 0 early_cursor 0).ret_writepos = some 88200 ∧
    (DSoundRender_GetWritePos half_full_filter 0 early_cursor 0).pfree = some 88200 ∧
    (DSoundRender_GetWritePos half_full_filter 0 early_cursor 0).hr = HRESULT.S_FALSE := by
  have h := (C5_GetWritePos_blocks_when_full half_full_filter 0 0 early_cursor (by decide) (by decide)
    (by decide)).1 88200 (by decide)
  exact ⟨⟨by decide, by decide, by decide⟩, by decide, h.1, h.2 (by decide)⟩

/-! ## The tracker scenario (C6) -/

/-- The tracked write cursor after `DSoundRender_UpdatePositions`: reset to
`buf_size` on an underrun, kept otherwise. -/
theorem UpdatePositions_writepos (filter : dsound_render) (hw : Cursor) :
    (DSoundRender_UpdatePositions filter hw).filter.writepos =
      if follows_hardware filter hw = true ∧ filter.writepos < filter.buf_size
      then filter.buf_size else filter.writepos := by
  unfold DSoundRender_UpdatePositions follows_hardware
  simp only
  split_ifs with h1 h2 h3 h4 h5 h6 <;> first | rfl | skip
  all_goals (simp only [decide_eq_true_eq] at *; try tauto)

/-- C6 fails as stated: with the hardware write cursor at 2100, past the
tracked write position 2000, the call reports an underrun and returns the
sequential position 2100 with the tracked cursor reset to `buf_size`; and in
the 8-bit format of 44100 bytes per second the played bytes are filled with
128, not with zero. -/
theorem C6_counterexample :
    ((2100 < 44100 ∧
      (DSoundRender_UpdatePositions scenario_filter (Cursor.mk 1500 2100)).seqwritepos = 2100 ∧
      (DSoundRender_UpdatePositions scenario_filter (Cursor.mk 1500 2100)).seqwritepos ≠ 2000 ∧
      (DSoundRender_UpdatePositions scenario_filter (Cursor.mk 1500 2100)).filter.writepos = 44100)) ∧
    (1800 < 44100 ∧
      (DSoundRender_UpdatePositions scenario_filter8 (Cursor.mk 1500 1800)).filter.dsbuffer.map
        (fun b => b.bytes 1000) = some 128) := by
  decide

/-- C6, amended: with `buf_size = 44100`, `last_playpos = 1000`, tracked
`writepos = 2000` and the hardware reporting play cursor 1500 and a write
cursor `w < 44100`, `DSoundRender_UpdatePositions` fills exactly the bytes
`[1000, 1500)` with 0 (with 128 when `wBitsPerSample` is 8), sets
`last_playpos` to 1500 and returns the minimum write position `w`; for
`w ≤ 2000` it returns the sequential write position 2000 and keeps the tracked
cursor, for `w > 2000` it returns `w` and resets the tracked cursor to
`buf_size`. -/
theorem C6_UpdatePositions_scenario (filter : dsound_render) (b : IDirectSoundBuffer) (w : Nat)
    (hb : filter.dsbuffer = some b) (hbs : filter.buf_size = 44100)
    (hold : filter.last_playpos = 1000) (hwp : filter.writepos = 2000) (hw : w < 44100) :
    (DSoundRender_UpdatePositions filter (Cursor.mk 1500 w)).filter.last_playpos = 1500 ∧
    (DSoundRender_UpdatePositions filter (Cursor.mk 1500 w)).minwritepos = w ∧
    (DSoundRender_UpdatePositions filter (Cursor.mk 1500 w)).seqwritepos
      = (if w ≤ 2000 then 2000 else w) ∧
    (DSoundRender_UpdatePositions filter (Cursor.mk 1500 w)).filter.writepos
      = (if w ≤ 2000 then 2000 else 44100) ∧
    ∃ b1 : IDirectSoundBuffer,
      (DSoundRender_UpdatePositions filter (Cursor.mk 1500 w)).filter.dsbuffer = some b1 ∧
      ∀ j, b1.bytes j =
        if 1000 ≤ j ∧ j < 1500 then (if filter.mt.wBitsPerSample = 8 then 128 else 0)
        else b.bytes j := by
  have hf : follows_hardware filter (Cursor.mk 1500 w) = decide (2000 < w) := by
    unfold follows_hardware
    simp [hbs, hold, hwp]
  have hadv : play_advance filter.buf_size filter.last_playpos (Cursor.mk 1500 w).playpos
      = 500 := by
    rw [hbs, hold]
    show play_advance 44100 1000 1500 = 500
    decide
  rw [UpdatePositions_last_playpos, UpdatePositions_minwritepos, UpdatePositions_seqwritepos,
    UpdatePositions_writepos, UpdatePositions_dsbuffer, hf, hadv, hb, hbs, hold, hwp]
  refine ⟨rfl, rfl, ?_, ?_, ?_⟩
  · simp only [decide_eq_true_eq]
    split_ifs <;> omega
  · simp only [decide_eq_true_eq]
    split_ifs <;> omega
  · refine ⟨_, by simp only [ne_eq, OfNat.ofNat_ne_zero, not_false_eq_true, if_true,
      Option.map_some']; rfl, ?_⟩
    intro j
    simp only
    rw [clear_played_apply _ _ _ _ _ _ (by omega) (by omega)]
    by_cases h : 1000 ≤ j ∧ j < 1500
    · rw [if_pos (by omega), if_pos h]
    · rw [if_neg (by omega), if_neg h]

/-- Witness for C6: hardware write cursor 1800 in the 16-bit format. -/
theorem C6_UpdatePositions_scenario_witness :
    (scenario_filter.dsbuffer = some { bytes := fun _ => 7 } ∧ scenario_filter.buf_size = 44100 ∧
      scenario_filter.last_playpos = 1000 ∧ scenario_filter.writepos = 2000 ∧ 1800 < 44100) ∧
    (DSoundRender_UpdatePositions scenario_filter (Cursor.mk 1500 1800)).filter.last_playpos = 1500 ∧
    (DSoundRender_UpdatePositions scenario_filter (Cursor.mk 1500 1800)).minwritepos = 1800 ∧
    (DSoundRender_UpdatePositions scenario_filter (Cursor.mk 1500 1800)).seqwritepos = 2000 ∧
    (DSoundRender_UpdatePositions scenario_filter (Cursor.mk 1500 1800)).filter.writepos = 2000 ∧
    ∃ b1 : IDirectSoundBuffer,
      (DSoundRender_UpdatePositions scenario_filter (Cursor.mk 1500 1800)).filter.dsbuffer = some b1 ∧
      ∀ j, b1.bytes j = if 1000 ≤ j ∧ j < 1500 then 0 else 7 :=
  ⟨⟨rfl, rfl, rfl, rfl, by decide⟩,
    C6_UpdatePositions_scenario scenario_filter { bytes := fun _ => 7 } 1800 rfl rfl rfl rfl
      (by decide)⟩

/-! ## Format changes in the receive path (C7, C8) -/

/-- C7: a format change whose new format is the stored one with a different
sample rate, the hardware accepting the new frequency, makes
`DSoundRender_PrepareReceive` return `S_OK` and store the new format;
`buf_size`, `last_playpos` and `writepos` are unchanged and the hardware buffer
is the same buffer with the new frequency set on it. -/
theorem C7_PrepareReceive_rate_change (filter : dsound_render) (pSample : IMediaSample)
    (rate : Nat) (SetFrequency_hr : HRESULT)
    (hmt : pSample.media_type = some { filter.mt with nSamplesPerSec := rate })
    (hrate : rate ≠ filter.mt.nSamplesPerSec) (hhw : FAILED SetFrequency_hr = false) :
    (DSoundRender_PrepareReceive filter pSample SetFrequency_hr).hr = HRESULT.S_OK ∧
    (DSoundRender_PrepareReceive filter pSample SetFrequency_hr).filter.mt
      = { filter.mt with nSamplesPerSec := rate } ∧
    (DSoundRender_PrepareReceive filter pSample SetFrequency_hr).filter.buf_size
      = filter.buf_size ∧
    (DSoundRender_PrepareReceive filter pSample SetFrequency_hr).filter.last_playpos
      = filter.last_playpos ∧
    (DSoundRender_PrepareReceive filter pSample SetFrequency_hr).filter.writepos
      = filter.writepos ∧
    (DSoundRender_PrepareReceive filter pSample SetFrequency_hr).filter.dsbuffer
      = filter.dsbuffer.map (fun b => { b with frequency := rate }) := by
  unfold DSoundRender_PrepareReceive
  simp only [hmt, true_and, if_true, ne_eq, hhw]
  rw [if_pos (fun h => hrate h.symm)]
  simp

/-- Witness for C7: 44100 Hz to 48000 Hz. -/
theorem C7_PrepareReceive_rate_change_witness :
    ((IMediaSample.mk (some { running_filter.mt with nSamplesPerSec := 48000 })
        HRESULT.S_OK [] none false).media_type
        = some { running_filter.mt with nSamplesPerSec := 48000 } ∧
      48000 ≠ running_filter.mt.nSamplesPerSec ∧ FAILED HRESULT.S_OK = false) ∧
    (DSoundRender_PrepareReceive running_filter
      (IMediaSample.mk (some { running_filter.mt with nSamplesPerSec := 48000 })
        HRESULT.S_OK [] none false) HRESULT.S_OK).hr = HRESULT.S_OK ∧
    (DSoundRender_PrepareReceive running_filter
      (IMediaSample.mk (some { running_filter.mt with nSamplesPerSec := 48000 })
        HRESULT.S_OK [] none false) HRESULT.S_OK).filter.mt.nSamplesPerSec = 48000 ∧
    (DSoundRender_PrepareReceive running_filter
      (IMediaSample.mk (some { running_filter.mt with nSamplesPerSec := 48000 })
        HRESULT.S_OK [] none false) HRESULT.S_OK).filter.buf_size = 176400 ∧
    (DSoundRender_PrepareReceive running_filter
      (IMediaSample.mk (some { running_filter.mt with nSamplesPerSec := 48000 })
        HRESULT.S_OK [] none false) HRESULT.S_OK).filter.writepos = 1500 := by
  obtain ⟨h1, h2, h3, _, h5, _⟩ := C7_PrepareReceive_rate_change running_filter
    (IMediaSample.mk (some { running_filter.mt with nSamplesPerSec := 48000 })
      HRESULT.S_OK [] none false) 48000 HRESULT.S_OK rfl (by decide) rfl
  exact ⟨⟨rfl, by decide, rfl⟩, h1, by rw [h2], h3, h5⟩

/-- C8 fails as stated: a new format that differs from the stored one in the
average bytes per second alone is accepted with `S_OK`. -/
theorem C8_counterexample :
    ({ pcm_stereo with nAvgBytesPerSec := 352800 } : WAVEFORMATEX) ≠ running_filter.mt ∧
    ({ pcm_stereo with nAvgBytesPerSec := 352800 } : WAVEFORMATEX).nSamplesPerSec
      = running_filter.mt.nSamplesPerSec ∧
    (DSoundRender_PrepareReceive running_filter
      { media_type := some { pcm_stereo with nAvgBytesPerSec := 352800 } } HRESULT.S_OK).hr
      = HRESULT.S_OK ∧
    (DSoundRender_PrepareReceive running_filter
      { media_type := some { pcm_stereo with nAvgBytesPerSec := 352800 } } HRESULT.S_OK).hr
      ≠ HRESULT.VFW_E_TYPE_NOT_ACCEPTED := by
  decide

/-- C8, amended: a format change whose new format differs from the stored
format in the format tag, the channel count, the block alignment, the bit
depth or the extra-format size is rejected by `DSoundRender_PrepareReceive`
with `VFW_E_TYPE_NOT_ACCEPTED`, and the renderer, its stored format included,
is left unchanged. -/
theorem C8_PrepareReceive_rejects_mismatch (filter : dsound_render) (pSample : IMediaSample)
    (newfmt : WAVEFORMATEX) (SetFrequency_hr : HRESULT)
    (hmt : pSample.media_type = some newfmt)
    (hdiff : newfmt.wFormatTag ≠ filter.mt.wFormatTag ∨ newfmt.nChannels ≠ filter.mt.nChannels ∨
      newfmt.nBlockAlign ≠ filter.mt.nBlockAlign ∨
      newfmt.wBitsPerSample ≠ filter.mt.wBitsPerSample ∨ newfmt.cbSize ≠ filter.mt.cbSize) :
    (DSoundRender_PrepareReceive filter pSample SetFrequency_hr).hr
      = HRESULT.VFW_E_TYPE_NOT_ACCEPTED ∧
    (DSoundRender_PrepareReceive filter pSample SetFrequency_hr).filter = filter := by
  unfold DSoundRender_PrepareReceive
  simp only [hmt]
  rw [if_neg]
  · exact ⟨rfl, rfl⟩
  · rintro ⟨h1, h2, h3, h4, h5⟩
    rcases hdiff with h | h | h | h | h
    · exact h h1.symm
    · exact h h2.symm
    · exact h h3.symm
    · exact h h4.symm
    · exact h h5.symm

/-- Witness for C8: bit depth 16 to 8. -/
theorem C8_PrepareReceive_rejects_mismatch_witness :
    ((IMediaSample.mk (some { pcm_stereo with wBitsPerSample := 8 })
        HRESULT.S_OK [] none false).media_type = some { pcm_stereo with wBitsPerSample := 8 } ∧
      (({ pcm_stereo with wBitsPerSample := 8 } : WAVEFORMATEX).wFormatTag
          ≠ running_filter.mt.wFormatTag ∨
        ({ pcm_stereo with wBitsPerSample := 8 } : WAVEFORMATEX).nChannels
          ≠ running_filter.mt.nChannels ∨
        ({ pcm_stereo with wBitsPerSample := 8 } : WAVEFORMATEX).nBlockAlign
          ≠ running_filter.mt.nBlockAlign ∨
        ({ pcm_stereo with wBitsPerSample := 8 } : WAVEFORMATEX).wBitsPerSample
          ≠ running_filter.mt.wBitsPerSample ∨
        ({ pcm_stereo with wBitsPerSample := 8 } : WAVEFORMATEX).cbSize
          ≠ running_filter.mt.cbSize)) ∧
    (DSoundRender_PrepareReceive running_filter
      (IMediaSample.mk (some { pcm_stereo with wBitsPerSample := 8 }) HRESULT.S_OK [] none false)
      HRESULT.S_OK).hr = HRESULT.VFW_E_TYPE_NOT_ACCEPTED ∧
    (DSoundRender_PrepareReceive running_filter
      (IMediaSample.mk (some { pcm_stereo with wBitsPerSample := 8 }) HRESULT.S_OK [] none false)
      HRESULT.S_OK).filter = running_filter :=
  ⟨⟨rfl, by decide⟩,
    C8_PrepareReceive_rejects_mismatch running_filter
      (IMediaSample.mk (some { pcm_stereo with wBitsPerSample := 8 }) HRESULT.S_OK [] none false)
      { pcm_stereo with wBitsPerSample := 8 } HRESULT.S_OK rfl (by decide)⟩

/-! ## Lemmas on the feeder -/

theorem UpdatePositions_state_event (filter : dsound_render) (hw : Cursor) :
    (DSoundRender_UpdatePositions filter hw).filter.state_event = filter.state_event := by
  unfold DSoundRender_UpdatePositions
  simp only
  split_ifs <;> rfl

theorem GetWritePos_end_filter (g : dsound_render) (play w s : Nat) :
    (DSoundRender_GetWritePos_end g play w s).filter = g := by
  unfold DSoundRender_GetWritePos_end
  simp only
  split_ifs <;> rfl

theorem GetWritePos_filter (filter : dsound_render) (write_at now : Int) (hw : Cursor) :
    (DSoundRender_GetWritePos filter write_at hw now).filter
      = (DSoundRender_UpdatePositions filter hw).filter := by
  unfold DSoundRender_GetWritePos
  simp only
  split_ifs <;> first | exact GetWritePos_end_filter _ _ _ _ | rfl

theorem SendSampleData_body_ret (filter : dsound_render) (tStart : Int) (data : List Nat)
    (t : Tick) (hr : HRESULT) (g : dsound_render)
    (h : DSoundRender_SendSampleData_body filter tStart data t = LoopStep.ret hr g) :
    g.state_event = filter.state_event ∧
    (hr = HRESULT.S_OK ∨ (hr = HRESULT.VFW_E_WRONG_STATE ∧ g.state ≠ FILTER_STATE.State_Paused)) := by
  have hse : (if filter.state = FILTER_STATE.State_Running then
        DSoundRender_GetWritePos filter tStart t.cursor t.now
      else { hr := HRESULT.S_FALSE, filter := filter, ret_writepos := none, pfree := none,
             skip := 0 }).filter.state_event = filter.state_event := by
    split_ifs
    · rw [GetWritePos_filter, UpdatePositions_state_event]
    · rfl
  unfold DSoundRender_SendSampleData_body at h
  simp only at h
  generalize (if filter.state = FILTER_STATE.State_Running then
        DSoundRender_GetWritePos filter tStart t.cursor t.now
      else { hr := HRESULT.S_FALSE, filter := filter, ret_writepos := none, pfree := none,
             skip := 0 }) = r at h hse
  split_ifs at h with h1 h2 h3 <;> cases h <;>
    first
    | exact ⟨hse, Or.inl rfl⟩
    | exact ⟨hse, Or.inr ⟨rfl, h3⟩⟩

theorem SendSampleData_body_next (filter : dsound_render) (tStart : Int) (data : List Nat)
    (t : Tick) (g : dsound_render) (tStart1 : Int) (data1 : List Nat)
    (h : DSoundRender_SendSampleData_body filter tStart data t = LoopStep.next g tStart1 data1) :
    g.state_event = filter.state_event := by
  have hse : (if filter.state = FILTER_STATE.State_Running then
        DSoundRender_GetWritePos filter tStart t.cursor t.now
      else { hr := HRESULT.S_FALSE, filter := filter, ret_writepos := none, pfree := none,
             skip := 0 }).filter.state_event = filter.state_event := by
    split_ifs
    · rw [GetWritePos_filter, UpdatePositions_state_event]
    · rfl
  unfold DSoundRender_SendSampleData_body at h
  simp only at h
  generalize (if filter.state = FILTER_STATE.State_Running then
        DSoundRender_GetWritePos filter tStart t.cursor t.now
      else { hr := HRESULT.S_FALSE, filter := filter, ret_writepos := none, pfree := none,
             skip := 0 }) = r at h hse
  split_ifs at h <;> cases h <;> exact hse

theorem SendSampleData_done (filter : dsound_render) (tStart tStop : Int) (data : List Nat)
    (env : List Tick) (h : data.length = 0 ∨ filter.state = FILTER_STATE.State_Stopped) :
    DSoundRender_SendSampleData filter tStart tStop data env
      = { hr := some HRESULT.S_OK, filter := filter } := by
  unfold DSoundRender_SendSampleData
  rw [if_pos h]

theorem SendSampleData_nil (filter : dsound_render) (tStart tStop : Int) (data : List Nat)
    (h : ¬ (data.length = 0 ∨ filter.state = FILTER_STATE.State_Stopped)) :
    DSoundRender_SendSampleData filter tStart tStop data []
      = { hr := none, filter := filter } := by
  unfold DSoundRender_SendSampleData
  rw [if_neg h]

theorem SendSampleData_cons (filter : dsound_render) (tStart tStop : Int) (data : List Nat)
    (t : Tick) (rest : List Tick)
    (h : ¬ (data.length = 0 ∨ filter.state = FILTER_STATE.State_Stopped)) :
    DSoundRender_SendSampleData filter tStart tStop data (t :: rest)
      = match DSoundRender_SendSampleData_body filter tStart data t with
        | LoopStep.ret hr filter => { hr := some hr, filter := filter }
        | LoopStep.next filter tStart data =>
          DSoundRender_SendSampleData filter tStart tStop data rest := by
  rw [DSoundRender_SendSampleData, if_neg h]

theorem SendSampleData_outcome (env : List Tick) :
    ∀ (filter : dsound_render) (tStart tStop : Int) (data : List Nat),
    (DSoundRender_SendSampleData filter tStart tStop data env).filter.state_event
      = filter.state_event ∧
    ∀ hr, (DSoundRender_SendSampleData filter tStart tStop data env).hr = some hr →
      hr = HRESULT.S_OK ∨
      (hr = HRESULT.VFW_E_WRONG_STATE ∧
        (DSoundRender_SendSampleData filter tStart tStop data env).filter.state
          ≠ FILTER_STATE.State_Paused) := by
  induction env with
  | nil =>
    intro filter tStart tStop data
    by_cases hd : data.length = 0 ∨ filter.state = FILTER_STATE.State_Stopped
    · rw [SendSampleData_done _ _ _ _ _ hd]
      exact ⟨rfl, fun hr h => Or.inl (by cases h; rfl)⟩
    · rw [SendSampleData_nil _ _ _ _ hd]
      exact ⟨rfl, fun hr h => by cases h⟩
  | cons t rest ih =>
    intro filter tStart tStop data
    by_cases hd : data.length = 0 ∨ filter.state = FILTER_STATE.State_Stopped
    · rw [SendSampleData_done _ _ _ _ _ hd]
      exact ⟨rfl, fun hr h => Or.inl (by cases h; rfl)⟩
    · rw [SendSampleData_cons _ _ _ _ _ _ hd]
      cases hb : DSoundRender_SendSampleData_body filter tStart data t with
      | ret hr g =>
        obtain ⟨h1, h2⟩ := SendSampleData_body_ret _ _ _ _ _ _ hb
        exact ⟨h1, fun hr1 h => by cases h; exact h2⟩
      | next g tStart1 data1 =>
        have h1 := SendSampleData_body_next _ _ _ _ _ _ _ hb
        obtain ⟨h2, h3⟩ := ih g tStart1 tStop data1
        exact ⟨by simp only; rw [h2, h1], h3⟩

theorem SendSampleData_body_not_running (filter : dsound_render) (tStart : Int)
    (data : List Nat) (t : Tick) (h : filter.state ≠ FILTER_STATE.State_Running) :
    DSoundRender_SendSampleData_body filter tStart data t =
      if t.flushing = true ∨ t.state = FILTER_STATE.State_Stopped then
        LoopStep.ret
          (if t.state = FILTER_STATE.State_Paused then HRESULT.S_OK
           else HRESULT.VFW_E_WRONG_STATE)
          { filter with state := t.state, flushing := t.flushing }
      else
        LoopStep.next { filter with state := t.state, flushing := t.flushing } tStart data := by
  unfold DSoundRender_SendSampleData_body
  simp only [if_neg h, ne_eq, reduceCtorEq, not_false_eq_true, if_true, Bool.or_eq_true,
    decide_eq_true_eq]

theorem SendSampleData_paused_flush (pre : List Tick) :
    ∀ (filter : dsound_render) (tStart tStop : Int) (data : List Nat) (t : Tick)
      (rest : List Tick),
    filter.state = FILTER_STATE.State_Paused →
    (∀ u ∈ pre, u.state = FILTER_STATE.State_Paused ∧ u.flushing = false) →
    t.state = FILTER_STATE.State_Paused → t.flushing = true →
    (DSoundRender_SendSampleData filter tStart tStop data (pre ++ t :: rest)).hr
      = some HRESULT.S_OK ∧
    (DSoundRender_SendSampleData filter tStart tStop data (pre ++ t :: rest)).filter.state
      = FILTER_STATE.State_Paused := by
  induction pre with
  | nil =>
    intro filter tStart tStop data t rest hs _ ht hf
    by_cases hd : data.length = 0 ∨ filter.state = FILTER_STATE.State_Stopped
    · rw [SendSampleData_done _ _ _ _ _ hd]
      exact ⟨rfl, hs⟩
    · rw [List.nil_append, SendSampleData_cons _ _ _ _ _ _ hd,
        SendSampleData_body_not_running _ _ _ _ (by rw [hs]; decide),
        if_pos (Or.inl hf), if_pos ht]
      exact ⟨rfl, ht⟩
  | cons u pre ih =>
    intro filter tStart tStop data t rest hs hpre ht hf
    by_cases hd : data.length = 0 ∨ filter.state = FILTER_STATE.State_Stopped
    · rw [SendSampleData_done _ _ _ _ _ hd]
      exact ⟨rfl, hs⟩
    · have hu := hpre u (List.mem_cons_self _ _)
      rw [List.cons_append, SendSampleData_cons _ _ _ _ _ _ hd,
        SendSampleData_body_not_running _ _ _ _ (by rw [hs]; decide),
        if_neg (by rw [hu.1, hu.2]; decide)]
      exact ih _ _ _ _ _ _ hu.1 (fun v hv => hpre v (List.mem_cons_of_mem _ hv)) ht hf


/-! ## Receive in the stopped state (C9) -/

/-- C9 fails as stated: a stopped renderer on which end of stream has been
signalled answers `S_FALSE`, not `VFW_E_WRONG_STATE`. -/
theorem C9_counterexample :
    stopped_eos_filter.state = FILTER_STATE.State_Stopped ∧
    (dsound_render_sink_Receive stopped_eos_filter { data := [1, 2, 3, 4] } HRESULT.S_OK []).hr
      = some HRESULT.S_FALSE ∧
    (dsound_render_sink_Receive stopped_eos_filter { data := [1, 2, 3, 4] } HRESULT.S_OK []).hr
      ≠ some HRESULT.VFW_E_WRONG_STATE := by
  decide

/-- C9, amended: when the stream state is Stopped,
`dsound_render_sink_Receive` leaves the renderer, ring buffer included,
unchanged for every sample, and returns `VFW_E_WRONG_STATE` when neither `eos`
nor `flushing` is set and `S_FALSE` when one of them is set. -/
theorem C9_Receive_stopped (filter : dsound_render) (sample : IMediaSample)
    (SetFrequency_hr : HRESULT) (env : List Tick)
    (hstate : filter.state = FILTER_STATE.State_Stopped) :
    (dsound_render_sink_Receive filter sample SetFrequency_hr env).filter = filter ∧
    (dsound_render_sink_Receive filter sample SetFrequency_hr env).hr
      = some (if filter.eos = true ∨ filter.flushing = true then HRESULT.S_FALSE
              else HRESULT.VFW_E_WRONG_STATE) := by
  unfold dsound_render_sink_Receive
  by_cases h : (filter.eos || filter.flushing) = true
  · rw [if_pos h]
    simp only [Bool.or_eq_true] at h
    rw [if_pos h]
    exact ⟨rfl, rfl⟩
  · rw [if_neg h, if_pos hstate]
    simp only [Bool.or_eq_true] at h
    rw [if_neg h]
    exact ⟨rfl, rfl⟩

/-- Witness for C9: a stopped renderer with `eos` and `flushing` clear. -/
theorem C9_Receive_stopped_witness :
    ({ running_filter with state := FILTER_STATE.State_Stopped } : dsound_render).state
      = FILTER_STATE.State_Stopped ∧
    (dsound_render_sink_Receive { running_filter with state := FILTER_STATE.State_Stopped }
      { data := [1, 2, 3, 4] } HRESULT.S_OK []).hr = some HRESULT.VFW_E_WRONG_STATE := by
  have h := C9_Receive_stopped { running_filter with state := FILTER_STATE.State_Stopped }
    { data := [1, 2, 3, 4] } HRESULT.S_OK [] rfl
  exact ⟨rfl, h.2⟩

/-- A paused feeder with input left waits: it is still in its loop after any
number of ticks in which the renderer stays paused and no flush begins, and
it returns at the first tick after which a flush has begun or the state is
Stopped, `S_OK` if the state is then Paused and `VFW_E_WRONG_STATE` otherwise. -/
theorem SendSampleData_paused_wait (pre : List Tick) :
    ∀ (filter : dsound_render) (tStart tStop : Int) (data : List Nat),
    filter.state = FILTER_STATE.State_Paused → data ≠ [] →
    (∀ u ∈ pre, u.state = FILTER_STATE.State_Paused ∧ u.flushing = false) →
    (DSoundRender_SendSampleData filter tStart tStop data pre).hr = none ∧
    ∀ (t : Tick) (rest : List Tick), t.flushing = true ∨ t.state = FILTER_STATE.State_Stopped →
      (DSoundRender_SendSampleData filter tStart tStop data (pre ++ t :: rest)).hr
        = some (if t.state = FILTER_STATE.State_Paused then HRESULT.S_OK
                else HRESULT.VFW_E_WRONG_STATE) ∧
      (DSoundRender_SendSampleData filter tStart tStop data (pre ++ t :: rest)).filter.state
        = t.state := by
  induction pre with
  | nil =>
    intro filter tStart tStop data hs hdata _
    have hd : ¬ (data.length = 0 ∨ filter.state = FILTER_STATE.State_Stopped) := by
      rw [hs]
      rintro (h | h)
      · exact hdata (List.length_eq_zero.1 h)
      · cases h
    refine ⟨by rw [SendSampleData_nil _ _ _ _ hd], fun t rest ht => ?_⟩
    rw [List.nil_append, SendSampleData_cons _ _ _ _ _ _ hd,
      SendSampleData_body_not_running _ _ _ _ (by rw [hs]; decide), if_pos ht]
    exact ⟨rfl, rfl⟩
  | cons u pre ih =>
    intro filter tStart tStop data hs hdata hpre
    have hd : ¬ (data.length = 0 ∨ filter.state = FILTER_STATE.State_Stopped) := by
      rw [hs]
      rintro (h | h)
      · exact hdata (List.length_eq_zero.1 h)
      · cases h
    have hu := hpre u (List.mem_cons_self _ _)
    obtain ⟨i1, i2⟩ := ih { filter with state := u.state, flushing := u.flushing } tStart tStop
      data hu.1 hdata (fun v hv => hpre v (List.mem_cons_of_mem _ hv))
    constructor
    · rw [SendSampleData_cons _ _ _ _ _ _ hd,
        SendSampleData_body_not_running _ _ _ _ (by rw [hs]; decide),
        if_neg (by rw [hu.1, hu.2]; decide)]
      exact i1
    · intro t rest ht
      rw [List.cons_append, SendSampleData_cons _ _ _ _ _ _ hd,
        SendSampleData_body_not_running _ _ _ _ (by rw [hs]; decide),
        if_neg (by rw [hu.1, hu.2]; decide)]
      exact i2 t rest ht

/-! ## Receive in the paused state (C10) -/

/-- C10 fails as stated: a paused renderer with `eos` and `flushing` clear
that receives a four-byte sample without a format change signals the state
event, but the call does not return while the renderer stays paused (two
quiet ticks), returns `VFW_E_WRONG_STATE` when the renderer is stopped during
the wait, and returns the failure of `GetPointer` when the buffer pointer of
the sample cannot be obtained. -/
theorem C10_counterexample :
    paused_filter.state = FILTER_STATE.State_Paused ∧ paused_filter.eos = false ∧
    paused_filter.flushing = false ∧
    (dsound_render_sink_Receive paused_filter { data := [1, 2, 3, 4] } HRESULT.S_OK
      [paused_tick false, paused_tick false]).hr = none ∧
    (dsound_render_sink_Receive paused_filter { data := [1, 2, 3, 4] } HRESULT.S_OK
      [paused_tick false, stop_tick]).hr = some HRESULT.VFW_E_WRONG_STATE ∧
    (dsound_render_sink_Receive paused_filter { data := [1, 2, 3, 4] } HRESULT.S_OK
      [paused_tick false, stop_tick]).filter.state_event = true ∧
    (dsound_render_sink_Receive paused_filter
      { data := [1, 2, 3, 4], pointer_hr := HRESULT.E_FAIL } HRESULT.S_OK
      [paused_tick false, paused_tick true]).hr = some HRESULT.E_FAIL := by
  decide

/-- C10, amended: for a renderer in state Paused with `eos` and `flushing`
clear and a sample that carries no format change, `dsound_render_sink_Receive`
signals the state event in every execution.  If the buffer pointer of the
sample cannot be obtained it returns that failure.  Otherwise every execution
that returns while the state is Paused returns `S_OK` (never
`VFW_E_WRONG_STATE`); for a preroll or empty sample it returns `S_OK` at once;
and for any other sample it is still waiting after any number of ticks in
which the renderer stays paused and no flush begins, and returns at the first
tick after which a flush has begun or the state is Stopped: `S_OK` if the
state is then Paused, `VFW_E_WRONG_STATE` otherwise. -/
theorem C10_Receive_paused (filter : dsound_render) (sample : IMediaSample)
    (SetFrequency_hr : HRESULT) (env : List Tick)
    (hstate : filter.state = FILTER_STATE.State_Paused) (heos : filter.eos = false)
    (hfl : filter.flushing = false) (hmt : sample.media_type = none) :
    (dsound_render_sink_Receive filter sample SetFrequency_hr env).filter.state_event = true ∧
    (FAILED sample.pointer_hr = true →
      (dsound_render_sink_Receive filter sample SetFrequency_hr env).hr
        = some sample.pointer_hr) ∧
    (FAILED sample.pointer_hr = false →
      (∀ hr, (dsound_render_sink_Receive filter sample SetFrequency_hr env).hr = some hr →
        (dsound_render_sink_Receive filter sample SetFrequency_hr env).filter.state
          = FILTER_STATE.State_Paused → hr = HRESULT.S_OK) ∧
      (sample.preroll = true ∨ sample.data = [] →
        (dsound_render_sink_Receive filter sample SetFrequency_hr env).hr
          = some HRESULT.S_OK) ∧
      (sample.preroll = false → sample.data ≠ [] →
        ((∀ u ∈ env, u.state = FILTER_STATE.State_Paused ∧ u.flushing = false) →
          (dsound_render_sink_Receive filter sample SetFrequency_hr env).hr = none) ∧
        (∀ pre t rest, env = pre ++ t :: rest →
          (∀ u ∈ pre, u.state = FILTER_STATE.State_Paused ∧ u.flushing = false) →
          t.flushing = true ∨ t.state = FILTER_STATE.State_Stopped →
          (dsound_render_sink_Receive filter sample SetFrequency_hr env).hr
            = some (if t.state = FILTER_STATE.State_Paused then HRESULT.S_OK
                    else HRESULT.VFW_E_WRONG_STATE) ∧
          (dsound_render_sink_Receive filter sample SetFrequency_hr env).filter.state
            = t.state))) := by
  have hrec : dsound_render_sink_Receive filter sample SetFrequency_hr env
      = DSoundRender_DoRenderSample { filter with state_event := true } sample env := by
    unfold dsound_render_sink_Receive DSoundRender_PrepareReceive
    simp only [heos, hfl, hstate, hmt, Bool.or_self, Bool.false_eq_true, if_false,
      reduceCtorEq, FAILED, if_true]
  rw [hrec]
  unfold DSoundRender_DoRenderSample
  by_cases hptr : FAILED sample.pointer_hr = true
  · rw [if_pos hptr]
    exact ⟨rfl, fun _ => rfl, fun h => by rw [hptr] at h; cases h⟩
  rw [if_neg hptr]
  by_cases hpre : sample.preroll = true
  · rw [if_pos hpre]
    refine ⟨rfl, fun h => absurd h hptr, fun _ => ⟨fun hr h _ => by cases h; rfl, fun _ => rfl,
      fun h => ?_⟩⟩
    rw [hpre] at h
    cases h
  · rw [if_neg hpre]
    obtain ⟨h1, h2⟩ := SendSampleData_outcome env { filter with state_event := true }
      (match sample.time with
        | some (start, _) => start
        | none => -1)
      (match sample.time with
        | some (_, stop) => stop
        | none => -1) sample.data
    refine ⟨h1, fun h => absurd h hptr, fun _ => ⟨?_, ?_, fun _ hdata => ⟨?_, ?_⟩⟩⟩
    · intro hr h hp
      rcases h2 hr h with h3 | ⟨_, h4⟩
      · exact h3
      · exact absurd hp h4
    · intro hd
      rcases hd with hd | hd
      · exact absurd hd hpre
      · rw [SendSampleData_done _ _ _ _ _ (Or.inl (by rw [hd]; rfl))]
    · intro hquiet
      exact (SendSampleData_paused_wait env { filter with state_event := true } _ _ _ hstate
        hdata hquiet).1
    · intro pre t rest he hquiet ht
      rw [he]
      exact (SendSampleData_paused_wait pre { filter with state_event := true } _ _ _ hstate
        hdata hquiet).2 t rest ht

/-- Witness for C10: a four-byte sample, one quiet tick, then a flush while
the renderer is still paused. -/
theorem C10_Receive_paused_witness :
    (paused_filter.state = FILTER_STATE.State_Paused ∧ paused_filter.eos = false ∧
      paused_filter.flushing = false ∧
      (IMediaSample.mk none HRESULT.S_OK [1, 2, 3, 4] (some (0, 226)) false).media_type = none ∧
      FAILED (IMediaSample.mk none HRESULT.S_OK [1, 2, 3, 4] (some (0, 226)) false).pointer_hr
        = false) ∧
    (dsound_render_sink_Receive paused_filter
      (IMediaSample.mk none HRESULT.S_OK [1, 2, 3, 4] (some (0, 226)) false) HRESULT.S_OK
      [paused_tick false, paused_tick true]).filter.state_event = true ∧
    (dsound_render_sink_Receive paused_filter
      (IMediaSample.mk none HRESULT.S_OK [1, 2, 3, 4] (some (0, 226)) false) HRESULT.S_OK
      [paused_tick false, paused_tick true]).hr = some HRESULT.S_OK := by
  have h := C10_Receive_paused paused_filter
    (IMediaSample.mk none HRESULT.S_OK [1, 2, 3, 4] (some (0, 226)) false) HRESULT.S_OK
    [paused_tick false, paused_tick true] rfl rfl rfl rfl
  exact ⟨⟨rfl, rfl, rfl, rfl, rfl⟩, h.1,
    ((h.2.2 rfl).2.2 rfl (by decide)).2 [paused_tick false] (paused_tick true) [] rfl
      (by decide) (Or.inl rfl) |>.1⟩

/-! ## Volume and balance (C11) -/

/-- C11 fails as stated: a volume of -20000 and a balance of 20000 are refused
with `E_INVALIDARG` and the stored values stay 0, where clamping would store
-10000 and 10000. -/
theorem C11_counterexample :
    ((Basicaudio_put_Volume running_filter (-20000) HRESULT.S_OK).1 = HRESULT.E_INVALIDARG ∧
      Basicaudio_get_Volume (Basicaudio_put_Volume running_filter (-20000) HRESULT.S_OK).2
        (some 0) = (HRESULT.S_OK, some 0) ∧
      max DSBVOLUME_MIN (min (-20000) DSBVOLUME_MAX) = -10000) ∧
    ((Basicaudio_put_Balance running_filter 20000 HRESULT.S_OK).1 = HRESULT.E_INVALIDARG ∧
      Basicaudio_get_Balance (Basicaudio_put_Balance running_filter 20000 HRESULT.S_OK).2
        (some 0) = (HRESULT.S_OK, some 0) ∧
      max DSBPAN_LEFT (min 20000 DSBPAN_RIGHT) = 10000) := by
  decide

/-- C11, amended: with no hardware buffer or a hardware call that succeeds,
`Basicaudio_put_Volume` succeeds for every value in `[DSBVOLUME_MIN,
DSBVOLUME_MAX]` and stores it, so that the following get returns it, and
refuses every value outside the range with `E_INVALIDARG`, leaving the
renderer unchanged; `Basicaudio_put_Balance` does the same with the range
`[DSBPAN_LEFT, DSBPAN_RIGHT]`. -/
theorem C11_put_Volume_put_Balance (filter : dsound_render) (v old : Int)
    (SetVolume_hr SetPan_hr : HRESULT)
    (hvol : filter.dsbuffer = none ∨ FAILED SetVolume_hr = false)
    (hpan : filter.dsbuffer = none ∨ FAILED SetPan_hr = false) :
    (DSBVOLUME_MIN ≤ v ∧ v ≤ DSBVOLUME_MAX →
      (Basicaudio_put_Volume filter v SetVolume_hr).1 = HRESULT.S_OK ∧
      (Basicaudio_put_Volume filter v SetVolume_hr).2.volume = v ∧
      Basicaudio_get_Volume (Basicaudio_put_Volume filter v SetVolume_hr).2 (some old)
        = (HRESULT.S_OK, some v)) ∧
    (v < DSBVOLUME_MIN ∨ DSBVOLUME_MAX < v →
      Basicaudio_put_Volume filter v SetVolume_hr = (HRESULT.E_INVALIDARG, filter)) ∧
    (DSBPAN_LEFT ≤ v ∧ v ≤ DSBPAN_RIGHT →
      (Basicaudio_put_Balance filter v SetPan_hr).1 = HRESULT.S_OK ∧
      (Basicaudio_put_Balance filter v SetPan_hr).2.pan = v ∧
      Basicaudio_get_Balance (Basicaudio_put_Balance filter v SetPan_hr).2 (some old)
        = (HRESULT.S_OK, some v)) ∧
    (v < DSBPAN_LEFT ∨ DSBPAN_RIGHT < v →
      Basicaudio_put_Balance filter v SetPan_hr = (HRESULT.E_INVALIDARG, filter)) := by
  have hv : ¬ (filter.dsbuffer.isSome = true ∧ FAILED SetVolume_hr = true) := by
    rintro ⟨h1, h2⟩
    rcases hvol with h | h
    · rw [h] at h1; cases h1
    · rw [h] at h2; cases h2
  have hp : ¬ (filter.dsbuffer.isSome = true ∧ FAILED SetPan_hr = true) := by
    rintro ⟨h1, h2⟩
    rcases hpan with h | h
    · rw [h] at h1; cases h1
    · rw [h] at h2; cases h2
  refine ⟨?_, ?_, ?_, ?_⟩
  · rintro ⟨h1, h2⟩
    unfold Basicaudio_put_Volume Basicaudio_get_Volume
    rw [if_neg (by omega), if_neg hv]
    exact ⟨rfl, rfl, rfl⟩
  · intro h
    unfold Basicaudio_put_Volume
    rw [if_pos (by omega)]
  · rintro ⟨h1, h2⟩
    unfold Basicaudio_put_Balance Basicaudio_get_Balance
    rw [if_neg (by omega), if_neg hp]
    exact ⟨rfl, rfl, rfl⟩
  · intro h
    unfold Basicaudio_put_Balance
    rw [if_pos (by omega)]

/-- Witness for C11: volume -600 is stored, balance 10001 is refused. -/
theorem C11_put_Volume_put_Balance_witness :
    (running_filter.dsbuffer = none ∨ FAILED HRESULT.S_OK = false) ∧
    (Basicaudio_put_Volume running_filter (-600) HRESULT.S_OK).1 = HRESULT.S_OK ∧
    (Basicaudio_put_Volume running_filter (-600) HRESULT.S_OK).2.volume = -600 ∧
    Basicaudio_put_Balance running_filter 10001 HRESULT.S_OK
      = (HRESULT.E_INVALIDARG, running_filter) := by
  have h := C11_put_Volume_put_Balance running_filter (-600) 0 HRESULT.S_OK HRESULT.S_OK
    (Or.inr rfl) (Or.inr rfl)
  have g := C11_put_Volume_put_Balance running_filter 10001 0 HRESULT.S_OK HRESULT.S_OK
    (Or.inr rfl) (Or.inr rfl)
  exact ⟨Or.inr rfl, (h.1 (by decide)).1, (h.1 (by decide)).2.1, g.2.2.2 (by decide)⟩

/-! ## Connection (C12) -/

theorem time_from_pos_one_second (g : dsound_render) (h : 0 < g.mt.nAvgBytesPerSec) :
    time_from_pos g g.mt.nAvgBytesPerSec = 10000000 := by
  rw [time_from_pos_eq, Nat.mul_div_cancel _ h]
  rfl

theorem sink_connect_buf_size (filter : dsound_render) (format : WAVEFORMATEX)
    (CreateSoundBuffer_hr : HRESULT) (created : IDirectSoundBuffer)
    (SetVolume_hr SetPan_hr : HRESULT) :
    (dsound_render_sink_connect filter format CreateSoundBuffer_hr created SetVolume_hr
        SetPan_hr).2.buf_size = format.nAvgBytesPerSec ∧
    (dsound_render_sink_connect filter format CreateSoundBuffer_hr created SetVolume_hr
        SetPan_hr).2.writepos = format.nAvgBytesPerSec ∧
    (dsound_render_sink_connect filter format CreateSoundBuffer_hr created SetVolume_hr
        SetPan_hr).2.last_playpos = filter.last_playpos := by
  unfold dsound_render_sink_connect
  simp only
  split_ifs <;> exact ⟨rfl, rfl, rfl⟩

/-- C12: when `dsound_render_sink_connect` succeeds for a format with
`nAvgBytesPerSec > 0`, `buf_size` equals the format's `nAvgBytesPerSec`, the
ring buffer spans one second (`time_from_pos buf_size = 10000000` once the
base class has stored the format as the connection type), the tracked write
cursor is unset (`writepos = buf_size`) and the renderer holds the buffer
that was created. -/
theorem C12_connect_one_second (filter : dsound_render) (format : WAVEFORMATEX)
    (CreateSoundBuffer_hr : HRESULT) (created : IDirectSoundBuffer)
    (SetVolume_hr SetPan_hr : HRESULT)
    (hok : (dsound_render_sink_connect filter format CreateSoundBuffer_hr created
      SetVolume_hr SetPan_hr).1 = HRESULT.S_OK)
    (hpos : 0 < format.nAvgBytesPerSec) :
    (dsound_render_sink_connect filter format CreateSoundBuffer_hr created SetVolume_hr
        SetPan_hr).2.buf_size = format.nAvgBytesPerSec ∧
    time_from_pos
      { (dsound_render_sink_connect filter format CreateSoundBuffer_hr created SetVolume_hr
          SetPan_hr).2 with mt := format }
      (dsound_render_sink_connect filter format CreateSoundBuffer_hr created SetVolume_hr
        SetPan_hr).2.buf_size = 10000000 ∧
    (dsound_render_sink_connect filter format CreateSoundBuffer_hr created SetVolume_hr
        SetPan_hr).2.writepos
      = (dsound_render_sink_connect filter format CreateSoundBuffer_hr created SetVolume_hr
        SetPan_hr).2.buf_size ∧
    ∃ b, (dsound_render_sink_connect filter format CreateSoundBuffer_hr created SetVolume_hr
        SetPan_hr).2.dsbuffer = some b ∧ b.bytes = created.bytes := by
  obtain ⟨h1, h2, _⟩ := sink_connect_buf_size filter format CreateSoundBuffer_hr created
    SetVolume_hr SetPan_hr
  refine ⟨h1, ?_, by rw [h1, h2], ?_⟩
  · rw [h1]
    exact time_from_pos_one_second _ hpos
  · unfold dsound_render_sink_connect at hok ⊢
    simp only at hok ⊢
    by_cases hf : FAILED CreateSoundBuffer_hr = true
    · exfalso
      simp only [hf, Bool.not_true, Bool.false_eq_true, if_false, if_true] at hok
      split_ifs at hok <;> (simp only at hok; rw [hok] at hf; cases hf)
    · simp only [hf, Bool.not_false, if_true, if_false, Bool.false_eq_true]
      split_ifs <;> exact ⟨_, rfl, rfl⟩

/-- Witness for C12: a fresh renderer connected with `pcm_stereo`. -/
theorem C12_connect_one_second_witness :
    ((dsound_render_sink_connect dsound_render_create pcm_stereo HRESULT.S_OK {} HRESULT.S_OK
        HRESULT.S_OK).1 = HRESULT.S_OK ∧ 0 < pcm_stereo.nAvgBytesPerSec) ∧
    (dsound_render_sink_connect dsound_render_create pcm_stereo HRESULT.S_OK {} HRESULT.S_OK
        HRESULT.S_OK).2.buf_size = 176400 ∧
    (dsound_render_sink_connect dsound_render_create pcm_stereo HRESULT.S_OK {} HRESULT.S_OK
        HRESULT.S_OK).2.writepos = 176400 := by
  obtain ⟨h1, _, h3, _⟩ := C12_connect_one_second dsound_render_create pcm_stereo HRESULT.S_OK
    {} HRESULT.S_OK HRESULT.S_OK rfl (by decide)
  exact ⟨⟨rfl, by decide⟩, h1, by rw [h3, h1]; rfl⟩

/-! ## Planner without a clock, flush and stop (C14, C16, C17) -/

/-- Without a clock, or with a negative presentation time, the planner goes
straight to the sequential write position. -/
theorem GetWritePos_sequential (filter : dsound_render) (write_at now : Int) (hw : Cursor)
    (h : filter.clock = false ∨ write_at < 0) :
    DSoundRender_GetWritePos filter write_at hw now =
      DSoundRender_GetWritePos_end (DSoundRender_UpdatePositions filter hw).filter hw.playpos
        (DSoundRender_UpdatePositions filter hw).seqwritepos 0 := by
  unfold DSoundRender_GetWritePos
  simp only [UpdatePositions_last_playpos, UpdatePositions_clock]
  rw [if_pos]
  rcases h with h | h
  · simp [h]
  · split_ifs
    · exact h
    · decide

/-- C14: when no clock is attached, `DSoundRender_GetWritePos` returns for
every `write_at` the sequential write position delivered by
`DSoundRender_UpdatePositions` as target and `skip = 0`, and its whole result
(status, free space, filter) is the one for `write_at = -1`. -/
theorem C14_GetWritePos_without_clock (filter : dsound_render) (write_at now : Int)
    (hw : Cursor) (hclock : filter.clock = false) :
    (DSoundRender_GetWritePos filter write_at hw now).ret_writepos
      = some (DSoundRender_UpdatePositions filter hw).seqwritepos ∧
    (DSoundRender_GetWritePos filter write_at hw now).skip = 0 ∧
    DSoundRender_GetWritePos filter write_at hw now
      = DSoundRender_GetWritePos filter (-1) hw now := by
  rw [GetWritePos_sequential filter write_at now hw (Or.inl hclock),
    GetWritePos_sequential filter (-1) now hw (Or.inl hclock)]
  exact ⟨GetWritePos_end_ret_writepos _ _ _ _, GetWritePos_end_skip _ _ _ _, rfl⟩

/-- Witness for C14: no clock, a sample stamped half a second ahead. -/
theorem C14_GetWritePos_without_clock_witness :
    half_full_filter.clock = false ∧
    (DSoundRender_GetWritePos half_full_filter 5000000 early_cursor 0).ret_writepos
      = some 88200 ∧
    (DSoundRender_GetWritePos half_full_filter 5000000 early_cursor 0).skip = 0 ∧
    DSoundRender_GetWritePos half_full_filter 5000000 early_cursor 0
      = DSoundRender_GetWritePos half_full_filter (-1) early_cursor 0 :=
  ⟨rfl, C14_GetWritePos_without_clock half_full_filter 5000000 0 early_cursor rfl⟩

/-- C16: after `dsound_render_sink_end_flush` on a renderer with a hardware
buffer, every byte of the ring buffer is 0 (bytes beyond `buf_size` are not
touched), the tracked write cursor is unset (`writepos = buf_size`), `eos` is
false and the flush event is reset; `buf_size`, `last_playpos`, the stored
volume and pan and the volume and pan of the buffer are unchanged. -/
theorem C16_end_flush (filter : dsound_render) (b : IDirectSoundBuffer)
    (hb : filter.dsbuffer = some b) :
    (dsound_render_sink_end_flush filter).1 = HRESULT.S_OK ∧
    (∃ b1 : IDirectSoundBuffer, (dsound_render_sink_end_flush filter).2.dsbuffer = some b1 ∧
      (∀ j, j < filter.buf_size → b1.bytes j = 0) ∧
      (∀ j, filter.buf_size ≤ j → b1.bytes j = b.bytes j) ∧
      b1.volume = b.volume ∧ b1.pan = b.pan) ∧
    (dsound_render_sink_end_flush filter).2.writepos = filter.buf_size ∧
    (dsound_render_sink_end_flush filter).2.eos = false ∧
    (dsound_render_sink_end_flush filter).2.flush_event = false ∧
    (dsound_render_sink_end_flush filter).2.buf_size = filter.buf_size ∧
    (dsound_render_sink_end_flush filter).2.last_playpos = filter.last_playpos ∧
    (dsound_render_sink_end_flush filter).2.volume = filter.volume ∧
    (dsound_render_sink_end_flush filter).2.pan = filter.pan := by
  have he : dsound_render_sink_end_flush filter =
      (HRESULT.S_OK,
        { filter with
          eos := false, flush_event := false,
          dsbuffer := some { b with bytes := memset b.bytes 0 0 filter.buf_size },
          writepos := filter.buf_size }) := by
    unfold dsound_render_sink_end_flush
    simp only [hb, IDirectSoundBuffer_Lock_entire]
  rw [he]
  refine ⟨rfl, ⟨_, rfl, ?_, ?_, rfl, rfl⟩, rfl, rfl, rfl, rfl, rfl, rfl, rfl⟩
  · intro j hj
    simp only [memset]
    rw [if_pos (by omega)]
  · intro j hj
    simp only [memset]
    rw [if_neg (by omega)]

/-- Witness for C16: a ring of 44100 bytes that all hold 7. -/
theorem C16_end_flush_witness :
    scenario_filter.dsbuffer = some { bytes := fun _ => 7 } ∧
    (∃ b1 : IDirectSoundBuffer, (dsound_render_sink_end_flush scenario_filter).2.dsbuffer
        = some b1 ∧ b1.bytes 0 = 0 ∧ b1.bytes 44099 = 0) ∧
    (dsound_render_sink_end_flush scenario_filter).2.writepos = 44100 ∧
    (dsound_render_sink_end_flush scenario_filter).2.last_playpos = 1000 := by
  obtain ⟨_, ⟨b1, h1, h2, _⟩, h3, _, _, _, h4, _⟩ :=
    C16_end_flush scenario_filter { bytes := fun _ => 7 } rfl
  exact ⟨rfl, ⟨b1, h1, h2 0 (by decide), h2 44099 (by decide)⟩, h3, h4⟩

/-- The underrun report of `DSoundRender_UpdatePositions`: the sequential
position follows the hardware while the tracked cursor was set. -/
theorem UpdatePositions_underrun (filter : dsound_render) (hw : Cursor) :
    (DSoundRender_UpdatePositions filter hw).underrun =
      (follows_hardware filter hw && decide (filter.writepos < filter.buf_size)) := by
  unfold DSoundRender_UpdatePositions follows_hardware
  simp only
  split_ifs with h1 h2 <;> simp_all

/-- C17: after `dsound_render_stop_stream` on a connected renderer the tracked
write cursor is unset (`writepos = buf_size`), and the next
`DSoundRender_UpdatePositions` returns the hardware write cursor both as
sequential and as minimum write position, whatever the tracked cursor was
before the stop, reports no underrun and leaves the tracked cursor unset. -/
theorem C17_stop_forces_resync (filter : dsound_render) (hw : Cursor)
    (hpeer : filter.peer = true) :
    (dsound_render_stop_stream filter).2.writepos = (dsound_render_stop_stream filter).2.buf_size ∧
    (dsound_render_stop_stream filter).2.buf_size = filter.buf_size ∧
    (DSoundRender_UpdatePositions (dsound_render_stop_stream filter).2 hw).seqwritepos
      = hw.writepos ∧
    (DSoundRender_UpdatePositions (dsound_render_stop_stream filter).2 hw).minwritepos
      = hw.writepos ∧
    (DSoundRender_UpdatePositions (dsound_render_stop_stream filter).2 hw).underrun = false ∧
    (DSoundRender_UpdatePositions (dsound_render_stop_stream filter).2 hw).filter.writepos
      = filter.buf_size := by
  have h : (dsound_render_stop_stream filter).2.writepos = filter.buf_size ∧
      (dsound_render_stop_stream filter).2.buf_size = filter.buf_size := by
    unfold dsound_render_stop_stream
    simp only [hpeer, if_true, and_self]
  obtain ⟨h1, h2⟩ := h
  have hf : follows_hardware (dsound_render_stop_stream filter).2 hw = true := by
    unfold follows_hardware
    rw [h1, h2]
    simp
  refine ⟨by rw [h1, h2], h2, ?_, UpdatePositions_minwritepos _ _, ?_, ?_⟩
  · rw [UpdatePositions_seqwritepos, if_pos hf]
  · rw [UpdatePositions_underrun, h1, h2]
    simp
  · rw [UpdatePositions_writepos, if_neg (by rw [h1, h2]; omega), h1]

/-- Witness for C17: a running renderer with 1000 bytes queued is stopped. -/
theorem C17_stop_forces_resync_witness :
    running_filter.peer = true ∧
    (dsound_render_stop_stream running_filter).2.writepos = 176400 ∧
    (DSoundRender_UpdatePositions (dsound_render_stop_stream running_filter).2
      (Cursor.mk 700 900)).seqwritepos = 900 ∧
    (DSoundRender_UpdatePositions (dsound_render_stop_stream running_filter).2
      (Cursor.mk 700 900)).underrun = false := by
  obtain ⟨h1, h2, h3, _, h5, _⟩ := C17_stop_forces_resync running_filter (Cursor.mk 700 900) rfl
  exact ⟨rfl, by rw [h1, h2]; rfl, h3, h5⟩

/-! ## The cursor range invariant (C13) -/

theorem UpdatePositions_range (filter : dsound_render) (hw : Cursor)
    (h : filter.writepos ≤ filter.buf_size) (hplay : hw.playpos < filter.buf_size) :
    (DSoundRender_UpdatePositions filter hw).filter.buf_size = filter.buf_size ∧
    (DSoundRender_UpdatePositions filter hw).filter.writepos ≤ filter.buf_size ∧
    (DSoundRender_UpdatePositions filter hw).filter.last_playpos < filter.buf_size := by
  rw [UpdatePositions_buf_size, UpdatePositions_last_playpos, UpdatePositions_writepos]
  refine ⟨rfl, ?_, hplay⟩
  split_ifs
  · exact Nat.le_refl _
  · exact h

theorem SendSampleData_body_range (filter : dsound_render) (tStart : Int) (data : List Nat)
    (t : Tick) (h : filter.writepos ≤ filter.buf_size)
    (hplay : t.cursor.playpos < filter.buf_size) :
    (DSoundRender_SendSampleData_body filter tStart data t).renderer.buf_size
      = filter.buf_size ∧
    (DSoundRender_SendSampleData_body filter tStart data t).renderer.writepos
      ≤ filter.buf_size ∧
    ((DSoundRender_SendSampleData_body filter tStart data t).renderer.last_playpos
        < filter.buf_size ∨
      (DSoundRender_SendSampleData_body filter tStart data t).renderer.last_playpos
        = filter.last_playpos) := by
  have hr : (if filter.state = FILTER_STATE.State_Running then
        DSoundRender_GetWritePos filter tStart t.cursor t.now
      else { hr := HRESULT.S_FALSE, filter := filter, ret_writepos := none, pfree := none,
             skip := 0 }).filter.buf_size = filter.buf_size ∧
      (if filter.state = FILTER_STATE.State_Running then
        DSoundRender_GetWritePos filter tStart t.cursor t.now
      else { hr := HRESULT.S_FALSE, filter := filter, ret_writepos := none, pfree := none,
             skip := 0 }).filter.writepos ≤ filter.buf_size ∧
      ((if filter.state = FILTER_STATE.State_Running then
        DSoundRender_GetWritePos filter tStart t.cursor t.now
      else { hr := HRESULT.S_FALSE, filter := filter, ret_writepos := none, pfree := none,
             skip := 0 }).filter.last_playpos < filter.buf_size ∨
       (if filter.state = FILTER_STATE.State_Running then
        DSoundRender_GetWritePos filter tStart t.cursor t.now
      else { hr := HRESULT.S_FALSE, filter := filter, ret_writepos := none, pfree := none,
             skip := 0 }).filter.last_playpos = filter.last_playpos) := by
    split_ifs
    · rw [GetWritePos_filter]
      obtain ⟨a, b, c⟩ := UpdatePositions_range filter t.cursor h hplay
      exact ⟨a, b, Or.inl c⟩
    · exact ⟨rfl, h, Or.inr rfl⟩
  unfold DSoundRender_SendSampleData_body
  simp only
  generalize (if filter.state = FILTER_STATE.State_Running then
        DSoundRender_GetWritePos filter tStart t.cursor t.now
      else { hr := HRESULT.S_FALSE, filter := filter, ret_writepos := none, pfree := none,
             skip := 0 }) = r at hr
  obtain ⟨h1, h2, h3⟩ := hr
  have hpos : 0 < r.filter.buf_size := by omega
  split_ifs <;> simp only [LoopStep.renderer] <;>
    first
    | exact ⟨h1, h2, h3⟩
    | exact ⟨h1, by rw [← h1]; exact Nat.le_of_lt (Nat.mod_lt _ hpos), h3⟩

theorem SendSampleData_range (env : List Tick) :
    ∀ (filter : dsound_render) (tStart tStop : Int) (data : List Nat),
    filter.writepos ≤ filter.buf_size →
    (∀ t ∈ env, t.cursor.playpos < filter.buf_size) →
    (DSoundRender_SendSampleData filter tStart tStop data env).filter.buf_size
      = filter.buf_size ∧
    (DSoundRender_SendSampleData filter tStart tStop data env).filter.writepos
      ≤ filter.buf_size ∧
    ((DSoundRender_SendSampleData filter tStart tStop data env).filter.last_playpos
        < filter.buf_size ∨
      (DSoundRender_SendSampleData filter tStart tStop data env).filter.last_playpos
        = filter.last_playpos) := by
  induction env with
  | nil =>
    intro filter tStart tStop data h _
    by_cases hd : data.length = 0 ∨ filter.state = FILTER_STATE.State_Stopped
    · rw [SendSampleData_done _ _ _ _ _ hd]
      exact ⟨rfl, h, Or.inr rfl⟩
    · rw [SendSampleData_nil _ _ _ _ hd]
      exact ⟨rfl, h, Or.inr rfl⟩
  | cons t rest ih =>
    intro filter tStart tStop data h henv
    by_cases hd : data.length = 0 ∨ filter.state = FILTER_STATE.State_Stopped
    · rw [SendSampleData_done _ _ _ _ _ hd]
      exact ⟨rfl, h, Or.inr rfl⟩
    · rw [SendSampleData_cons _ _ _ _ _ _ hd]
      have hb := SendSampleData_body_range filter tStart data t h
        (henv t (List.mem_cons_self _ _))
      cases hs : DSoundRender_SendSampleData_body filter tStart data t with
      | ret hr g =>
        rw [hs] at hb
        exact hb
      | next g tStart1 data1 =>
        rw [hs] at hb
        simp only [LoopStep.renderer] at hb
        obtain ⟨h1, h2, h3⟩ := hb
        obtain ⟨i1, i2, i3⟩ := ih g tStart1 tStop data1 (by rw [h1]; exact h2)
          (fun u hu => by rw [h1]; exact henv u (List.mem_cons_of_mem _ hu))
        simp only
        rw [h1] at i1 i2 i3
        refine ⟨i1, i2, ?_⟩
        rcases i3 with i3 | i3
        · exact Or.inl i3
        · rw [i3]; exact h3

theorem PrepareReceive_cursors (filter : dsound_render) (pSample : IMediaSample)
    (SetFrequency_hr : HRESULT) :
    (DSoundRender_PrepareReceive filter pSample SetFrequency_hr).filter.buf_size
      = filter.buf_size ∧
    (DSoundRender_PrepareReceive filter pSample SetFrequency_hr).filter.last_playpos
      = filter.last_playpos ∧
    (DSoundRender_PrepareReceive filter pSample SetFrequency_hr).filter.writepos
      = filter.writepos := by
  unfold DSoundRender_PrepareReceive
  cases pSample.media_type with
  | none => exact ⟨rfl, rfl, rfl⟩
  | some newfmt =>
    simp only
    split_ifs <;> exact ⟨rfl, rfl, rfl⟩

theorem DoRenderSample_range (filter : dsound_render) (pSample : IMediaSample)
    (env : List Tick) (h : filter.writepos ≤ filter.buf_size)
    (henv : ∀ t ∈ env, t.cursor.playpos < filter.buf_size) :
    (DSoundRender_DoRenderSample filter pSample env).filter.buf_size = filter.buf_size ∧
    (DSoundRender_DoRenderSample filter pSample env).filter.writepos ≤ filter.buf_size ∧
    ((DSoundRender_DoRenderSample filter pSample env).filter.last_playpos < filter.buf_size ∨
      (DSoundRender_DoRenderSample filter pSample env).filter.last_playpos
        = filter.last_playpos) := by
  unfold DSoundRender_DoRenderSample
  split_ifs
  · exact ⟨rfl, h, Or.inr rfl⟩
  · exact ⟨rfl, h, Or.inr rfl⟩
  · exact SendSampleData_range env filter _ _ _ h henv

theorem Receive_range (filter : dsound_render) (sample : IMediaSample)
    (SetFrequency_hr : HRESULT) (env : List Tick) (h : filter.writepos ≤ filter.buf_size)
    (henv : ∀ t ∈ env, t.cursor.playpos < filter.buf_size) :
    (dsound_render_sink_Receive filter sample SetFrequency_hr env).filter.buf_size
      = filter.buf_size ∧
    (dsound_render_sink_Receive filter sample SetFrequency_hr env).filter.writepos
      ≤ filter.buf_size ∧
    ((dsound_render_sink_Receive filter sample SetFrequency_hr env).filter.last_playpos
        < filter.buf_size ∨
      (dsound_render_sink_Receive filter sample SetFrequency_hr env).filter.last_playpos
        = filter.last_playpos) := by
  obtain ⟨p1, p2, p3⟩ := PrepareReceive_cursors filter sample SetFrequency_hr
  unfold dsound_render_sink_Receive
  simp only
  generalize DSoundRender_PrepareReceive filter sample SetFrequency_hr = p at p1 p2 p3
  have hp : p.filter.writepos ≤ p.filter.buf_size := by
    rw [p1, p3]; exact h
  split_ifs
  · exact ⟨rfl, h, Or.inr rfl⟩
  · exact ⟨rfl, h, Or.inr rfl⟩
  · exact ⟨p1, by rw [p3]; exact h, Or.inr p2⟩
  · obtain ⟨a, b, c⟩ := DoRenderSample_range { p.filter with state_event := true }
      p.sample env hp (fun t ht => by show _ < p.filter.buf_size; rw [p1]; exact henv t ht)
    refine ⟨Eq.trans a p1, le_of_le_of_eq b p1, ?_⟩
    rcases c with c | c
    · exact Or.inl (lt_of_lt_of_eq c p1)
    · exact Or.inr (Eq.trans c p2)
  · obtain ⟨a, b, c⟩ := DoRenderSample_range p.filter p.sample env hp
      (fun t ht => by rw [p1]; exact henv t ht)
    refine ⟨Eq.trans a p1, le_of_le_of_eq b p1, ?_⟩
    rcases c with c | c
    · exact Or.inl (lt_of_lt_of_eq c p1)
    · exact Or.inr (Eq.trans c p2)

/-- C13 fails as stated, in two ways.  Right after a successful connect of a
fresh renderer the tracked write cursor equals `buf_size`, the unset state, so
it is not inside `[0, buf_size)`.  And when a renderer that has played up to
byte 100000 of a ring of 176400 bytes is disconnected and connected again with
a format of 8000 bytes per second, the last play position is still 100000,
which is not inside the new ring of 8000 bytes. -/
theorem C13_counterexample :
    (Reachable
      (dsound_render_sink_connect dsound_render_create pcm_stereo HRESULT.S_OK {}
        HRESULT.S_OK HRESULT.S_OK).2
      (dsound_render_sink_connect dsound_render_create pcm_stereo HRESULT.S_OK {}
        HRESULT.S_OK HRESULT.S_OK).2 ∧
      ¬ ((dsound_render_sink_connect dsound_render_create pcm_stereo HRESULT.S_OK {}
          HRESULT.S_OK HRESULT.S_OK).2.writepos
        < (dsound_render_sink_connect dsound_render_create pcm_stereo HRESULT.S_OK {}
          HRESULT.S_OK HRESULT.S_OK).2.buf_size)) ∧
    (Reachable
      (dsound_render_sink_connect played_filter pcm_phone HRESULT.S_OK {} HRESULT.S_OK
        HRESULT.S_OK).2
      (dsound_render_sink_connect played_filter pcm_phone HRESULT.S_OK {} HRESULT.S_OK
        HRESULT.S_OK).2 ∧
      (dsound_render_sink_connect played_filter pcm_phone HRESULT.S_OK {} HRESULT.S_OK
        HRESULT.S_OK).2.last_playpos = 100000 ∧
      (dsound_render_sink_connect played_filter pcm_phone HRESULT.S_OK {} HRESULT.S_OK
        HRESULT.S_OK).2.buf_size = 8000 ∧
      ¬ ((dsound_render_sink_connect played_filter pcm_phone HRESULT.S_OK {} HRESULT.S_OK
          HRESULT.S_OK).2.last_playpos
        < (dsound_render_sink_connect played_filter pcm_phone HRESULT.S_OK {} HRESULT.S_OK
          HRESULT.S_OK).2.buf_size)) :=
  ⟨⟨Reachable.connect dsound_render_create pcm_stereo HRESULT.S_OK {} HRESULT.S_OK
      HRESULT.S_OK rfl, by decide⟩,
    ⟨Reachable.connect played_filter pcm_phone HRESULT.S_OK {} HRESULT.S_OK HRESULT.S_OK rfl,
      by decide, by decide, by decide⟩⟩

/-- C13, amended: in every state reachable from a successful connect through
any sequence of position updates, planning, feeding, receiving, stop, end of
flush and format changes, with the hardware reporting cursors below
`buf_size`: `buf_size` is the one set by the connect and `writepos` lies in
`[0, buf_size]`, the value `buf_size` being the unset state.  If the connect
found `last_playpos` below the new `buf_size`, as it does for a fresh
renderer, `last_playpos` lies in `[0, buf_size)` in every such state.  Without
that premise `last_playpos` lies in `[0, buf_size)` or is still the value the
connect found, which the connect does not reset, and every position update
puts it inside `[0, buf_size)`. -/
theorem C13_cursor_range (origin filter : dsound_render) (h : Reachable origin filter) :
    filter.buf_size = origin.buf_size ∧
    filter.writepos ≤ filter.buf_size ∧
    (filter.last_playpos < filter.buf_size ∨ filter.last_playpos = origin.last_playpos) ∧
    (origin.last_playpos < origin.buf_size → filter.last_playpos < filter.buf_size) ∧
    (∀ hw : Cursor, hw.playpos < filter.buf_size →
      (DSoundRender_UpdatePositions filter hw).filter.last_playpos
        < (DSoundRender_UpdatePositions filter hw).filter.buf_size) := by
  have key : filter.buf_size = origin.buf_size ∧ filter.writepos ≤ filter.buf_size ∧
      (filter.last_playpos < filter.buf_size ∨ filter.last_playpos = origin.last_playpos) := by
    induction h with
    | connect f0 format hr1 created hr2 hr3 hok =>
      obtain ⟨h1, h2, _⟩ := sink_connect_buf_size f0 format hr1 created hr2 hr3
      exact ⟨rfl, le_of_eq (h2.trans h1.symm), Or.inr rfl⟩
    | update_positions o f hw _ hplay _ ih =>
      obtain ⟨h1, h2, h3⟩ := UpdatePositions_range f hw ih.2.1 hplay
      rw [h1]; exact ⟨ih.1, h2, Or.inl h3⟩
    | plan_write o f write_at hw now _ hplay _ ih =>
      rw [GetWritePos_filter]
      obtain ⟨h1, h2, h3⟩ := UpdatePositions_range f hw ih.2.1 hplay
      rw [h1]; exact ⟨ih.1, h2, Or.inl h3⟩
    | feed o f tStart tStop data env _ henv ih =>
      obtain ⟨h1, h2, h3⟩ := SendSampleData_range env f tStart tStop data ih.2.1
        (fun t ht => (henv t ht).1)
      rw [h1]
      refine ⟨ih.1, h2, ?_⟩
      rcases h3 with h3 | h3
      · exact Or.inl h3
      · rw [h3]; exact ih.2.2
    | receive o f sample hr env _ henv ih =>
      obtain ⟨h1, h2, h3⟩ := Receive_range f sample hr env ih.2.1 (fun t ht => (henv t ht).1)
      rw [h1]
      refine ⟨ih.1, h2, ?_⟩
      rcases h3 with h3 | h3
      · exact Or.inl h3
      · rw [h3]; exact ih.2.2
    | stop o f _ ih =>
      unfold dsound_render_stop_stream
      simp only
      split_ifs
      · exact ⟨ih.1, Nat.le_refl _, ih.2.2⟩
      · exact ih
    | end_flush o f _ ih =>
      unfold dsound_render_sink_end_flush
      simp only
      cases f.dsbuffer with
      | none => exact ih
      | some b => exact ⟨ih.1, Nat.le_refl _, ih.2.2⟩
    | format_change o f pSample hr _ ih =>
      obtain ⟨h1, h2, h3⟩ := PrepareReceive_cursors f pSample hr
      rw [h1, h2, h3]; exact ih
    | base_class o f state clock flushing stream_start _ ih => exact ih
  obtain ⟨k1, k2, k3⟩ := key
  refine ⟨k1, k2, k3, fun ho => ?_, fun hw hplay => ?_⟩
  · rcases k3 with k3 | k3
    · exact k3
    · rw [k3, k1]; exact ho
  · rw [UpdatePositions_last_playpos, UpdatePositions_buf_size]
    exact hplay

/-- Witness for C13: a fresh renderer is connected with `pcm_stereo` and the
positions are updated once. -/
theorem C13_cursor_range_witness :
    Reachable
      (dsound_render_sink_connect dsound_render_create pcm_stereo HRESULT.S_OK {}
        HRESULT.S_OK HRESULT.S_OK).2
      (DSoundRender_UpdatePositions
        (dsound_render_sink_connect dsound_render_create pcm_stereo HRESULT.S_OK {}
          HRESULT.S_OK HRESULT.S_OK).2 (Cursor.mk 700 900)).filter ∧
    (DSoundRender_UpdatePositions
      (dsound_render_sink_connect dsound_render_create pcm_stereo HRESULT.S_OK {}
        HRESULT.S_OK HRESULT.S_OK).2 (Cursor.mk 700 900)).filter.writepos
      ≤ (DSoundRender_UpdatePositions
        (dsound_render_sink_connect dsound_render_create pcm_stereo HRESULT.S_OK {}
          HRESULT.S_OK HRESULT.S_OK).2 (Cursor.mk 700 900)).filter.buf_size ∧
    (DSoundRender_UpdatePositions
      (dsound_render_sink_connect dsound_render_create pcm_stereo HRESULT.S_OK {}
        HRESULT.S_OK HRESULT.S_OK).2 (Cursor.mk 700 900)).filter.last_playpos
      < (DSoundRender_UpdatePositions
        (dsound_render_sink_connect dsound_render_create pcm_stereo HRESULT.S_OK {}
          HRESULT.S_OK HRESULT.S_OK).2 (Cursor.mk 700 900)).filter.buf_size :=
  have hr : Reachable
      (dsound_render_sink_connect dsound_render_create pcm_stereo HRESULT.S_OK {}
        HRESULT.S_OK HRESULT.S_OK).2
      (DSoundRender_UpdatePositions
        (dsound_render_sink_connect dsound_render_create pcm_stereo HRESULT.S_OK {}
          HRESULT.S_OK HRESULT.S_OK).2 (Cursor.mk 700 900)).filter :=
    Reachable.update_positions _ _ _
      (Reachable.connect dsound_render_create pcm_stereo HRESULT.S_OK {} HRESULT.S_OK
        HRESULT.S_OK rfl) (by decide) (by decide)
  ⟨hr, (C13_cursor_range _ _ hr).2.1, (C13_cursor_range _ _ hr).2.2.2.1 (by decide)⟩

/-! ## Underrun detection (C20) -/

/-- C20 fails as stated, in two ways.  A hardware write cursor that has just
caught up with the tracked cursor (both at 50, previous play position 10) is
no underrun; and a hardware write cursor that has wrapped past the end of the
buffer (10, with the previous play position 90 and the tracked cursor 95) is
no underrun either, although it has passed the tracked cursor. -/
theorem C20_counterexample :
    ((DSoundRender_UpdatePositions (ring100 10 50) (Cursor.mk 20 50)).underrun = false ∧
      (DSoundRender_UpdatePositions (ring100 10 50) (Cursor.mk 20 50)).seqwritepos = 50 ∧
      (50 + 100 - 10) % 100 ≤ (50 + 100 - 10) % 100) ∧
    ((DSoundRender_UpdatePositions (ring100 90 95) (Cursor.mk 5 10)).underrun = false ∧
      (DSoundRender_UpdatePositions (ring100 90 95) (Cursor.mk 5 10)).seqwritepos = 95 ∧
      (DSoundRender_UpdatePositions (ring100 90 95) (Cursor.mk 5 10)).filter.writepos = 95 ∧
      (95 + 100 - 90) % 100 < (10 + 100 - 90) % 100) := by
  decide

/-- C20, amended: with the tracked write cursor set, a ring of at most `2 ^ 31`
bytes and a hardware write cursor at or after the previous play position,
`DSoundRender_UpdatePositions` reports an underrun exactly when the hardware
write cursor has strictly passed the tracked cursor, both measured as forward
ring distances from the previous play position (a tracked cursor equal to the
previous play position counting as a full buffer ahead); on an underrun it
returns the hardware write cursor as sequential position and resets the
tracked cursor to `buf_size`, otherwise it returns the tracked cursor and
leaves it unchanged. -/
theorem C20_UpdatePositions_underrun (filter : dsound_render) (hw : Cursor)
    (hset : filter.writepos < filter.buf_size) (hbs : filter.buf_size ≤ 2147483648)
    (hold : filter.last_playpos < filter.buf_size) (hwrite : hw.writepos < filter.buf_size)
    (hnowrap : filter.last_playpos ≤ hw.writepos) :
    ((DSoundRender_UpdatePositions filter hw).underrun = true ↔
      (if (filter.writepos + filter.buf_size - filter.last_playpos) % filter.buf_size = 0
        then filter.buf_size
        else (filter.writepos + filter.buf_size - filter.last_playpos) % filter.buf_size)
      < (hw.writepos + filter.buf_size - filter.last_playpos) % filter.buf_size) ∧
    ((DSoundRender_UpdatePositions filter hw).underrun = true →
      (DSoundRender_UpdatePositions filter hw).seqwritepos = hw.writepos ∧
      (DSoundRender_UpdatePositions filter hw).filter.writepos = filter.buf_size) ∧
    ((DSoundRender_UpdatePositions filter hw).underrun = false →
      (DSoundRender_UpdatePositions filter hw).seqwritepos = filter.writepos ∧
      (DSoundRender_UpdatePositions filter hw).filter.writepos = filter.writepos) := by
  have hf : follows_hardware filter hw = true ↔
      (if filter.writepos ≤ filter.last_playpos then filter.writepos + filter.buf_size
        else filter.writepos) < hw.writepos := by
    unfold follows_hardware DWORD_add
    simp only [Bool.or_eq_true, Bool.not_eq_true', decide_eq_false_iff_not, decide_eq_true_eq]
    constructor
    · rintro (h | h)
      · omega
      · split_ifs at h ⊢ <;> omega
    · intro h
      right
      split_ifs at h ⊢ <;> omega
  have hu : (DSoundRender_UpdatePositions filter hw).underrun = true ↔
      follows_hardware filter hw = true := by
    rw [UpdatePositions_underrun]
    simp [hset]
  rw [mod_wrap (filter.writepos + filter.buf_size - filter.last_playpos) _ (by omega),
    mod_wrap (hw.writepos + filter.buf_size - filter.last_playpos) _ (by omega)]
  refine ⟨?_, ?_, ?_⟩
  · rw [hu, hf]
    split_ifs <;> omega
  · intro h
    rw [hu] at h
    rw [UpdatePositions_seqwritepos, UpdatePositions_writepos, if_pos h, if_pos ⟨h, hset⟩]
    exact ⟨rfl, rfl⟩
  · intro h
    have h2 : ¬ follows_hardware filter hw = true := by
      rw [← hu, h]; decide
    rw [UpdatePositions_seqwritepos, UpdatePositions_writepos, if_neg h2,
      if_neg (fun h3 => h2 h3.1)]
    exact ⟨rfl, rfl⟩

/-- Witness for C20: the hardware write cursor one byte past the tracked one. -/
theorem C20_UpdatePositions_underrun_witness :
    ((ring100 10 50).writepos < (ring100 10 50).buf_size ∧
      (ring100 10 50).buf_size ≤ 2147483648 ∧
      (ring100 10 50).last_playpos < (ring100 10 50).buf_size ∧
      (Cursor.mk 20 51).writepos < (ring100 10 50).buf_size ∧
      (ring100 10 50).last_playpos ≤ (Cursor.mk 20 51).writepos) ∧
    (DSoundRender_UpdatePositions (ring100 10 50) (Cursor.mk 20 51)).underrun = true ∧
    (DSoundRender_UpdatePositions (ring100 10 50) (Cursor.mk 20 51)).seqwritepos = 51 ∧
    (DSoundRender_UpdatePositions (ring100 10 50) (Cursor.mk 20 51)).filter.writepos = 100 := by
  have h := C20_UpdatePositions_underrun (ring100 10 50) (Cursor.mk 20 51) (by decide)
    (by decide) (by decide) (by decide) (by decide)
  have hu := h.1.2 (by decide)
  exact ⟨⟨by decide, by decide, by decide, by decide, by decide⟩, hu, h.2.1 hu⟩

/-! ## Lock failure and the results of the feeder (C15, C18) -/

/-- C15 fails as stated: with a good plan and a lock that fails with a
DirectSound error the feeder returns `S_OK`, which is no failure. -/
theorem C15_counterexample :
    (running_tick (HRESULT.DSERR 1)).lock_hr ≠ HRESULT.S_OK ∧
    (DSoundRender_GetWritePos unset_filter (-1) (running_tick (HRESULT.DSERR 1)).cursor 0).hr
      = HRESULT.S_OK ∧
    (DSoundRender_SendSampleData unset_filter (-1) (-1) [1, 2, 3, 4]
      [running_tick (HRESULT.DSERR 1)]).hr = some HRESULT.S_OK ∧
    FAILED HRESULT.S_OK = false := by
  decide

/-- C15, amended: if locking the ring buffer fails during a steady-state write
(state Running, a plan with `S_OK` and `skip` below the size),
`DSoundRender_SendSampleData` leaves the loop at that pass without retrying,
whatever the later ticks are, writes nothing (the renderer is the one the
planner left) and returns `S_OK` to its caller. -/
theorem C15_lock_failure (filter : dsound_render) (tStart tStop : Int) (data : List Nat)
    (t : Tick) (rest : List Tick)
    (hstate : filter.state = FILTER_STATE.State_Running)
    (hplan : (DSoundRender_GetWritePos filter tStart t.cursor t.now).hr = HRESULT.S_OK)
    (hskip : (DSoundRender_GetWritePos filter tStart t.cursor t.now).skip < data.length)
    (hlock : t.lock_hr ≠ HRESULT.S_OK) :
    DSoundRender_SendSampleData filter tStart tStop data (t :: rest) =
      { hr := some HRESULT.S_OK,
        filter := (DSoundRender_GetWritePos filter tStart t.cursor t.now).filter } := by
  have hd : ¬ (data.length = 0 ∨ filter.state = FILTER_STATE.State_Stopped) := by
    rw [hstate]
    rintro (h | h)
    · omega
    · cases h
  rw [SendSampleData_cons _ _ _ _ _ _ hd]
  unfold DSoundRender_SendSampleData_body
  simp only [hstate, if_true, hplan, ne_eq, not_true_eq_false, if_false]
  rw [if_neg (by omega), if_pos hlock]

/-- Witness for C15: four bytes, the lock fails in the first pass and would
succeed in a second one. -/
theorem C15_lock_failure_witness :
    (unset_filter.state = FILTER_STATE.State_Running ∧
      (DSoundRender_GetWritePos unset_filter (-1) (running_tick (HRESULT.DSERR 1)).cursor
        (running_tick (HRESULT.DSERR 1)).now).hr = HRESULT.S_OK ∧
      (DSoundRender_GetWritePos unset_filter (-1) (running_tick (HRESULT.DSERR 1)).cursor
        (running_tick (HRESULT.DSERR 1)).now).skip < [1, 2, 3, 4].length ∧
      (running_tick (HRESULT.DSERR 1)).lock_hr ≠ HRESULT.S_OK) ∧
    DSoundRender_SendSampleData unset_filter (-1) (-1) [1, 2, 3, 4]
        [running_tick (HRESULT.DSERR 1), running_tick HRESULT.S_OK] =
      { hr := some HRESULT.S_OK,
        filter := (DSoundRender_GetWritePos unset_filter (-1)
          (running_tick (HRESULT.DSERR 1)).cursor (running_tick (HRESULT.DSERR 1)).now).filter } :=
  ⟨⟨rfl, by decide, by decide, by decide⟩,
    C15_lock_failure unset_filter (-1) (-1) [1, 2, 3, 4] (running_tick (HRESULT.DSERR 1))
      [running_tick HRESULT.S_OK] rfl (by decide) (by decide) (by decide)⟩

/-- A pass of the feeder loop whose plan is not `S_OK`: it waits, then returns
on a flush or stop and goes round again with the same input otherwise. -/
theorem SendSampleData_body_blocked (filter : dsound_render) (tStart : Int)
    (data : List Nat) (t : Tick)
    (h : filter.state = FILTER_STATE.State_Running →
      (DSoundRender_GetWritePos filter tStart t.cursor t.now).hr ≠ HRESULT.S_OK) :
    DSoundRender_SendSampleData_body filter tStart data t =
      if t.flushing = true ∨ t.state = FILTER_STATE.State_Stopped then
        LoopStep.ret
          (if t.state = FILTER_STATE.State_Paused then HRESULT.S_OK
           else HRESULT.VFW_E_WRONG_STATE)
          { (if filter.state = FILTER_STATE.State_Running then
              (DSoundRender_GetWritePos filter tStart t.cursor t.now).filter else filter) with
            state := t.state, flushing := t.flushing }
      else
        LoopStep.next
          { (if filter.state = FILTER_STATE.State_Running then
              (DSoundRender_GetWritePos filter tStart t.cursor t.now).filter else filter) with
            state := t.state, flushing := t.flushing } tStart data := by
  by_cases hs : filter.state = FILTER_STATE.State_Running
  · unfold DSoundRender_SendSampleData_body
    simp only [hs, if_true, h hs, ne_eq, not_false_eq_true, Bool.or_eq_true, decide_eq_true_eq]
  · rw [SendSampleData_body_not_running _ _ _ _ hs]
    simp only [hs, if_false]

/-- C18: every result `DSoundRender_SendSampleData` returns is `S_OK` or
`VFW_E_WRONG_STATE`, never the planner's `S_FALSE`; and a pass whose plan is
blocked (the state is not Running, or the planner does not answer `S_OK`)
goes round again with the same presentation time and data, unless after the
wait `flushing` is set or the state is Stopped, in which case it returns
`S_OK` if the state is Paused and `VFW_E_WRONG_STATE` otherwise. -/
theorem C18_SendSampleData_results (filter : dsound_render) (tStart tStop : Int)
    (data : List Nat) (env : List Tick) (t : Tick) :
    (∀ hr, (DSoundRender_SendSampleData filter tStart tStop data env).hr = some hr →
      (hr = HRESULT.S_OK ∨ hr = HRESULT.VFW_E_WRONG_STATE) ∧ hr ≠ HRESULT.S_FALSE) ∧
    ((filter.state = FILTER_STATE.State_Running →
        (DSoundRender_GetWritePos filter tStart t.cursor t.now).hr ≠ HRESULT.S_OK) →
      DSoundRender_SendSampleData_body filter tStart data t =
        if t.flushing = true ∨ t.state = FILTER_STATE.State_Stopped then
          LoopStep.ret
            (if t.state = FILTER_STATE.State_Paused then HRESULT.S_OK
             else HRESULT.VFW_E_WRONG_STATE)
            { (if filter.state = FILTER_STATE.State_Running then
                (DSoundRender_GetWritePos filter tStart t.cursor t.now).filter else filter) with
              state := t.state, flushing := t.flushing }
        else
          LoopStep.next
            { (if filter.state = FILTER_STATE.State_Running then
                (DSoundRender_GetWritePos filter tStart t.cursor t.now).filter else filter) with
              state := t.state, flushing := t.flushing } tStart data) := by
  refine ⟨?_, SendSampleData_body_blocked filter tStart data t⟩
  intro hr h
  rcases (SendSampleData_outcome env filter tStart tStop data).2 hr h with h1 | ⟨h1, _⟩
  · rw [h1]; exact ⟨Or.inl rfl, by decide⟩
  · rw [h1]; exact ⟨Or.inr rfl, by decide⟩

/-- Witness for C18: a full buffer blocks the plan twice; a flush begins during
the second wait and the feeder returns `VFW_E_WRONG_STATE`. -/
theorem C18_SendSampleData_results_witness :
    (DSoundRender_SendSampleData half_full_filter (-1) (-1) [1, 2, 3, 4]
      [running_tick HRESULT.S_OK, flush_tick]).hr = some HRESULT.VFW_E_WRONG_STATE ∧
    (HRESULT.VFW_E_WRONG_STATE = HRESULT.S_OK ∨
        HRESULT.VFW_E_WRONG_STATE = HRESULT.VFW_E_WRONG_STATE) ∧
      HRESULT.VFW_E_WRONG_STATE ≠ HRESULT.S_FALSE :=
  have h : (DSoundRender_SendSampleData half_full_filter (-1) (-1) [1, 2, 3, 4]
      [running_tick HRESULT.S_OK, flush_tick]).hr = some HRESULT.VFW_E_WRONG_STATE := by
    decide
  ⟨h, (C18_SendSampleData_results half_full_filter (-1) (-1) [1, 2, 3, 4]
    [running_tick HRESULT.S_OK, flush_tick] flush_tick).1 HRESULT.VFW_E_WRONG_STATE h⟩

/-! ## Order of the end-of-stream effects (C19) -/

theorem HandleEndOfStream_cons (filter : dsound_render) (t : Tick) (rest : List Tick)
    (h : filter.state = FILTER_STATE.State_Running) :
    DSoundRender_HandleEndOfStream filter (t :: rest) =
      if (DSoundRender_UpdatePositions filter t.cursor).seqwritepos
          = (DSoundRender_UpdatePositions filter t.cursor).minwritepos then
        { hr := some HRESULT.S_OK, filter := (DSoundRender_UpdatePositions filter t.cursor).filter }
      else
        DSoundRender_HandleEndOfStream
          { (DSoundRender_UpdatePositions filter t.cursor).filter with
            state := t.state, flushing := t.flushing } rest := by
  rw [DSoundRender_HandleEndOfStream, if_neg (by rw [h]; decide)]

theorem sink_eos_blocked (filter : dsound_render) (event_sink : Bool) (env : List Tick)
    (h : (DSoundRender_HandleEndOfStream
      { filter with eos := true, state_event := true } env).hr = none) :
    (dsound_render_sink_eos filter event_sink env).hr = none ∧
    (dsound_render_sink_eos filter event_sink env).actions =
      if filter.state = FILTER_STATE.State_Running ∧ event_sink = true then
        [EosAction.EC_COMPLETE] else [] := by
  simp only [dsound_render_sink_eos, h, and_self]

theorem sink_eos_done (filter : dsound_render) (event_sink : Bool) (env : List Tick)
    (o : Outcome) (hr : HRESULT)
    (ho : DSoundRender_HandleEndOfStream
      { filter with eos := true, state_event := true } env = o)
    (h : o.hr = some hr) :
    (dsound_render_sink_eos filter event_sink env).hr = some HRESULT.S_OK ∧
    (dsound_render_sink_eos filter event_sink env).actions =
      (if filter.state = FILTER_STATE.State_Running ∧ event_sink = true then
        [EosAction.EC_COMPLETE] else []) ++
        [EosAction.drain_finished, EosAction.buffer_zeroed] ∧
    (dsound_render_sink_eos filter event_sink env).filter.buf_size = o.filter.buf_size ∧
    (dsound_render_sink_eos filter event_sink env).filter.dsbuffer
      = o.filter.dsbuffer.map
        (fun b => { b with bytes := memset b.bytes 0 0 o.filter.buf_size }) := by
  simp only [dsound_render_sink_eos, ho, h, IDirectSoundBuffer_Lock_entire, List.append_assoc,
    List.singleton_append, and_self]

/-- C19 fails as stated: `EC_COMPLETE` is the first action of
`dsound_render_sink_eos`, ahead of the end of the drain loop and of the
zeroing, and it has been emitted even while the drain loop is still waiting. -/
theorem C19_counterexample :
    running_filter.state = FILTER_STATE.State_Running ∧
    (dsound_render_sink_eos running_filter true [running_tick HRESULT.S_OK]).hr
      = some HRESULT.S_OK ∧
    (dsound_render_sink_eos running_filter true [running_tick HRESULT.S_OK]).actions
      = [EosAction.EC_COMPLETE, EosAction.drain_finished, EosAction.buffer_zeroed] ∧
    (dsound_render_sink_eos running_filter true []).hr = none ∧
    (dsound_render_sink_eos running_filter true []).actions = [EosAction.EC_COMPLETE] := by
  decide

/-- C19, amended: in `dsound_render_sink_eos` while Running with an event sink
available, `EC_COMPLETE` is emitted first, before the drain loop; the drain
loop and the zeroing of the whole ring buffer follow in this order, the ring
buffer is all zero when the call returns, and the call returns at the first
tick if the sequential and the minimum write position agree there. -/
theorem C19_eos_order (filter : dsound_render) (env : List Tick)
    (hstate : filter.state = FILTER_STATE.State_Running) :
    (((dsound_render_sink_eos filter true env).hr = none ∧
        (dsound_render_sink_eos filter true env).actions = [EosAction.EC_COMPLETE]) ∨
      ((dsound_render_sink_eos filter true env).hr = some HRESULT.S_OK ∧
        (dsound_render_sink_eos filter true env).actions
          = [EosAction.EC_COMPLETE, EosAction.drain_finished, EosAction.buffer_zeroed] ∧
        ∀ b, (dsound_render_sink_eos filter true env).filter.dsbuffer = some b →
          ∀ j, j < (dsound_render_sink_eos filter true env).filter.buf_size → b.bytes j = 0)) ∧
    (∀ t rest, env = t :: rest →
      (DSoundRender_UpdatePositions filter t.cursor).seqwritepos
        = (DSoundRender_UpdatePositions filter t.cursor).minwritepos →
      (dsound_render_sink_eos filter true env).hr = some HRESULT.S_OK) := by
  constructor
  · cases ho : (DSoundRender_HandleEndOfStream
        { filter with eos := true, state_event := true } env).hr with
    | none =>
      left
      obtain ⟨h1, h2⟩ := sink_eos_blocked filter true env ho
      rw [if_pos ⟨hstate, rfl⟩] at h2
      exact ⟨h1, h2⟩
    | some hr =>
      right
      obtain ⟨h1, h2, h3, h4⟩ := sink_eos_done filter true env _ hr rfl ho
      rw [if_pos ⟨hstate, rfl⟩] at h2
      refine ⟨h1, h2, ?_⟩
      intro b hb j hj
      rw [h4] at hb
      rw [h3] at hj
      generalize DSoundRender_HandleEndOfStream
        { filter with eos := true, state_event := true } env = o at hb hj
      cases hd : o.filter.dsbuffer with
      | none => rw [hd] at hb; cases hb
      | some b0 =>
        rw [hd] at hb
        simp only [Option.map_some', Option.some.injEq] at hb
        rw [← hb]
        simp only [memset]
        rw [if_pos (by omega)]
  · intro t rest he hconv
    subst he
    have hc : (DSoundRender_UpdatePositions { filter with eos := true, state_event := true }
          t.cursor).seqwritepos
        = (DSoundRender_UpdatePositions { filter with eos := true, state_event := true }
          t.cursor).minwritepos := by
      rw [UpdatePositions_seqwritepos, UpdatePositions_minwritepos] at hconv ⊢
      exact hconv
    have h1 : (DSoundRender_HandleEndOfStream
        { filter with eos := true, state_event := true } (t :: rest)).hr
        = some HRESULT.S_OK := by
      rw [HandleEndOfStream_cons { filter with eos := true, state_event := true } t rest
        hstate, if_pos hc]
    exact (sink_eos_done filter true (t :: rest) _ HRESULT.S_OK rfl h1).1

/-- Witness for C19: the hardware write cursor has passed the tracked one at
the first tick. -/
theorem C19_eos_order_witness :
    running_filter.state = FILTER_STATE.State_Running ∧
    (dsound_render_sink_eos running_filter true [running_tick HRESULT.S_OK]).hr
      = some HRESULT.S_OK :=
  ⟨rfl, (C19_eos_order running_filter [running_tick HRESULT.S_OK] rfl).2
    (running_tick HRESULT.S_OK) [] rfl (by decide)⟩

/-! ## Lemmas on the conversions and the late branch -/

theorem pos_from_time_nonneg (filter : dsound_render) (t : Int) (h : 0 ≤ t) :
    pos_from_time filter t =
      (t.toNat * filter.mt.nAvgBytesPerSec / 10000000
        - t.toNat * filter.mt.nAvgBytesPerSec / 10000000 % filter.mt.nBlockAlign)
        % 4294967296 := by
  rw [← pos_from_time_ofNat, Int.toNat_of_nonneg h]

theorem pos_from_time_le (filter : dsound_render) (t : Int) (h : 0 ≤ t) :
    pos_from_time filter t ≤ t.toNat * filter.mt.nAvgBytesPerSec / 10000000 := by
  rw [pos_from_time_nonneg filter t h]
  exact Nat.le_trans (Nat.mod_le _ _) (Nat.sub_le _ _)

theorem DWORD_add_eq (a b : Nat) (h : a + b < 4294967296) : DWORD_add a b = a + b := by
  unfold DWORD_add
  omega

/-- A time that lies strictly between the times of two byte counts converts to
fewer bytes than the two counts differ by. -/
theorem late_gap_bound (filter : dsound_render) (a m : Nat) (X : Int) (hX : 0 < X)
    (hlt : X < time_from_pos filter a - time_from_pos filter m) :
    pos_from_time filter X + m < a := by
  have hle := pos_from_time_le filter X (Int.le_of_lt hX)
  rw [time_from_pos_eq, time_from_pos_eq] at hlt
  obtain ⟨n, hn⟩ : ∃ n : Nat, X = (n : Int) := ⟨X.toNat, by omega⟩
  subst hn
  rw [Int.toNat_ofNat] at hle
  generalize pos_from_time filter (n : Int) = p at hle
  generalize filter.mt.nAvgBytesPerSec = B at hle hlt
  have hB : 0 < B := by
    rcases Nat.eq_zero_or_pos B with h0 | h0
    · subst h0
      simp only [Nat.div_zero] at hlt
      omega
    · exact h0
  have h1 : 10000000 * a / B * B ≤ 10000000 * a := Nat.div_mul_le_self _ _
  have h2 : 10000000 * m < B * (10000000 * m / B + 1) := Nat.lt_mul_div_succ _ hB
  have h3 : (n + 10000000 * m / B + 1) * B ≤ 10000000 * a / B * B :=
    Nat.mul_le_mul_right B (by omega)
  have h4 : (n + 10000000 * m / B + 1) * B = n * B + B * (10000000 * m / B + 1) := by ring
  rw [h4] at h3
  generalize 10000000 * a / B * B = P at h1 h3
  generalize B * (10000000 * m / B + 1) = Q at h2 h3
  have h5 : n * B < 10000000 * (a - m) := by
    have : 10000000 * (a - m) = 10000000 * a - 10000000 * m := Nat.mul_sub 10000000 a m
    generalize n * B = R at h3 ⊢
    omega
  have h6 : n * B / 10000000 < a - m := Nat.div_lt_of_lt_mul h5
  omega

/-! ## Late and early branch of the planner (C21, C22, C29) -/

/-- C21: with a clock attached, `write_at ≥ 0`, hardware cursors inside a ring
of at most `2 ^ 31` bytes and `delta < -tol`, let `past = cur + time_from_pos
((min_writepos - play) mod buf_size) - write_at` with `cur = now -
stream_start`.  If `past ≥ 0`, `DSoundRender_GetWritePos` returns the target
`min_writepos` with `skip = pos_from_time past`; if `past < 0` it returns the
target `(min_writepos + pos_from_time (-past)) mod buf_size` with `skip = 0`.
The minimum write position is the hardware write cursor. -/
theorem C21_GetWritePos_late (filter : dsound_render) (write_at now : Int) (hw : Cursor)
    (hclock : filter.clock = true) (hat : 0 ≤ write_at)
    (hbs : filter.buf_size ≤ 2147483648)
    (hplay : hw.playpos < filter.buf_size) (hwrite : hw.writepos < filter.buf_size)
    (hlate : write_at - (now - filter.stream_start + time_from_pos filter
            (((DSoundRender_UpdatePositions filter hw).seqwritepos + filter.buf_size
              - hw.playpos) % filter.buf_size))
        < -(if (DSoundRender_UpdatePositions filter hw).minwritepos
              = (DSoundRender_UpdatePositions filter hw).seqwritepos then (0 : Int) else 500000)) :
    (0 ≤ now - filter.stream_start + time_from_pos filter
          ((hw.writepos + filter.buf_size - hw.playpos) % filter.buf_size) - write_at →
      (DSoundRender_GetWritePos filter write_at hw now).ret_writepos = some hw.writepos ∧
      (DSoundRender_GetWritePos filter write_at hw now).skip
        = pos_from_time filter (now - filter.stream_start + time_from_pos filter
            ((hw.writepos + filter.buf_size - hw.playpos) % filter.buf_size) - write_at)) ∧
    (now - filter.stream_start + time_from_pos filter
          ((hw.writepos + filter.buf_size - hw.playpos) % filter.buf_size) - write_at < 0 →
      (DSoundRender_GetWritePos filter write_at hw now).ret_writepos
        = some ((hw.writepos + pos_from_time filter
            (-(now - filter.stream_start + time_from_pos filter
              ((hw.writepos + filter.buf_size - hw.playpos) % filter.buf_size) - write_at)))
          % filter.buf_size) ∧
      (DSoundRender_GetWritePos filter write_at hw now).skip = 0) := by
  rw [UpdatePositions_minwritepos] at hlate
  have hs := UpdatePositions_seqwritepos_lt filter hw hwrite
  have hdm : (hw.writepos + filter.buf_size - hw.playpos) % filter.buf_size < filter.buf_size :=
    Nat.mod_lt _ (by omega)
  have hds : ((DSoundRender_UpdatePositions filter hw).seqwritepos + filter.buf_size
      - hw.playpos) % filter.buf_size < filter.buf_size := Nat.mod_lt _ (by omega)
  rw [GetWritePos_eq filter write_at now hw (by omega) hplay hwrite _ rfl _ rfl _ rfl _ rfl,
    if_neg (by simp only [hclock, Bool.true_eq_false, false_or]; omega),
    if_neg (by intro h; omega),
    if_pos (by split_ifs at hlate <;> omega)]
  constructor
  · intro hp
    rw [if_pos hp]
    exact ⟨GetWritePos_end_ret_writepos _ _ _ _, GetWritePos_end_skip _ _ _ _⟩
  · intro hp
    rw [if_neg (by omega)]
    have hb := late_gap_bound filter
      (((DSoundRender_UpdatePositions filter hw).seqwritepos + filter.buf_size
        - hw.playpos) % filter.buf_size)
      ((hw.writepos + filter.buf_size - hw.playpos) % filter.buf_size) _
      (by omega : (0 : Int) < -(now - filter.stream_start
      + time_from_pos filter ((hw.writepos + filter.buf_size - hw.playpos) % filter.buf_size)
      - write_at)) (by split_ifs at hlate <;> omega)
    rw [DWORD_add_eq _ _ (by omega)]
    exact ⟨GetWritePos_end_ret_writepos _ _ _ _, GetWritePos_end_skip _ _ _ _⟩

/-- Witness for C21: half a second queued; a sample 5 ms before the time of
the minimum write position is cut by 880 bytes, a sample 100 ms after it
lands 17640 bytes after the minimum write position. -/
theorem C21_GetWritePos_late_witness :
    (queued_filter.clock = true ∧ (0 : Int) ≤ 50000 ∧ queued_filter.buf_size ≤ 2147483648 ∧
      early_cursor.playpos < queued_filter.buf_size ∧
      early_cursor.writepos < queued_filter.buf_size) ∧
    ((DSoundRender_GetWritePos queued_filter 50000 early_cursor 0).ret_writepos = some 1764 ∧
      (DSoundRender_GetWritePos queued_filter 50000 early_cursor 0).skip = 880) ∧
    ((DSoundRender_GetWritePos queued_filter 1100000 early_cursor 0).ret_writepos = some 19404 ∧
      (DSoundRender_GetWritePos queued_filter 1100000 early_cursor 0).skip = 0) :=
  ⟨⟨rfl, by decide, by decide, by decide, by decide⟩,
    (C21_GetWritePos_late queued_filter 50000 0 early_cursor rfl (by decide) (by decide)
      (by decide) (by decide) (by decide)).1 (by decide),
    (C21_GetWritePos_late queued_filter 1100000 0 early_cursor rfl (by decide) (by decide)
      (by decide) (by decide) (by decide)).2 (by decide)⟩

/-- C22: with a clock attached, `write_at ≥ 0`, hardware cursors inside a ring
of at most `2 ^ 31` bytes, a 32-bit byte rate and `tol < delta < 1500000`,
where `delta = write_at - (cur + time_from_pos ((seq - play) mod buf_size))`
is measured against the sequential write position, `DSoundRender_GetWritePos`
returns the target `(min_writepos + pos_from_time delta) mod buf_size`, counted
from the minimum write position (the hardware write cursor), with `skip = 0`. -/
theorem C22_GetWritePos_early (filter : dsound_render) (write_at now : Int) (hw : Cursor)
    (hclock : filter.clock = true) (hat : 0 ≤ write_at)
    (hbs : filter.buf_size ≤ 2147483648) (hrate : filter.mt.nAvgBytesPerSec < 4294967296)
    (hplay : hw.playpos < filter.buf_size) (hwrite : hw.writepos < filter.buf_size)
    (hearly : (if (DSoundRender_UpdatePositions filter hw).minwritepos
              = (DSoundRender_UpdatePositions filter hw).seqwritepos then (0 : Int) else 500000)
        < write_at - (now - filter.stream_start + time_from_pos filter
            (((DSoundRender_UpdatePositions filter hw).seqwritepos + filter.buf_size
              - hw.playpos) % filter.buf_size)))
    (hmax : write_at - (now - filter.stream_start + time_from_pos filter
            (((DSoundRender_UpdatePositions filter hw).seqwritepos + filter.buf_size
              - hw.playpos) % filter.buf_size)) < 1500000) :
    (DSoundRender_GetWritePos filter write_at hw now).ret_writepos
      = some ((hw.writepos + pos_from_time filter
          (write_at - (now - filter.stream_start + time_from_pos filter
            (((DSoundRender_UpdatePositions filter hw).seqwritepos + filter.buf_size
              - hw.playpos) % filter.buf_size)))) % filter.buf_size) ∧
    (DSoundRender_GetWritePos filter write_at hw now).skip = 0 ∧
    (DSoundRender_UpdatePositions filter hw).minwritepos = hw.writepos := by
  rw [UpdatePositions_minwritepos] at hearly ⊢
  have hpos : (0 : Int) < write_at - (now - filter.stream_start + time_from_pos filter
      (((DSoundRender_UpdatePositions filter hw).seqwritepos + filter.buf_size
        - hw.playpos) % filter.buf_size)) := by split_ifs at hearly <;> omega
  rw [GetWritePos_eq filter write_at now hw (by omega) hplay hwrite _ rfl _ rfl _ rfl _ rfl,
    if_neg (by simp only [hclock, Bool.true_eq_false, false_or]; omega),
    if_neg (by intro h; omega), if_neg (by omega),
    if_neg (by unfold DSoundRenderer_Max_Fill; omega)]
  have hle := pos_from_time_le filter _ (Int.le_of_lt hpos)
  generalize write_at - (now - filter.stream_start + time_from_pos filter
      (((DSoundRender_UpdatePositions filter hw).seqwritepos + filter.buf_size
        - hw.playpos) % filter.buf_size)) = delta at hpos hmax hle ⊢
  have h1 : delta.toNat * filter.mt.nAvgBytesPerSec ≤ 1499999 * filter.mt.nAvgBytesPerSec :=
    Nat.mul_le_mul_right _ (by omega)
  have h2 : delta.toNat * filter.mt.nAvgBytesPerSec / 10000000
      ≤ 1499999 * filter.mt.nAvgBytesPerSec / 10000000 := Nat.div_le_div_right h1
  rw [DWORD_add_eq _ _ (by omega)]
  exact ⟨GetWritePos_end_ret_writepos _ _ _ _, GetWritePos_end_skip _ _ _ _, rfl⟩

/-- Witness for C22: nothing queued, a sample stamped 50 ms after the time of
the write position lands 8820 bytes after it. -/
theorem C22_GetWritePos_early_witness :
    (clocked_filter.clock = true ∧ (0 : Int) ≤ 600000 ∧
      clocked_filter.buf_size ≤ 2147483648 ∧
      clocked_filter.mt.nAvgBytesPerSec < 4294967296 ∧
      early_cursor.playpos < clocked_filter.buf_size ∧
      early_cursor.writepos < clocked_filter.buf_size) ∧
    (DSoundRender_GetWritePos clocked_filter 600000 early_cursor 0).ret_writepos
      = some 10584 ∧
    (DSoundRender_GetWritePos clocked_filter 600000 early_cursor 0).skip = 0 := by
  obtain ⟨h1, h2, _⟩ := C22_GetWritePos_early clocked_filter 600000 0 early_cursor rfl
    (by decide) (by decide) (by decide) (by decide) (by decide) (by decide) (by decide)
  exact ⟨⟨rfl, by decide, by decide, by decide, by decide, by decide⟩, h1, h2⟩

/-- C29: in the late branch of `DSoundRender_GetWritePos` (clock attached,
`write_at ≥ 0`, cursors inside a ring of at most `2 ^ 31` bytes, `delta <
-tol`), with `d a b = (b - a) mod buf_size`: if `past < 0`, the advance
`pos_from_time (-past)` satisfies `advance + d play min_writepos < d play seq`,
and the target lies `d play min_writepos + advance` bytes after the play
position, that is at or after the minimum write position and strictly before
the sequential one; and if the minimum write position equals the sequential
one, `past ≥ 0` and the plan is the skip case. -/
theorem C29_late_gap_fill (filter : dsound_render) (write_at now : Int) (hw : Cursor)
    (hclock : filter.clock = true) (hat : 0 ≤ write_at)
    (hbs : filter.buf_size ≤ 2147483648)
    (hplay : hw.playpos < filter.buf_size) (hwrite : hw.writepos < filter.buf_size)
    (hlate : write_at - (now - filter.stream_start + time_from_pos filter
            (((DSoundRender_UpdatePositions filter hw).seqwritepos + filter.buf_size
              - hw.playpos) % filter.buf_size))
        < -(if (DSoundRender_UpdatePositions filter hw).minwritepos
              = (DSoundRender_UpdatePositions filter hw).seqwritepos then (0 : Int) else 500000)) :
    (now - filter.stream_start + time_from_pos filter
          ((hw.writepos + filter.buf_size - hw.playpos) % filter.buf_size) - write_at < 0 →
      pos_from_time filter
          (-(now - filter.stream_start + time_from_pos filter
            ((hw.writepos + filter.buf_size - hw.playpos) % filter.buf_size) - write_at))
        + (hw.writepos + filter.buf_size - hw.playpos) % filter.buf_size
        < ((DSoundRender_UpdatePositions filter hw).seqwritepos + filter.buf_size
            - hw.playpos) % filter.buf_size ∧
      ∃ target, (DSoundRender_GetWritePos filter write_at hw now).ret_writepos = some target ∧
        (target + filter.buf_size - hw.playpos) % filter.buf_size
          = (hw.writepos + filter.buf_size - hw.playpos) % filter.buf_size
            + pos_from_time filter
              (-(now - filter.stream_start + time_from_pos filter
                ((hw.writepos + filter.buf_size - hw.playpos) % filter.buf_size) - write_at))) ∧
    (hw.writepos = (DSoundRender_UpdatePositions filter hw).seqwritepos →
      0 ≤ now - filter.stream_start + time_from_pos filter
          ((hw.writepos + filter.buf_size - hw.playpos) % filter.buf_size) - write_at ∧
      (DSoundRender_GetWritePos filter write_at hw now).ret_writepos = some hw.writepos ∧
      (DSoundRender_GetWritePos filter write_at hw now).skip
        = pos_from_time filter (now - filter.stream_start + time_from_pos filter
            ((hw.writepos + filter.buf_size - hw.playpos) % filter.buf_size) - write_at)) := by
  rw [UpdatePositions_minwritepos] at hlate
  have hs := UpdatePositions_seqwritepos_lt filter hw hwrite
  have hdm : (hw.writepos + filter.buf_size - hw.playpos) % filter.buf_size < filter.buf_size :=
    Nat.mod_lt _ (by omega)
  have hds : ((DSoundRender_UpdatePositions filter hw).seqwritepos + filter.buf_size
      - hw.playpos) % filter.buf_size < filter.buf_size := Nat.mod_lt _ (by omega)
  rw [GetWritePos_eq filter write_at now hw (by omega) hplay hwrite _ rfl _ rfl _ rfl _ rfl,
    if_neg (by simp only [hclock, Bool.true_eq_false, false_or]; omega),
    if_neg (by intro h; omega),
    if_pos (by split_ifs at hlate <;> omega)]
  constructor
  · intro hp
    rw [if_neg (by omega)]
    have hb := late_gap_bound filter
      (((DSoundRender_UpdatePositions filter hw).seqwritepos + filter.buf_size
        - hw.playpos) % filter.buf_size)
      ((hw.writepos + filter.buf_size - hw.playpos) % filter.buf_size) _
      (by omega : (0 : Int) < -(now - filter.stream_start
      + time_from_pos filter ((hw.writepos + filter.buf_size - hw.playpos) % filter.buf_size)
      - write_at)) (by split_ifs at hlate <;> omega)
    refine ⟨hb, _, GetWritePos_end_ret_writepos _ _ _ _, ?_⟩
    rw [DWORD_add_eq _ _ (by omega)]
    generalize pos_from_time filter (-(now - filter.stream_start
      + time_from_pos filter ((hw.writepos + filter.buf_size - hw.playpos) % filter.buf_size)
      - write_at)) = ahead at hb ⊢
    rw [mod_wrap (hw.writepos + filter.buf_size - hw.playpos) _ (by omega)] at hb hdm ⊢
    rw [mod_wrap (hw.writepos + ahead) _ (by omega)]
    split_ifs at hb hdm ⊢ <;> rw [mod_wrap _ _ (by omega)] <;> split_ifs <;> omega
  · intro heq
    rw [← heq] at hlate
    simp only [if_true] at hlate
    have hp : 0 ≤ now - filter.stream_start + time_from_pos filter
        ((hw.writepos + filter.buf_size - hw.playpos) % filter.buf_size) - write_at := by
      omega
    rw [if_pos hp]
    exact ⟨hp, GetWritePos_end_ret_writepos _ _ _ _, GetWritePos_end_skip _ _ _ _⟩

/-- Witness for C29: half a second queued and a sample 100 ms after the time
of the minimum write position. -/
theorem C29_late_gap_fill_witness :
    (queued_filter.clock = true ∧ (0 : Int) ≤ 1100000 ∧
      queued_filter.buf_size ≤ 2147483648 ∧
      early_cursor.playpos < queued_filter.buf_size ∧
      early_cursor.writepos < queued_filter.buf_size) ∧
    pos_from_time queued_filter 1000000 + 1764 < 88200 ∧
    (DSoundRender_GetWritePos queued_filter 1100000 early_cursor 0).ret_writepos
      = some 19404 := by
  obtain ⟨h1, target, h2, h3⟩ := (C29_late_gap_fill queued_filter 1100000 0 early_cursor rfl
    (by decide) (by decide) (by decide) (by decide) (by decide)).1 (by decide)
  exact ⟨⟨rfl, by decide, by decide, by decide, by decide⟩, h1, by decide⟩

/-! ## Bounds of a plan (C26, C27) -/

/-- Every plan of the planner that names a target, for hardware cursors inside
the ring: the target is inside the ring, the free space is the ring distance
from the target to the play position, and the status follows from it. -/
theorem GetWritePos_plan (filter : dsound_render) (write_at now : Int) (hw : Cursor)
    (hdw : filter.buf_size < 4294967296)
    (hplay : hw.playpos < filter.buf_size) (hwrite : hw.writepos < filter.buf_size) :
    (∀ w, (DSoundRender_GetWritePos filter write_at hw now).ret_writepos = some w →
      w < filter.buf_size ∧
      (DSoundRender_GetWritePos filter write_at hw now).pfree
        = some ((hw.playpos + filter.buf_size - w) % filter.buf_size) ∧
      (DSoundRender_GetWritePos filter write_at hw now).hr
        = if 1500000 ≤ time_from_pos filter
              (filter.buf_size - (hw.playpos + filter.buf_size - w) % filter.buf_size)
          then HRESULT.S_FALSE else HRESULT.S_OK) ∧
    ((DSoundRender_GetWritePos filter write_at hw now).hr = HRESULT.S_OK →
      ∃ w, (DSoundRender_GetWritePos filter write_at hw now).ret_writepos = some w) := by
  have hmt := UpdatePositions_mt filter hw
  have hbs := UpdatePositions_buf_size filter hw
  have hs := UpdatePositions_seqwritepos_lt filter hw hwrite
  have hpos : 0 < filter.buf_size := by omega
  have hend : ∀ w s, w < filter.buf_size → _ :=
    fun w s h => GetWritePos_end_spec (DSoundRender_UpdatePositions filter hw).filter filter
      hw.playpos w s hmt hbs hdw hplay h
  have key : ∀ w s, w < filter.buf_size → ∀ w1,
      (DSoundRender_GetWritePos_end (DSoundRender_UpdatePositions filter hw).filter
        hw.playpos w s).ret_writepos = some w1 →
      w1 < filter.buf_size ∧
      (DSoundRender_GetWritePos_end (DSoundRender_UpdatePositions filter hw).filter
        hw.playpos w s).pfree = some ((hw.playpos + filter.buf_size - w1) % filter.buf_size) ∧
      (DSoundRender_GetWritePos_end (DSoundRender_UpdatePositions filter hw).filter
          hw.playpos w s).hr
        = if 1500000 ≤ time_from_pos filter
              (filter.buf_size - (hw.playpos + filter.buf_size - w1) % filter.buf_size)
          then HRESULT.S_FALSE else HRESULT.S_OK := by
    intro w s h w1 h1
    obtain ⟨e1, _, _, e4, e5⟩ := hend w s h
    rw [e1] at h1
    cases h1
    exact ⟨h, e4, e5⟩
  rw [GetWritePos_eq filter write_at now hw hdw hplay hwrite _ rfl _ rfl _ rfl _ rfl]
  constructor
  · split_ifs <;>
      first
      | exact key _ _ hs
      | exact key _ _ hwrite
      | exact key _ _ (Nat.mod_lt _ hpos)
      | (intro w h; cases h)
  · split_ifs <;>
      first
      | exact fun _ => ⟨_, (hend _ _ hs).1⟩
      | exact fun _ => ⟨_, (hend _ _ hwrite).1⟩
      | exact fun _ => ⟨_, (hend _ _ (Nat.mod_lt _ hpos)).1⟩
      | (intro h; cases h)

/-- C26: whenever the hardware cursors are below `buf_size` and
`DSoundRender_GetWritePos` returns `S_OK`, the target offset is in `[0,
buf_size)` and the free space is `(play - target) mod buf_size`, which is in
`[0, buf_size)`; the `free` offsets from the target on do not contain the
play position, which is the offset right after them. -/
theorem C26_plan_bounds (filter : dsound_render) (write_at now : Int) (hw : Cursor)
    (hdw : filter.buf_size < 4294967296)
    (hplay : hw.playpos < filter.buf_size) (hwrite : hw.writepos < filter.buf_size)
    (hok : (DSoundRender_GetWritePos filter write_at hw now).hr = HRESULT.S_OK) :
    ∃ target free,
      (DSoundRender_GetWritePos filter write_at hw now).ret_writepos = some target ∧
      (DSoundRender_GetWritePos filter write_at hw now).pfree = some free ∧
      target < filter.buf_size ∧
      free = (hw.playpos + filter.buf_size - target) % filter.buf_size ∧
      free < filter.buf_size ∧
      (∀ i, i < free → (target + i) % filter.buf_size ≠ hw.playpos) ∧
      (target + free) % filter.buf_size = hw.playpos := by
  obtain ⟨h1, h2⟩ := GetWritePos_plan filter write_at now hw hdw hplay hwrite
  obtain ⟨w, hw1⟩ := h2 hok
  obtain ⟨hlt, hfree, _⟩ := h1 w hw1
  refine ⟨w, _, hw1, hfree, hlt, rfl, Nat.mod_lt _ (by omega), ?_, ?_⟩
  · intro i hi
    rw [mod_wrap _ _ (by omega)] at hi
    rw [mod_wrap (w + i) _ (by split_ifs at hi <;> omega)]
    split_ifs at hi ⊢ <;> omega
  · rw [mod_wrap (hw.playpos + filter.buf_size - w) _ (by omega)]
    split_ifs with h
    · rw [mod_wrap _ _ (by omega)]
      split_ifs <;> omega
    · rw [mod_wrap _ _ (by omega)]
      split_ifs <;> omega

/-- Witness for C26: nothing queued, sample stamped with the time of the
write cursor. -/
theorem C26_plan_bounds_witness :
    (clocked_filter.buf_size < 4294967296 ∧ early_cursor.playpos < clocked_filter.buf_size ∧
      early_cursor.writepos < clocked_filter.buf_size ∧
      (DSoundRender_GetWritePos clocked_filter 100000 early_cursor 0).hr = HRESULT.S_OK) ∧
    ∃ target free,
      (DSoundRender_GetWritePos clocked_filter 100000 early_cursor 0).ret_writepos
        = some target ∧
      (DSoundRender_GetWritePos clocked_filter 100000 early_cursor 0).pfree = some free ∧
      target < clocked_filter.buf_size ∧ free < clocked_filter.buf_size := by
  obtain ⟨target, free, h1, h2, h3, _, h5, _⟩ := C26_plan_bounds clocked_filter 100000 0
    early_cursor (by decide) (by decide) (by decide) (by decide)
  exact ⟨⟨by decide, by decide, by decide, by decide⟩, target, free, h1, h2, h3, h5⟩

/-- C27: for hardware cursors inside the ring and `nAvgBytesPerSec > 0`,
whenever `DSoundRender_GetWritePos` returns `S_OK`, `20 * (buf_size - free) <
3 * nAvgBytesPerSec`; with `buf_size = nAvgBytesPerSec` this gives `free >
85 %` of `buf_size` and `free ≥ 1`, and a target equal to the play position
(`free = 0`) yields `S_FALSE`. -/
theorem C27_plan_free_space (filter : dsound_render) (write_at now : Int) (hw : Cursor)
    (hdw : filter.buf_size < 4294967296) (hrate : 0 < filter.mt.nAvgBytesPerSec)
    (hplay : hw.playpos < filter.buf_size) (hwrite : hw.writepos < filter.buf_size) :
    ((DSoundRender_GetWritePos filter write_at hw now).hr = HRESULT.S_OK →
      ∃ free, (DSoundRender_GetWritePos filter write_at hw now).pfree = some free ∧
        20 * (filter.buf_size - free) < 3 * filter.mt.nAvgBytesPerSec ∧
        (filter.buf_size = filter.mt.nAvgBytesPerSec →
          17 * filter.buf_size < 20 * free ∧ 1 ≤ free)) ∧
    (filter.buf_size = filter.mt.nAvgBytesPerSec →
      (DSoundRender_GetWritePos filter write_at hw now).ret_writepos = some hw.playpos →
      (DSoundRender_GetWritePos filter write_at hw now).pfree = some 0 ∧
      (DSoundRender_GetWritePos filter write_at hw now).hr = HRESULT.S_FALSE) := by
  obtain ⟨h1, h2⟩ := GetWritePos_plan filter write_at now hw hdw hplay hwrite
  constructor
  · intro hok
    obtain ⟨w, hw1⟩ := h2 hok
    obtain ⟨hlt, hfree, hhr⟩ := h1 w hw1
    have hfl : (hw.playpos + filter.buf_size - w) % filter.buf_size < filter.buf_size :=
      Nat.mod_lt _ (by omega)
    refine ⟨_, hfree, ?_⟩
    rw [hok] at hhr
    have hn : ¬ 1500000 ≤ time_from_pos filter
        (filter.buf_size - (hw.playpos + filter.buf_size - w) % filter.buf_size) := by
      intro h
      rw [if_pos h] at hhr
      cases hhr
    rw [time_from_pos_eq] at hn
    generalize (hw.playpos + filter.buf_size - w) % filter.buf_size = free at hn hfl ⊢
    have h3 : 10000000 * (filter.buf_size - free) / filter.mt.nAvgBytesPerSec < 1500000 := by
      omega
    have h4 := (Nat.div_lt_iff_lt_mul hrate).1 h3
    constructor
    · omega
    · intro heq
      omega
  · intro heq htarget
    obtain ⟨_, hfree, hhr⟩ := h1 hw.playpos htarget
    have h0 : (hw.playpos + filter.buf_size - hw.playpos) % filter.buf_size = 0 := by
      rw [Nat.add_sub_cancel_left, Nat.mod_self]
    rw [h0] at hfree hhr
    refine ⟨hfree, ?_⟩
    rw [hhr, if_pos]
    rw [Nat.sub_zero, heq, time_from_pos_one_second filter hrate]
    decide

/-- Witness for C27: nothing queued, sample stamped with the time of the
write cursor. -/
theorem C27_plan_free_space_witness :
    (clocked_filter.buf_size < 4294967296 ∧ 0 < clocked_filter.mt.nAvgBytesPerSec ∧
      early_cursor.playpos < clocked_filter.buf_size ∧
      early_cursor.writepos < clocked_filter.buf_size) ∧
    ∃ free, (DSoundRender_GetWritePos clocked_filter 100000 early_cursor 0).pfree = some free ∧
      20 * (clocked_filter.buf_size - free) < 3 * clocked_filter.mt.nAvgBytesPerSec ∧
      1 ≤ free := by
  obtain ⟨free, h1, h2, h3⟩ := (C27_plan_free_space clocked_filter 100000 0 early_cursor
    (by decide) (by decide) (by decide) (by decide)).1 (by decide)
  exact ⟨⟨by decide, by decide, by decide, by decide⟩, free, h1, h2, (h3 rfl).2⟩

/-! ## Frame alignment (C25) -/

theorem pos_from_time_aligned (filter : dsound_render) (n : Nat)
    (hfit : n * filter.mt.nAvgBytesPerSec / 10000000 < 4294967296) :
    pos_from_time filter (n : Int) =
      filter.mt.nBlockAlign * (n * filter.mt.nAvgBytesPerSec / 10000000 / filter.mt.nBlockAlign)
      := by
  rw [pos_from_time_ofNat]
  generalize n * filter.mt.nAvgBytesPerSec / 10000000 = q at hfit ⊢
  have h1 := Nat.div_add_mod q filter.mt.nBlockAlign
  have h2 : q % filter.mt.nBlockAlign ≤ q := Nat.mod_le _ _
  generalize filter.mt.nBlockAlign * (q / filter.mt.nBlockAlign) = r at h1 ⊢
  omega

theorem late_gap_count (filter : dsound_render) (a m : Nat) (X : Int) (hX : 0 < X)
    (hlt : X < time_from_pos filter a - time_from_pos filter m) :
    X.toNat * filter.mt.nAvgBytesPerSec / 10000000 + m < a := by
  rw [time_from_pos_eq, time_from_pos_eq] at hlt
  obtain ⟨n, hn⟩ : ∃ n : Nat, X = (n : Int) := ⟨X.toNat, by omega⟩
  subst hn
  rw [Int.toNat_ofNat]
  generalize filter.mt.nAvgBytesPerSec = B at hlt ⊢
  have hB : 0 < B := by
    rcases Nat.eq_zero_or_pos B with h0 | h0
    · subst h0
      simp only [Nat.div_zero] at hlt
      omega
    · exact h0
  have h1 : 10000000 * a / B * B ≤ 10000000 * a := Nat.div_mul_le_self _ _
  have h2 : 10000000 * m < B * (10000000 * m / B + 1) := Nat.lt_mul_div_succ _ hB
  have h3 : (n + 10000000 * m / B + 1) * B ≤ 10000000 * a / B * B :=
    Nat.mul_le_mul_right B (by omega)
  have h4 : (n + 10000000 * m / B + 1) * B = n * B + B * (10000000 * m / B + 1) := by ring
  rw [h4] at h3
  generalize 10000000 * a / B * B = P at h1 h3
  generalize B * (10000000 * m / B + 1) = Q at h2 h3
  have h5 : n * B < 10000000 * (a - m) := by
    have : 10000000 * (a - m) = 10000000 * a - 10000000 * m := Nat.mul_sub 10000000 a m
    generalize n * B = R at h3 ⊢
    omega
  have h6 : n * B / 10000000 < a - m := Nat.div_lt_of_lt_mul h5
  omega

theorem pos_from_time_dvd (filter : dsound_render) (t : Int) (ht : 0 ≤ t)
    (hfit : t.toNat * filter.mt.nAvgBytesPerSec / 10000000 < 4294967296) :
    filter.mt.nBlockAlign ∣ pos_from_time filter t := by
  have h := pos_from_time_aligned filter t.toNat hfit
  rw [Int.toNat_of_nonneg ht] at h
  rw [h]
  exact Dvd.intro _ rfl

theorem pos_from_time_largest (filter : dsound_render) (n m : Nat)
    (hfit : n * filter.mt.nAvgBytesPerSec / 10000000 < 4294967296)
    (hdvd : filter.mt.nBlockAlign ∣ m) (hle : m ≤ n * filter.mt.nAvgBytesPerSec / 10000000) :
    m ≤ pos_from_time filter (n : Int) := by
  rw [pos_from_time_aligned filter n hfit]
  generalize n * filter.mt.nAvgBytesPerSec / 10000000 = q at hle
  obtain ⟨k, rfl⟩ := hdvd
  rcases Nat.eq_zero_or_pos filter.mt.nBlockAlign with h0 | h0
  · rw [h0]; simp
  · exact Nat.mul_le_mul_left _ ((Nat.le_div_iff_mul_le h0).2 (by rw [Nat.mul_comm]; exact hle))

theorem early_count_fits (filter : dsound_render) (delta : Int)
    (hrate : filter.mt.nAvgBytesPerSec < 4294967296) (hmax : delta < 1500000) :
    delta.toNat * filter.mt.nAvgBytesPerSec / 10000000 < 644245095 := by
  have h1 : delta.toNat * filter.mt.nAvgBytesPerSec ≤ 1499999 * filter.mt.nAvgBytesPerSec :=
    Nat.mul_le_mul_right _ (by omega)
  have h2 : delta.toNat * filter.mt.nAvgBytesPerSec / 10000000
      ≤ 1499999 * filter.mt.nAvgBytesPerSec / 10000000 := Nat.div_le_div_right h1
  omega

theorem GetWritePos_aligned (filter : dsound_render) (write_at now : Int) (hw : Cursor)
    (hbs : filter.buf_size ≤ 2147483648) (hrate : filter.mt.nAvgBytesPerSec < 4294967296)
    (hplay : hw.playpos < filter.buf_size) (hwrite : hw.writepos < filter.buf_size) :
    (((now - filter.stream_start + time_from_pos filter
          ((hw.writepos + filter.buf_size - hw.playpos) % filter.buf_size) - write_at).toNat
        * filter.mt.nAvgBytesPerSec / 10000000 < 4294967296 →
      filter.mt.nBlockAlign ∣ (DSoundRender_GetWritePos filter write_at hw now).skip) ∧
    (∀ w, (DSoundRender_GetWritePos filter write_at hw now).ret_writepos = some w →
      w = (DSoundRender_UpdatePositions filter hw).seqwritepos ∨ w = hw.writepos ∨
      ∃ ahead,
        (ahead = pos_from_time filter (-(now - filter.stream_start + time_from_pos filter
            ((hw.writepos + filter.buf_size - hw.playpos) % filter.buf_size) - write_at)) ∨
         ahead = pos_from_time filter (write_at - (now - filter.stream_start
            + time_from_pos filter (((DSoundRender_UpdatePositions filter hw).seqwritepos
              + filter.buf_size - hw.playpos) % filter.buf_size)))) ∧
        filter.mt.nBlockAlign ∣ ahead ∧ w = (hw.writepos + ahead) % filter.buf_size)) := by
  have hs := UpdatePositions_seqwritepos_lt filter hw hwrite
  have hdm : (hw.writepos + filter.buf_size - hw.playpos) % filter.buf_size < filter.buf_size :=
    Nat.mod_lt _ (by omega)
  have hds : ((DSoundRender_UpdatePositions filter hw).seqwritepos + filter.buf_size
      - hw.playpos) % filter.buf_size < filter.buf_size := Nat.mod_lt _ (by omega)
  obtain ⟨tol, htol⟩ : ∃ tol : Int, tol = if hw.writepos
      = (DSoundRender_UpdatePositions filter hw).seqwritepos then 0 else 500000 := ⟨_, rfl⟩
  have htol0 : 0 ≤ tol := by rw [htol]; split_ifs <;> omega
  rw [GetWritePos_eq filter write_at now hw (by omega) hplay hwrite _ rfl _ rfl _ rfl tol htol]
  by_cases h1 : filter.clock = false ∨ write_at < 0
  · rw [if_pos h1]
    refine ⟨fun _ => ?_, fun w hw1 => Or.inl ?_⟩
    · rw [GetWritePos_end_skip]; exact Nat.dvd_zero _
    · rw [GetWritePos_end_ret_writepos] at hw1; exact (Option.some.inj hw1).symm
  rw [if_neg h1]
  by_cases h2 : -tol ≤ write_at - (now - filter.stream_start + time_from_pos filter
      (((DSoundRender_UpdatePositions filter hw).seqwritepos + filter.buf_size
        - hw.playpos) % filter.buf_size)) ∧
      write_at - (now - filter.stream_start + time_from_pos filter
      (((DSoundRender_UpdatePositions filter hw).seqwritepos + filter.buf_size
        - hw.playpos) % filter.buf_size)) ≤ tol
  · rw [if_pos h2]
    refine ⟨fun _ => ?_, fun w hw1 => Or.inl ?_⟩
    · rw [GetWritePos_end_skip]; exact Nat.dvd_zero _
    · rw [GetWritePos_end_ret_writepos] at hw1; exact (Option.some.inj hw1).symm
  rw [if_neg h2]
  by_cases h3 : write_at - (now - filter.stream_start + time_from_pos filter
      (((DSoundRender_UpdatePositions filter hw).seqwritepos + filter.buf_size
        - hw.playpos) % filter.buf_size)) < 0
  · rw [if_pos h3]
    by_cases h4 : 0 ≤ now - filter.stream_start + time_from_pos filter
        ((hw.writepos + filter.buf_size - hw.playpos) % filter.buf_size) - write_at
    · rw [if_pos h4]
      refine ⟨fun hfit => ?_, fun w hw1 => Or.inr (Or.inl ?_)⟩
      · rw [GetWritePos_end_skip]; exact pos_from_time_dvd filter _ h4 hfit
      · rw [GetWritePos_end_ret_writepos] at hw1; exact (Option.some.inj hw1).symm
    · rw [if_neg h4]
      have hX : (0 : Int) < -(now - filter.stream_start
          + time_from_pos filter ((hw.writepos + filter.buf_size - hw.playpos) % filter.buf_size)
          - write_at) := by omega
      have hgap : -(now - filter.stream_start
          + time_from_pos filter ((hw.writepos + filter.buf_size - hw.playpos) % filter.buf_size)
          - write_at) < time_from_pos filter
            (((DSoundRender_UpdatePositions filter hw).seqwritepos + filter.buf_size
              - hw.playpos) % filter.buf_size)
            - time_from_pos filter
              ((hw.writepos + filter.buf_size - hw.playpos) % filter.buf_size) := by
        omega
      have hb := late_gap_bound filter _ _ _ hX hgap
      have hc := late_gap_count filter _ _ _ hX hgap
      refine ⟨fun _ => ?_, fun w hw1 => Or.inr (Or.inr ⟨_, Or.inl rfl, ?_, ?_⟩)⟩
      · rw [GetWritePos_end_skip]; exact Nat.dvd_zero _
      · exact pos_from_time_dvd filter _ (Int.le_of_lt hX) (by omega)
      · rw [GetWritePos_end_ret_writepos, DWORD_add_eq _ _ (by omega)] at hw1
        exact (Option.some.inj hw1).symm
  rw [if_neg h3]
  by_cases h5 : DSoundRenderer_Max_Fill ≤ write_at - (now - filter.stream_start
      + time_from_pos filter (((DSoundRender_UpdatePositions filter hw).seqwritepos
        + filter.buf_size - hw.playpos) % filter.buf_size))
  · rw [if_pos h5]
    refine ⟨fun _ => Nat.dvd_zero _, fun w hw1 => ?_⟩
    exact absurd hw1 (by simp)
  · rw [if_neg h5]
    have hmax : write_at - (now - filter.stream_start + time_from_pos filter
        (((DSoundRender_UpdatePositions filter hw).seqwritepos + filter.buf_size
          - hw.playpos) % filter.buf_size)) < 1500000 := by
      unfold DSoundRenderer_Max_Fill at h5; omega
    have hfit := early_count_fits filter _ hrate hmax
    have hle := pos_from_time_le filter _ (by omega : (0 : Int) ≤ write_at - (now
      - filter.stream_start + time_from_pos filter
        (((DSoundRender_UpdatePositions filter hw).seqwritepos + filter.buf_size
          - hw.playpos) % filter.buf_size)))
    refine ⟨fun _ => ?_, fun w hw1 => Or.inr (Or.inr ⟨_, Or.inr rfl, ?_, ?_⟩)⟩
    · rw [GetWritePos_end_skip]; exact Nat.dvd_zero _
    · exact pos_from_time_dvd filter _ (by omega) (by omega)
    · rw [GetWritePos_end_ret_writepos, DWORD_add_eq _ _ (by omega)] at hw1
      exact (Option.some.inj hw1).symm

/-- C25 fails as stated: with 3-byte frames at 144000 bytes per second, a
sample stamped 0 that arrives 298261617917 ticks late (about eight hours and
a quarter) has a byte count of `2 ^ 32 + 2`, and the planner returns an `S_OK`
plan whose `skip` is 2 bytes, not a whole number of frames. -/
theorem C25_counterexample :
    0 < mono24_filter.mt.nBlockAlign ∧ mono24_filter.clock = true ∧
    early_cursor.playpos < mono24_filter.buf_size ∧
    early_cursor.writepos < mono24_filter.buf_size ∧
    (DSoundRender_GetWritePos mono24_filter 0 early_cursor 298261495417).hr = HRESULT.S_OK ∧
    (DSoundRender_GetWritePos mono24_filter 0 early_cursor 298261495417).skip = 2 ∧
    ¬ mono24_filter.mt.nBlockAlign
      ∣ (DSoundRender_GetWritePos mono24_filter 0 early_cursor 298261495417).skip := by
  decide

/-- C25, amended: for a format with `nBlockAlign > 0` and a time `t ≥ 0` whose
byte count `floor (t * nAvgBytesPerSec / 10000000)` fits in 32 bits,
`pos_from_time t` is a multiple of `nBlockAlign`, at most the byte count, and
the largest such multiple.  For hardware cursors inside a ring of at most
`2 ^ 31` bytes and a 32-bit byte rate, every target of
`DSoundRender_GetWritePos` is the sequential write position, the hardware
write cursor, or the hardware write cursor advanced (mod `buf_size`) by a byte
count `pos_from_time (-past)` or `pos_from_time delta` that is a multiple of
`nBlockAlign`; and `skip` is a multiple of `nBlockAlign` whenever the byte
count of `past` fits in 32 bits. -/
theorem C25_frame_alignment (filter : dsound_render) (t write_at now : Int) (hw : Cursor)
    (_hA : 0 < filter.mt.nBlockAlign) (ht : 0 ≤ t)
    (hfit : t.toNat * filter.mt.nAvgBytesPerSec / 10000000 < 4294967296)
    (hbs : filter.buf_size ≤ 2147483648) (hrate : filter.mt.nAvgBytesPerSec < 4294967296)
    (hplay : hw.playpos < filter.buf_size) (hwrite : hw.writepos < filter.buf_size) :
    (filter.mt.nBlockAlign ∣ pos_from_time filter t ∧
      pos_from_time filter t ≤ t.toNat * filter.mt.nAvgBytesPerSec / 10000000 ∧
      ∀ m, filter.mt.nBlockAlign ∣ m → m ≤ t.toNat * filter.mt.nAvgBytesPerSec / 10000000 →
        m ≤ pos_from_time filter t) ∧
    ((now - filter.stream_start + time_from_pos filter
          ((hw.writepos + filter.buf_size - hw.playpos) % filter.buf_size) - write_at).toNat
        * filter.mt.nAvgBytesPerSec / 10000000 < 4294967296 →
      filter.mt.nBlockAlign ∣ (DSoundRender_GetWritePos filter write_at hw now).skip) ∧
    (∀ w, (DSoundRender_GetWritePos filter write_at hw now).ret_writepos = some w →
      w = (DSoundRender_UpdatePositions filter hw).seqwritepos ∨ w = hw.writepos ∨
      ∃ ahead,
        (ahead = pos_from_time filter (-(now - filter.stream_start + time_from_pos filter
            ((hw.writepos + filter.buf_size - hw.playpos) % filter.buf_size) - write_at)) ∨
         ahead = pos_from_time filter (write_at - (now - filter.stream_start
            + time_from_pos filter (((DSoundRender_UpdatePositions filter hw).seqwritepos
              + filter.buf_size - hw.playpos) % filter.buf_size)))) ∧
        filter.mt.nBlockAlign ∣ ahead ∧ w = (hw.writepos + ahead) % filter.buf_size) := by
  refine ⟨⟨pos_from_time_dvd filter t ht hfit, pos_from_time_le filter t ht, fun m hm hle => ?_⟩,
    GetWritePos_aligned filter write_at now hw hbs hrate hplay hwrite⟩
  have h := pos_from_time_largest filter t.toNat m hfit hm hle
  rw [Int.toNat_of_nonneg ht] at h
  exact h

/-- Witness for C25: at 176400 bytes per second and 4-byte frames, 5 ms are
880 bytes (byte count 882), and a sample 5 ms late is cut by 880 bytes. -/
theorem C25_frame_alignment_witness :
    (0 < queued_filter.mt.nBlockAlign ∧ (0 : Int) ≤ 50000 ∧
      (50000 : Int).toNat * queued_filter.mt.nAvgBytesPerSec / 10000000 = 882 ∧
      queued_filter.buf_size ≤ 2147483648 ∧ queued_filter.mt.nAvgBytesPerSec < 4294967296 ∧
      early_cursor.playpos < queued_filter.buf_size ∧
      early_cursor.writepos < queued_filter.buf_size) ∧
    pos_from_time queued_filter 50000 = 880 ∧
    queued_filter.mt.nBlockAlign ∣ pos_from_time queued_filter 50000 ∧
    (DSoundRender_GetWritePos queued_filter 50000 early_cursor 0).skip = 880 ∧
    queued_filter.mt.nBlockAlign
      ∣ (DSoundRender_GetWritePos queued_filter 50000 early_cursor 0).skip :=
  ⟨⟨by decide, by decide, by decide, by decide, by decide, by decide, by decide⟩,
    by decide,
    (C25_frame_alignment queued_filter 50000 50000 0 early_cursor (by decide) (by decide)
      (by decide) (by decide) (by decide) (by decide) (by decide)).1.1,
    by decide,
    (C25_frame_alignment queued_filter 50000 50000 0 early_cursor (by decide) (by decide)
      (by decide) (by decide) (by decide) (by decide) (by decide)).2.1 (by decide)⟩

/-! ## Weak round trip and monotonicity of the conversions (C30) -/

theorem round_trip_count (filter : dsound_render) (x : Nat)
    (_hB : 0 < filter.mt.nAvgBytesPerSec) :
    (10000000 * x / filter.mt.nAvgBytesPerSec) * filter.mt.nAvgBytesPerSec / 10000000 ≤ x := by
  have h1 : 10000000 * x / filter.mt.nAvgBytesPerSec * filter.mt.nAvgBytesPerSec
      ≤ 10000000 * x := Nat.div_mul_le_self _ _
  generalize 10000000 * x / filter.mt.nAvgBytesPerSec * filter.mt.nAvgBytesPerSec = m at h1 ⊢
  omega

theorem round_trip_le (filter : dsound_render) (x : Nat)
    (hB : 0 < filter.mt.nAvgBytesPerSec) :
    pos_from_time filter (time_from_pos filter x) ≤ x := by
  rw [time_from_pos_eq]
  have h := pos_from_time_le filter ((10000000 * x / filter.mt.nAvgBytesPerSec : Nat) : Int)
    (Int.ofNat_nonneg _)
  rw [Int.toNat_ofNat] at h
  exact Nat.le_trans h (round_trip_count filter x hB)

theorem round_trip_eq (filter : dsound_render) (x : Nat)
    (_hB : 0 < filter.mt.nAvgBytesPerSec) (hx : x < 4294967296)
    (hal : filter.mt.nBlockAlign ∣ x) (hdvd : filter.mt.nAvgBytesPerSec ∣ 10000000 * x) :
    pos_from_time filter (time_from_pos filter x) = x := by
  have hq : (10000000 * x / filter.mt.nAvgBytesPerSec) * filter.mt.nAvgBytesPerSec / 10000000
      = x := by
    rw [Nat.div_mul_cancel hdvd]
    omega
  rw [time_from_pos_eq, pos_from_time_aligned filter _ (by rw [hq]; exact hx), hq]
  exact Nat.mul_div_cancel' hal

theorem pos_from_time_mono (filter : dsound_render) (s t : Int) (hs : 0 ≤ s) (hst : s ≤ t)
    (hfit : t.toNat * filter.mt.nAvgBytesPerSec / 10000000 < 4294967296) :
    pos_from_time filter s ≤ pos_from_time filter t := by
  have hq : s.toNat * filter.mt.nAvgBytesPerSec / 10000000
      ≤ t.toNat * filter.mt.nAvgBytesPerSec / 10000000 :=
    Nat.div_le_div_right (Nat.mul_le_mul_right _ (by omega))
  have h1 := pos_from_time_aligned filter s.toNat (by omega)
  have h2 := pos_from_time_aligned filter t.toNat hfit
  rw [Int.toNat_of_nonneg hs] at h1
  rw [Int.toNat_of_nonneg (by omega)] at h2
  rw [h1, h2]
  exact Nat.mul_le_mul_left _ (Nat.div_le_div_right hq)

/-- C30 fails as stated: at 176400 bytes per second and 4-byte frames one
second maps to byte 176400, but the later time 243478871656 (about 6.8 hours),
whose byte count is `2 ^ 32`, maps to byte 0. -/
theorem C30_counterexample :
    0 < stereo_filter.mt.nAvgBytesPerSec ∧ 0 < stereo_filter.mt.nBlockAlign ∧
    (10000000 : Int) ≤ 243478871656 ∧
    pos_from_time stereo_filter 10000000 = 176400 ∧
    pos_from_time stereo_filter 243478871656 = 0 ∧
    ¬ pos_from_time stereo_filter 10000000 ≤ pos_from_time stereo_filter 243478871656 := by
  decide

/-- C30, amended: for a format with `nAvgBytesPerSec > 0` and `nBlockAlign >
0` and a 32-bit byte offset `x`, `pos_from_time (time_from_pos x) ≤ x`, with
equality whenever `x` is a multiple of `nBlockAlign` and `nAvgBytesPerSec`
divides `10000000 * x` (for example `x = nAvgBytesPerSec` when that is
block-aligned); `time_from_pos` is monotone non-decreasing, and
`pos_from_time` is monotone non-decreasing on the times `0 ≤ s ≤ t` whose
byte count fits in 32 bits. -/
theorem C30_weak_round_trip (filter : dsound_render) (x y : Nat) (s t : Int)
    (hB : 0 < filter.mt.nAvgBytesPerSec) (_hA : 0 < filter.mt.nBlockAlign)
    (hx : x < 4294967296) (hxy : x ≤ y) (hs : 0 ≤ s) (hst : s ≤ t)
    (hfit : t.toNat * filter.mt.nAvgBytesPerSec / 10000000 < 4294967296) :
    pos_from_time filter (time_from_pos filter x) ≤ x ∧
    (filter.mt.nBlockAlign ∣ x → filter.mt.nAvgBytesPerSec ∣ 10000000 * x →
      pos_from_time filter (time_from_pos filter x) = x) ∧
    (filter.mt.nBlockAlign ∣ filter.mt.nAvgBytesPerSec →
      filter.mt.nAvgBytesPerSec < 4294967296 →
      pos_from_time filter (time_from_pos filter filter.mt.nAvgBytesPerSec)
        = filter.mt.nAvgBytesPerSec) ∧
    time_from_pos filter x ≤ time_from_pos filter y ∧
    pos_from_time filter s ≤ pos_from_time filter t := by
  refine ⟨round_trip_le filter x hB, round_trip_eq filter x hB hx,
    fun hal hlt => round_trip_eq filter _ hB hlt hal (Dvd.intro_left _ rfl), ?_,
    pos_from_time_mono filter s t hs hst hfit⟩
  rw [time_from_pos_eq, time_from_pos_eq]
  exact Int.ofNat_le.2 (Nat.div_le_div_right (Nat.mul_le_mul_left _ hxy))

/-- Witness for C30: at 176400 bytes per second and 4-byte frames, byte 6
maps to 340 ticks and back to byte 4, one second of bytes round-trips, and
both conversions keep the order of 6 ≤ 176400 and of 340 ≤ 10000000. -/
theorem C30_weak_round_trip_witness :
    (0 < stereo_filter.mt.nAvgBytesPerSec ∧ 0 < stereo_filter.mt.nBlockAlign ∧
      6 < 4294967296 ∧ 6 ≤ 176400 ∧ (0 : Int) ≤ 340 ∧ (340 : Int) ≤ 10000000 ∧
      (10000000 : Int).toNat * stereo_filter.mt.nAvgBytesPerSec / 10000000 < 4294967296) ∧
    pos_from_time stereo_filter (time_from_pos stereo_filter 6) = 4 ∧
    pos_from_time stereo_filter (time_from_pos stereo_filter 6) ≤ 6 ∧
    pos_from_time stereo_filter (time_from_pos stereo_filter 176400) = 176400 ∧
    time_from_pos stereo_filter 6 ≤ time_from_pos stereo_filter 176400 ∧
    pos_from_time stereo_filter 340 ≤ pos_from_time stereo_filter 10000000 := by
  have h := C30_weak_round_trip stereo_filter 6 176400 340 10000000 (by decide) (by decide)
    (by decide) (by decide) (by decide) (by decide) (by decide)
  exact ⟨⟨by decide, by decide, by decide, by decide, by decide, by decide, by decide⟩,
    by decide, h.1, h.2.2.1 (by decide) (by decide), h.2.2.2.1, h.2.2.2.2⟩

/-! ## One write pass of the feeder (C23) -/

theorem Lock_sizes (bs w n : Nat) (hw : w ≤ bs) :
    (IDirectSoundBuffer_Lock bs w n).size1 + (IDirectSoundBuffer_Lock bs w n).size2 = n := by
  unfold IDirectSoundBuffer_Lock
  split_ifs <;> simp only <;> omega

theorem getD_drop (l : List Nat) (k i : Nat) : (l.drop k).getD i 0 = l.getD (k + i) 0 := by
  simp only [List.getD_eq_getElem?_getD, List.getElem?_drop]

theorem ring_write_spec (mem : Nat → Nat) (bs w n : Nat) (src : List Nat)
    (hw : w < bs) (hn : n ≤ bs) :
    (∀ i, i < n → ring_write mem bs w src n ((w + i) % bs) = src.getD i 0) ∧
    (∀ j, (∀ i, i < n → j ≠ (w + i) % bs) → ring_write mem bs w src n j = mem j) := by
  unfold ring_write IDirectSoundBuffer_Lock
  by_cases h : w + n ≤ bs
  · simp only [if_pos h, ne_eq, not_true_eq_false, if_false, memcpy]
    constructor
    · intro i hi
      rw [Nat.mod_eq_of_lt (by omega), if_pos (by omega), Nat.add_sub_cancel_left]
    · intro j hj
      rw [if_neg]
      rintro ⟨h1, h2⟩
      exact hj (j - w) (by omega) (by rw [Nat.mod_eq_of_lt (by omega)]; omega)
  · have h2 : n - (bs - w) ≠ 0 := by omega
    simp only [if_neg h, ne_eq, h2, not_false_eq_true, if_true, memcpy]
    constructor
    · intro i hi
      rw [mod_wrap _ _ (by omega)]
      by_cases h3 : w + i < bs
      · rw [if_pos h3, if_neg (by omega), if_pos (by omega), Nat.add_sub_cancel_left]
      · rw [if_neg h3, if_pos (by omega), getD_drop]
        congr 1
        omega
    · intro j hj
      rw [if_neg, if_neg]
      · rintro ⟨h3, h4⟩
        exact hj (j - w) (by omega) (by rw [Nat.mod_eq_of_lt (by omega)]; omega)
      · rintro ⟨_, h4⟩
        refine hj (bs - w + j) (by omega) ?_
        rw [mod_wrap _ _ (by omega), if_neg (by omega)]
        omega

theorem SendSampleData_body_write (filter : dsound_render) (tStart : Int) (data : List Nat)
    (t : Tick) (r : WritePos) (hr : DSoundRender_GetWritePos filter tStart t.cursor t.now = r)
    (hstate : filter.state = FILTER_STATE.State_Running)
    (hplan : r.hr = HRESULT.S_OK) (hskip : r.skip < data.length)
    (hlock : t.lock_hr = HRESULT.S_OK) :
    ∃ g, DSoundRender_SendSampleData_body filter tStart data t
        = LoopStep.next g (-1)
          ((data.drop r.skip).drop
            ((IDirectSoundBuffer_Lock filter.buf_size (r.ret_writepos.getD 0)
              (min (r.pfree.getD 0) (data.drop r.skip).length)).size1 +
             (IDirectSoundBuffer_Lock filter.buf_size (r.ret_writepos.getD 0)
              (min (r.pfree.getD 0) (data.drop r.skip).length)).size2)) ∧
      g.buf_size = filter.buf_size ∧ g.mt = filter.mt ∧ g.state = filter.state ∧
      g.clock = filter.clock ∧ g.last_playpos = t.cursor.playpos ∧
      g.writepos = DWORD_add (DWORD_add (r.ret_writepos.getD 0)
          (IDirectSoundBuffer_Lock filter.buf_size (r.ret_writepos.getD 0)
              (min (r.pfree.getD 0) (data.drop r.skip).length)).size1)
          (IDirectSoundBuffer_Lock filter.buf_size (r.ret_writepos.getD 0)
              (min (r.pfree.getD 0) (data.drop r.skip).length)).size2 % filter.buf_size ∧
      g.dsbuffer = r.filter.dsbuffer.map fun b =>
        buffer_write b filter.buf_size (r.ret_writepos.getD 0) (data.drop r.skip)
          (min (r.pfree.getD 0) (data.drop r.skip).length) := by
  have hbs : r.filter.buf_size = filter.buf_size := by
    rw [← hr, GetWritePos_filter, UpdatePositions_buf_size]
  have hmt : r.filter.mt = filter.mt := by rw [← hr, GetWritePos_filter, UpdatePositions_mt]
  have hcl : r.filter.clock = filter.clock := by
    rw [← hr, GetWritePos_filter, UpdatePositions_clock]
  have hlp : r.filter.last_playpos = t.cursor.playpos := by
    rw [← hr, GetWritePos_filter, UpdatePositions_last_playpos]
  have hst : r.filter.state = filter.state := by
    rw [← hr, GetWritePos_filter]
    unfold DSoundRender_UpdatePositions
    simp only
    split_ifs <;> rfl
  unfold DSoundRender_SendSampleData_body
  simp only [hstate, if_true, hr, hplan, ne_eq, not_true_eq_false, if_false, hlock]
  rw [if_neg (by omega)]
  rw [hstate] at hst
  rw [hbs]
  exact ⟨_, rfl, rfl, hmt, hst, hcl, hlp, rfl, rfl⟩
theorem SendSampleData_body_write_spec (filter : dsound_render) (tStart : Int)
    (data : List Nat) (t : Tick) (r : WritePos)
    (hr : DSoundRender_GetWritePos filter tStart t.cursor t.now = r)
    (hstate : filter.state = FILTER_STATE.State_Running)
    (hbs : filter.buf_size ≤ 2147483648)
    (hplay : t.cursor.playpos < filter.buf_size) (hwrite : t.cursor.writepos < filter.buf_size)
    (hplan : r.hr = HRESULT.S_OK) (hskip : r.skip < data.length)
    (hlock : t.lock_hr = HRESULT.S_OK) :
    ∃ target free g, r.ret_writepos = some target ∧ r.pfree = some free ∧
      target < filter.buf_size ∧
      free = (t.cursor.playpos + filter.buf_size - target) % filter.buf_size ∧
      free < filter.buf_size ∧
      DSoundRender_SendSampleData_body filter tStart data t
        = LoopStep.next g (-1) (data.drop (r.skip + min free (data.length - r.skip))) ∧
      g.buf_size = filter.buf_size ∧ g.mt = filter.mt ∧ g.state = filter.state ∧
      g.clock = filter.clock ∧ g.last_playpos = t.cursor.playpos ∧
      g.writepos = (target + min free (data.length - r.skip)) % filter.buf_size ∧
      g.dsbuffer = r.filter.dsbuffer.map fun b =>
        buffer_write b filter.buf_size target (data.drop r.skip)
          (min free (data.length - r.skip)) := by
  obtain ⟨h1, h2⟩ := GetWritePos_plan filter tStart t.now t.cursor (by omega) hplay hwrite
  rw [hr] at h1 h2
  obtain ⟨w, hw1⟩ := h2 hplan
  obtain ⟨hlt, hfree, _⟩ := h1 w hw1
  have hfl : (t.cursor.playpos + filter.buf_size - w) % filter.buf_size < filter.buf_size :=
    Nat.mod_lt _ (by omega)
  obtain ⟨g, e1, e2, e3, e4, e5, e6, e7, e8⟩ :=
    SendSampleData_body_write filter tStart data t r hr hstate hplan hskip hlock
  rw [hw1, hfree] at e1 e7 e8
  simp only [Option.getD_some, List.length_drop] at e1 e7 e8
  have hs := Lock_sizes filter.buf_size w
    (min ((t.cursor.playpos + filter.buf_size - w) % filter.buf_size) (data.length - r.skip))
    (Nat.le_of_lt hlt)
  refine ⟨w, _, g, hw1, hfree, hlt, rfl, hfl, ?_, e2, e3, e4, e5, e6, ?_, e8⟩
  · rw [e1, hs, List.drop_drop]
  · rw [e7]
    generalize (t.cursor.playpos + filter.buf_size - w) % filter.buf_size = free at hs hfl ⊢
    have hn : min free (data.length - r.skip) ≤ free := Nat.min_le_left _ _
    generalize min free (data.length - r.skip) = n at hs hn ⊢
    generalize (IDirectSoundBuffer_Lock filter.buf_size w n).size1 = s1 at hs ⊢
    generalize (IDirectSoundBuffer_Lock filter.buf_size w n).size2 = s2 at hs ⊢
    rw [DWORD_add_eq w s1 (by omega), DWORD_add_eq (w + s1) s2 (by omega)]
    congr 1
    omega
/-- C23: one pass of the loop of `DSoundRender_SendSampleData` in the running
state with an `S_OK` plan `(target, free, skip)`, `skip` below the size and a
successful lock, for hardware cursors inside a ring of at most `2 ^ 31` bytes.
With `n = min free (size - skip)` the pass goes on with the remaining input
`data[skip + n ..]` and no presentation time; in the hardware buffer the byte
at `(target + i) mod buf_size` is `data[skip + i]` for every `i < n`, these
`n` offsets are distinct and lie in the two contiguous segments from `target`
to the buffer end and from 0 on, every other byte is as the planner left it,
and the tracked write cursor is `(target + n) mod buf_size`. -/
theorem C23_feeder_write (filter : dsound_render) (tStart : Int) (data : List Nat)
    (t : Tick) (b : IDirectSoundBuffer) (target free : Nat)
    (hstate : filter.state = FILTER_STATE.State_Running)
    (hbs : filter.buf_size ≤ 2147483648)
    (hplay : t.cursor.playpos < filter.buf_size) (hwrite : t.cursor.writepos < filter.buf_size)
    (hplan : (DSoundRender_GetWritePos filter tStart t.cursor t.now).hr = HRESULT.S_OK)
    (htarget : (DSoundRender_GetWritePos filter tStart t.cursor t.now).ret_writepos
      = some target)
    (hfree : (DSoundRender_GetWritePos filter tStart t.cursor t.now).pfree = some free)
    (hskip : (DSoundRender_GetWritePos filter tStart t.cursor t.now).skip < data.length)
    (hlock : t.lock_hr = HRESULT.S_OK)
    (hbuf : (DSoundRender_GetWritePos filter tStart t.cursor t.now).filter.dsbuffer = some b) :
    ∃ g b1,
      DSoundRender_SendSampleData_body filter tStart data t
        = LoopStep.next g (-1)
          (data.drop ((DSoundRender_GetWritePos filter tStart t.cursor t.now).skip
            + min free (data.length
              - (DSoundRender_GetWritePos filter tStart t.cursor t.now).skip))) ∧
      g.dsbuffer = some b1 ∧
      (∀ i, i < min free (data.length
            - (DSoundRender_GetWritePos filter tStart t.cursor t.now).skip) →
        data[(DSoundRender_GetWritePos filter tStart t.cursor t.now).skip + i]?
          = some (b1.bytes ((target + i) % filter.buf_size))) ∧
      (∀ i, i < min free (data.length
            - (DSoundRender_GetWritePos filter tStart t.cursor t.now).skip) →
        (target + i) % filter.buf_size
          = if target + i < filter.buf_size then target + i
            else target + i - filter.buf_size) ∧
      (∀ i j, i < min free (data.length
            - (DSoundRender_GetWritePos filter tStart t.cursor t.now).skip) →
        j < min free (data.length
            - (DSoundRender_GetWritePos filter tStart t.cursor t.now).skip) →
        (target + i) % filter.buf_size = (target + j) % filter.buf_size → i = j) ∧
      (∀ j, (∀ i, i < min free (data.length
            - (DSoundRender_GetWritePos filter tStart t.cursor t.now).skip) →
          j ≠ (target + i) % filter.buf_size) → b1.bytes j = b.bytes j) ∧
      g.writepos = (target + min free (data.length
            - (DSoundRender_GetWritePos filter tStart t.cursor t.now).skip))
          % filter.buf_size ∧
      g.buf_size = filter.buf_size := by
  obtain ⟨w, f, g, e1, e2, e3, _, e5, e6, e7, _, _, _, _, e12, e13⟩ :=
    SendSampleData_body_write_spec filter tStart data t _ rfl hstate hbs hplay hwrite hplan
      hskip hlock
  rw [htarget] at e1
  rw [hfree] at e2
  cases e1
  cases e2
  rw [hbuf] at e13
  generalize (DSoundRender_GetWritePos filter tStart t.cursor t.now).skip = skip at *
  have hn : min free (data.length - skip) ≤ free := Nat.min_le_left _ _
  have hn2 : min free (data.length - skip) ≤ data.length - skip := Nat.min_le_right _ _
  generalize min free (data.length - skip) = n at *
  obtain ⟨s1, s2⟩ := ring_write_spec b.bytes filter.buf_size target n (data.drop skip) e3
    (by omega)
  refine ⟨g, _, e6, e13, ?_, ?_, ?_, ?_, e12, e7⟩
  · intro i hi
    have hlt : skip + i < data.length := by omega
    rw [List.getElem?_eq_getElem hlt]
    congr 1
    show data[skip + i] = ring_write b.bytes filter.buf_size target (data.drop skip) n _
    rw [s1 i hi, getD_drop, List.getD_eq_getElem?_getD, List.getElem?_eq_getElem hlt]
    rfl
  · intro i hi
    exact mod_wrap _ _ (by omega)
  · intro i j hi hj h
    rw [mod_wrap _ _ (by omega), mod_wrap _ _ (by omega)] at h
    split_ifs at h <;> omega
  · intro j hj
    exact s2 j hj

/-- Witness for C23: five bytes written at offset 98 of a ring of 100 bytes
wrap to the offsets 98, 99, 0, 1, 2; the tracked write cursor becomes 3. -/
theorem C23_feeder_write_witness :
    ((ring100 85 98).state = FILTER_STATE.State_Running ∧
      (DSoundRender_GetWritePos (ring100 85 98) (-1) ring_tick.cursor ring_tick.now).hr
        = HRESULT.S_OK ∧
      (DSoundRender_GetWritePos (ring100 85 98) (-1) ring_tick.cursor ring_tick.now).ret_writepos
        = some 98 ∧
      (DSoundRender_GetWritePos (ring100 85 98) (-1) ring_tick.cursor ring_tick.now).pfree
        = some 92 ∧
      (DSoundRender_GetWritePos (ring100 85 98) (-1) ring_tick.cursor ring_tick.now).skip = 0 ∧
      ring_tick.lock_hr = HRESULT.S_OK) ∧
    ∃ g b1,
      DSoundRender_SendSampleData_body (ring100 85 98) (-1) [1, 2, 3, 4, 5] ring_tick
        = LoopStep.next g (-1) [] ∧
      g.dsbuffer = some b1 ∧ b1.bytes 98 = 1 ∧ b1.bytes 99 = 2 ∧ b1.bytes 0 = 3 ∧
      b1.bytes 1 = 4 ∧ b1.bytes 2 = 5 ∧ b1.bytes 3 = 0 ∧ g.writepos = 3 := by
  obtain ⟨g, b1, h1, h2, h3, -, -, h6, h7, -⟩ :=
    C23_feeder_write (ring100 85 98) (-1) [1, 2, 3, 4, 5] ring_tick
      { bytes := clear_played 100 85 5 128 (fun _ => 0) } 98 92
      rfl (by decide) (by decide) (by decide) (by decide) (by decide) (by decide) (by decide)
      rfl rfl
  refine ⟨⟨rfl, by decide, by decide, by decide, by decide, rfl⟩, g, b1, h1, h2, ?_, ?_, ?_,
    ?_, ?_, ?_, h7⟩
  · exact (Option.some.inj (h3 0 (by decide))).symm
  · exact (Option.some.inj (h3 1 (by decide))).symm
  · exact (Option.some.inj (h3 2 (by decide))).symm
  · exact (Option.some.inj (h3 3 (by decide))).symm
  · exact (Option.some.inj (h3 4 (by decide))).symm
  · rw [h6 3 (by decide)]
    decide

/-! ## The presentation time within one call of the feeder (C24) -/

theorem SendSampleData_body_next_tStart (filter : dsound_render) (tStart : Int)
    (data : List Nat) (t : Tick) (g : dsound_render) (ts : Int) (d : List Nat)
    (h : DSoundRender_SendSampleData_body filter tStart data t = LoopStep.next g ts d) :
    ((filter.state = FILTER_STATE.State_Running ∧
        (DSoundRender_GetWritePos filter tStart t.cursor t.now).hr = HRESULT.S_OK) → ts = -1) ∧
    (¬ (filter.state = FILTER_STATE.State_Running ∧
        (DSoundRender_GetWritePos filter tStart t.cursor t.now).hr = HRESULT.S_OK) →
      ts = tStart ∧ d = data) := by
  constructor
  · rintro ⟨hs, hp⟩
    unfold DSoundRender_SendSampleData_body at h
    simp only [hs, if_true, hp, ne_eq, not_true_eq_false, if_false] at h
    split_ifs at h <;> cases h <;> rfl
  · intro hn
    rw [SendSampleData_body_blocked filter tStart data t (fun hs hp => hn ⟨hs, hp⟩)] at h
    split_ifs at h <;> cases h <;> exact ⟨rfl, rfl⟩

theorem SendSampleData_passes_nil (filter : dsound_render) (tStart : Int) (data : List Nat) :
    SendSampleData_passes filter tStart data [] = [] := by
  unfold SendSampleData_passes
  split_ifs <;> rfl

theorem SendSampleData_passes_cons (filter : dsound_render) (tStart : Int) (data : List Nat)
    (t : Tick) (rest : List Tick) :
    SendSampleData_passes filter tStart data (t :: rest) =
      if data.length = 0 ∨ filter.state = FILTER_STATE.State_Stopped then []
      else
        { filter := filter, tStart := tStart, data := data, tick := t } ::
          match DSoundRender_SendSampleData_body filter tStart data t with
          | LoopStep.ret _ _ => []
          | LoopStep.next filter tStart data => SendSampleData_passes filter tStart data rest := by
  rw [SendSampleData_passes]

theorem Pass.planned_iff (p : Pass) :
    p.planned = true ↔ (p.filter.state = FILTER_STATE.State_Running ∧
      (DSoundRender_GetWritePos p.filter p.tStart p.tick.cursor p.tick.now).hr
        = HRESULT.S_OK) := by
  unfold Pass.planned Pass.plan
  simp only [Bool.and_eq_true, decide_eq_true_eq]

/-- Before the first pass with an `S_OK` plan the loop variables are the
arguments of the call; once the presentation time is -1 it stays -1. -/
theorem SendSampleData_passes_tStart (env : List Tick) :
    ∀ (filter : dsound_render) (tStart : Int) (data : List Nat) (pre : List Pass) (p : Pass)
      (post : List Pass),
    SendSampleData_passes filter tStart data env = pre ++ p :: post →
    ((∀ q ∈ pre, q.planned = false) → p.tStart = tStart ∧ p.data = data) ∧
    ((tStart = -1 ∨ ∃ q ∈ pre, q.planned = true) → p.tStart = -1) := by
  induction env with
  | nil =>
    intro filter tStart data pre p post h
    rw [SendSampleData_passes_nil] at h
    exact absurd h (by simp)
  | cons t rest ih =>
    intro filter tStart data pre p post h
    rw [SendSampleData_passes_cons] at h
    split_ifs at h with hd
    · exact absurd h (by simp)
    · cases pre with
      | nil =>
        simp only [List.nil_append, List.cons.injEq] at h
        obtain ⟨h1, _⟩ := h
        subst h1
        refine ⟨fun _ => ⟨rfl, rfl⟩, ?_⟩
        rintro (h2 | ⟨q, hq, _⟩)
        · exact h2
        · cases hq
      | cons q pre1 =>
        simp only [List.cons_append, List.cons.injEq] at h
        obtain ⟨h1, h2⟩ := h
        subst h1
        cases hb : DSoundRender_SendSampleData_body filter tStart data t with
        | ret hr g =>
          rw [hb] at h2
          exact absurd h2 (by simp)
        | next g ts d =>
          rw [hb] at h2
          simp only at h2
          obtain ⟨k1, k2⟩ := SendSampleData_body_next_tStart filter tStart data t g ts d hb
          obtain ⟨i1, i2⟩ := ih g ts d pre1 p post h2
          constructor
          · intro hall
            have hq : ¬ (filter.state = FILTER_STATE.State_Running ∧
                (DSoundRender_GetWritePos filter tStart t.cursor t.now).hr
                  = HRESULT.S_OK) := by
              intro hc
              have := hall _ (List.mem_cons_self _ _)
              rw [(Pass.planned_iff _).2 hc] at this
              cases this
            obtain ⟨e1, e2⟩ := k2 hq
            obtain ⟨e3, e4⟩ := i1 (fun q hq1 => hall q (List.mem_cons_of_mem _ hq1))
            exact ⟨e3.trans e1, e4.trans e2⟩
          · intro hsome
            by_cases hq : filter.state = FILTER_STATE.State_Running ∧
                (DSoundRender_GetWritePos filter tStart t.cursor t.now).hr = HRESULT.S_OK
            · exact i2 (Or.inl (k1 hq))
            · obtain ⟨e1, _⟩ := k2 hq
              rcases hsome with hs | ⟨q, hq1, hq2⟩
              · exact i2 (Or.inl (e1.trans hs))
              · rcases List.mem_cons.1 hq1 with hq3 | hq3
                · subst hq3
                  exact absurd ((Pass.planned_iff _).1 hq2) hq
                · exact i2 (Or.inr ⟨q, hq3, hq2⟩)
/-- C24: in one call of `DSoundRender_SendSampleData`, every pass of the loop
that comes before the first pass with an `S_OK` plan is entered with the
presentation time and the data of the call, and every pass after a pass with
an `S_OK` plan is entered with the presentation time -1, for which the
planner gives `skip = 0` and the sequential write position as target. -/
theorem C24_presentation_time (filter : dsound_render) (tStart : Int) (data : List Nat)
    (env : List Tick) (pre : List Pass) (p : Pass) (post : List Pass)
    (h : SendSampleData_passes filter tStart data env = pre ++ p :: post) :
    ((∀ q ∈ pre, q.planned = false) → p.tStart = tStart ∧ p.data = data) ∧
    ((∃ q ∈ pre, q.planned = true) →
      p.tStart = -1 ∧ p.plan.skip = 0 ∧
      p.plan.ret_writepos
        = some (DSoundRender_UpdatePositions p.filter p.tick.cursor).seqwritepos) := by
  obtain ⟨h1, h2⟩ := SendSampleData_passes_tStart env filter tStart data pre p post h
  refine ⟨h1, fun hq => ?_⟩
  have ht := h2 (Or.inr hq)
  unfold Pass.plan
  rw [GetWritePos_sequential p.filter p.tStart p.tick.now p.tick.cursor
    (Or.inr (by rw [ht]; decide))]
  exact ⟨ht, GetWritePos_end_skip _ _ _ _, GetWritePos_end_ret_writepos _ _ _ _⟩

/-- Witness for C24: a sample of 97 bytes stamped 50 ms on a ring of 100
bytes.  The first pass obtains a plan at the sequential position 5 and
writes 95 bytes; the second pass is entered with the presentation time -1
and the 2 bytes left. -/
theorem C24_presentation_time_witness :
    (SendSampleData_passes clocked_ring 500000 ring_sample ring_env).map Pass.planned
      = [true, false] ∧
    (SendSampleData_passes clocked_ring 500000 ring_sample ring_env).map Pass.tStart
      = [500000, -1] ∧
    (SendSampleData_passes clocked_ring 500000 ring_sample ring_env).map
      (fun p => p.data.length) = [97, 2] ∧
    ∃ p, (SendSampleData_passes clocked_ring 500000 ring_sample ring_env)[1]? = some p ∧
      p.tStart = -1 ∧ p.plan.skip = 0 ∧
      p.plan.ret_writepos
        = some (DSoundRender_UpdatePositions p.filter p.tick.cursor).seqwritepos := by
  have hlen : 1 < (SendSampleData_passes clocked_ring 500000 ring_sample ring_env).length := by
    decide
  have hsplit : SendSampleData_passes clocked_ring 500000 ring_sample ring_env
      = (SendSampleData_passes clocked_ring 500000 ring_sample ring_env).take 1
        ++ (SendSampleData_passes clocked_ring 500000 ring_sample ring_env)[1]
        :: (SendSampleData_passes clocked_ring 500000 ring_sample ring_env).drop 2 := by
    rw [← List.drop_eq_getElem_cons hlen, List.take_append_drop]
  have hany : ((SendSampleData_passes clocked_ring 500000 ring_sample ring_env).take 1).any
      Pass.planned = true := by decide
  have h := (C24_presentation_time clocked_ring 500000 ring_sample ring_env _ _ _ hsplit).2
    (List.any_eq_true.1 hany)
  exact ⟨by decide, by decide, by decide, _, List.getElem?_eq_getElem hlen, h⟩

/-! ## Progress of the feeder (C28) -/

theorem range_map_getD (l : List Nat) (n : Nat) (h : n ≤ l.length) :
    (List.range n).map (fun i => l.getD i 0) = l.take n := by
  apply List.ext_getElem
  · simp only [List.length_map, List.length_range, List.length_take]
    omega
  · intro i h1 h2
    simp only [List.length_map, List.length_range] at h1
    simp only [List.getElem_map, List.getElem_range, List.getElem_take,
      List.getD_eq_getElem?_getD]
    rw [List.getElem?_eq_getElem (by omega)]
    rfl

theorem isSome_map_buffer (f : IDirectSoundBuffer → IDirectSoundBuffer)
    (o : Option IDirectSoundBuffer) : (o.map f).isSome = o.isSome := by
  cases o <;> rfl

theorem SendSampleData_body_keeps (filter : dsound_render) (tStart : Int) (data : List Nat)
    (t : Tick) :
    (DSoundRender_SendSampleData_body filter tStart data t).renderer.buf_size
      = filter.buf_size ∧
    (DSoundRender_SendSampleData_body filter tStart data t).renderer.mt = filter.mt ∧
    (filter.dsbuffer.isSome = true →
      (DSoundRender_SendSampleData_body filter tStart data t).renderer.dsbuffer.isSome
        = true) := by
  have hr : (if filter.state = FILTER_STATE.State_Running then
        DSoundRender_GetWritePos filter tStart t.cursor t.now
      else { hr := HRESULT.S_FALSE, filter := filter, ret_writepos := none, pfree := none,
             skip := 0 }).filter.buf_size = filter.buf_size ∧
      (if filter.state = FILTER_STATE.State_Running then
        DSoundRender_GetWritePos filter tStart t.cursor t.now
      else { hr := HRESULT.S_FALSE, filter := filter, ret_writepos := none, pfree := none,
             skip := 0 }).filter.mt = filter.mt ∧
      (filter.dsbuffer.isSome = true →
      (if filter.state = FILTER_STATE.State_Running then
        DSoundRender_GetWritePos filter tStart t.cursor t.now
      else { hr := HRESULT.S_FALSE, filter := filter, ret_writepos := none, pfree := none,
             skip := 0 }).filter.dsbuffer.isSome = true) := by
    split_ifs
    · rw [GetWritePos_filter, UpdatePositions_buf_size, UpdatePositions_mt,
        UpdatePositions_dsbuffer]
      refine ⟨rfl, rfl, fun h => ?_⟩
      split_ifs <;> first | exact h | (rw [isSome_map_buffer]; exact h)
    · exact ⟨rfl, rfl, fun h => h⟩
  unfold DSoundRender_SendSampleData_body
  simp only
  generalize (if filter.state = FILTER_STATE.State_Running then
        DSoundRender_GetWritePos filter tStart t.cursor t.now
      else { hr := HRESULT.S_FALSE, filter := filter, ret_writepos := none, pfree := none,
             skip := 0 }) = r at hr
  obtain ⟨h1, h2, h3⟩ := hr
  split_ifs <;> simp only [LoopStep.renderer] <;>
    first
    | exact ⟨h1, h2, h3⟩
    | exact ⟨h1, h2, fun h => by rw [isSome_map_buffer]; exact h3 h⟩
theorem plan_ok_free_pos (filter : dsound_render) (write_at now : Int) (hw : Cursor)
    (hdw : filter.buf_size < 4294967296) (hrate : filter.buf_size = filter.mt.nAvgBytesPerSec)
    (hpos : 0 < filter.buf_size)
    (hplay : hw.playpos < filter.buf_size) (hwrite : hw.writepos < filter.buf_size)
    (hok : (DSoundRender_GetWritePos filter write_at hw now).hr = HRESULT.S_OK) (free : Nat)
    (hfree : (DSoundRender_GetWritePos filter write_at hw now).pfree = some free) :
    1 ≤ free := by
  obtain ⟨h1, h2⟩ := GetWritePos_plan filter write_at now hw hdw hplay hwrite
  obtain ⟨w, hw1⟩ := h2 hok
  obtain ⟨_, hf, hhr⟩ := h1 w hw1
  rw [hfree] at hf
  cases hf
  rw [hok] at hhr
  rcases Nat.eq_zero_or_pos ((hw.playpos + filter.buf_size - w) % filter.buf_size) with h0 | h0
  · rw [h0, Nat.sub_zero, hrate, time_from_pos_one_second filter (by omega)] at hhr
    exact absurd hhr (by decide)
  · exact h0

theorem SendSampleData_body_planned (filter : dsound_render) (tStart : Int) (data : List Nat)
    (t : Tick) (r : WritePos) (hr : DSoundRender_GetWritePos filter tStart t.cursor t.now = r)
    (hstate : filter.state = FILTER_STATE.State_Running)
    (hrate : filter.buf_size = filter.mt.nAvgBytesPerSec) (hpos : 0 < filter.buf_size)
    (hbs : filter.buf_size ≤ 2147483648) (hbuf : filter.dsbuffer.isSome = true)
    (hlock : t.lock_hr = HRESULT.S_OK)
    (hplay : t.cursor.playpos < filter.buf_size) (hwrite : t.cursor.writepos < filter.buf_size)
    (hplan : r.hr = HRESULT.S_OK) :
    (data.length ≤ r.skip ∧
      DSoundRender_SendSampleData_body filter tStart data t
        = LoopStep.ret HRESULT.S_OK r.filter) ∨
    (r.skip < data.length ∧ ∃ free g, r.pfree = some free ∧
      1 ≤ min free (data.length - r.skip) ∧
      DSoundRender_SendSampleData_body filter tStart data t
        = LoopStep.next g (-1) (data.drop (r.skip + min free (data.length - r.skip))) ∧
      Pass.written { filter := filter, tStart := tStart, data := data, tick := t }
        = (data.drop r.skip).take (min free (data.length - r.skip))) := by
  by_cases hskip : data.length ≤ r.skip
  · left
    refine ⟨hskip, ?_⟩
    unfold DSoundRender_SendSampleData_body
    simp only [hstate, if_true, hr, hplan, ne_eq, not_true_eq_false, if_false]
    rw [if_pos hskip]
  · right
    have hskip1 : r.skip < data.length := by omega
    obtain ⟨w, free, g, e1, e2, e3, _, e5, e6, e7, _, _, _, _, _, e13⟩ :=
      SendSampleData_body_write_spec filter tStart data t r hr hstate hbs hplay hwrite hplan
        hskip1 hlock
    have hf1 : 1 ≤ free := by
      subst hr
      exact plan_ok_free_pos filter tStart t.now t.cursor (by omega) hrate hpos hplay hwrite
        hplan free e2
    have hb : ∃ b, r.filter.dsbuffer = some b := by
      have hk := (SendSampleData_body_keeps filter tStart data t).2.2 hbuf
      rw [e6] at hk
      simp only [LoopStep.renderer] at hk
      rw [e13, isSome_map_buffer] at hk
      exact Option.isSome_iff_exists.1 hk
    obtain ⟨b, hb⟩ := hb
    rw [hb] at e13
    refine ⟨hskip1, free, g, e2, by omega, e6, ?_⟩
    have hp : Pass.planned { filter := filter, tStart := tStart, data := data, tick := t }
        = true := by
      rw [Pass.planned_iff]
      exact ⟨hstate, by rw [hr]; exact hplan⟩
    have hn : min free (data.length - r.skip) ≤ (data.drop r.skip).length := by
      rw [List.length_drop]
      exact Nat.min_le_right _ _
    have hn2 : min free (data.length - r.skip) ≤ filter.buf_size := by
      have := Nat.min_le_left free (data.length - r.skip)
      omega
    have hlen : data.length - r.skip
        - (data.drop (r.skip + min free (data.length - r.skip))).length
        = min free (data.length - r.skip) := by
      rw [List.length_drop]
      have := Nat.min_le_right free (data.length - r.skip)
      omega
    unfold Pass.written Pass.step Pass.plan
    simp only [e6, hp, if_true, hr, e1, e13, e7, Option.getD_some, hlen]
    rw [← range_map_getD _ _ hn]
    apply List.map_congr_left
    intro i hi
    rw [List.mem_range] at hi
    exact (ring_write_spec b.bytes filter.buf_size w (min free (data.length - r.skip))
      (data.drop r.skip) e3 hn2).1 i hi
theorem Pass.written_blocked (p : Pass) (h : p.planned = false) : p.written = [] := by
  unfold Pass.written
  split
  · rw [h]; rfl
  · rfl

theorem Pass.written_ret (p : Pass) (hr : HRESULT) (g : dsound_render)
    (h : p.step = LoopStep.ret hr g) : p.written = [] := by
  unfold Pass.written
  rw [h]

theorem Pass.writes_ret (p : Pass) (hr : HRESULT) (g : dsound_render)
    (h : p.step = LoopStep.ret hr g) : p.writes = false := by
  unfold Pass.writes
  rw [h, Bool.and_false]

theorem Pass.writes_blocked (p : Pass) (h : p.planned = false) : p.writes = false := by
  unfold Pass.writes
  rw [h, Bool.false_and]

theorem Pass.plan_sequential (p : Pass) (h : p.tStart < 0) : p.plan.skip = 0 := by
  unfold Pass.plan
  rw [GetWritePos_sequential p.filter p.tStart p.tick.now p.tick.cursor (Or.inr h)]
  exact GetWritePos_end_skip _ _ _ _

/-- What a pass with an `S_OK` plan does when the lock succeeds, the ring holds
one second of audio and the hardware cursors are inside it. -/
theorem Pass.planned_cases (p : Pass) (hplanned : p.planned = true)
    (hrate : p.filter.buf_size = p.filter.mt.nAvgBytesPerSec) (hpos : 0 < p.filter.buf_size)
    (hbs : p.filter.buf_size ≤ 2147483648) (hbuf : p.filter.dsbuffer.isSome = true)
    (hlock : p.tick.lock_hr = HRESULT.S_OK)
    (hplay : p.tick.cursor.playpos < p.filter.buf_size)
    (hwrite : p.tick.cursor.writepos < p.filter.buf_size) :
    (p.data.length ≤ p.plan.skip ∧ p.step = LoopStep.ret HRESULT.S_OK p.plan.filter) ∨
    (p.plan.skip < p.data.length ∧ ∃ free g, p.plan.pfree = some free ∧
      1 ≤ min free (p.data.length - p.plan.skip) ∧
      p.step = LoopStep.next g (-1)
        (p.data.drop (p.plan.skip + min free (p.data.length - p.plan.skip))) ∧
      p.written = (p.data.drop p.plan.skip).take (min free (p.data.length - p.plan.skip))) := by
  obtain ⟨hs, hp⟩ := (Pass.planned_iff p).1 hplanned
  exact SendSampleData_body_planned p.filter p.tStart p.data p.tick _ rfl hs hrate hpos hbs
    hbuf hlock hplay hwrite hp
theorem SendSampleData_passes_keep (env : List Tick) :
    ∀ (filter : dsound_render) (tStart : Int) (data : List Nat),
    filter.dsbuffer.isSome = true →
    ∀ p ∈ SendSampleData_passes filter tStart data env,
      p.filter.buf_size = filter.buf_size ∧ p.filter.mt = filter.mt ∧
      p.filter.dsbuffer.isSome = true ∧ p.tick ∈ env := by
  induction env with
  | nil =>
    intro filter tStart data _ p hp
    rw [SendSampleData_passes_nil] at hp
    cases hp
  | cons t rest ih =>
    intro filter tStart data hbuf p hp
    rw [SendSampleData_passes_cons] at hp
    split_ifs at hp with hd
    · cases hp
    · rcases List.mem_cons.1 hp with h1 | h1
      · subst h1
        exact ⟨rfl, rfl, hbuf, List.mem_cons_self _ _⟩
      · have hk := SendSampleData_body_keeps filter tStart data t
        cases hb : DSoundRender_SendSampleData_body filter tStart data t with
        | ret hr g =>
          rw [hb] at h1
          cases h1
        | next g ts d =>
          rw [hb] at h1 hk
          simp only [LoopStep.renderer] at h1 hk
          obtain ⟨k1, k2, k3, k4⟩ := ih g ts d (hk.2.2 hbuf) p h1
          exact ⟨k1.trans hk.1, k2.trans hk.2.1, k3, List.mem_cons_of_mem _ k4⟩
theorem SendSampleData_passes_progress (env : List Tick) :
    ∀ (filter : dsound_render) (tStart : Int) (data : List Nat),
    filter.buf_size = filter.mt.nAvgBytesPerSec → 0 < filter.buf_size →
    filter.buf_size ≤ 2147483648 → filter.dsbuffer.isSome = true →
    (∀ t ∈ env, t.lock_hr = HRESULT.S_OK ∧ t.cursor.playpos < filter.buf_size ∧
      t.cursor.writepos < filter.buf_size) →
    ((SendSampleData_passes filter tStart data env).filter Pass.writes).length
      ≤ data.length ∧
    (∃ tail, ((SendSampleData_passes filter tStart data env).map Pass.written).flatten ++ tail
      = data.drop ((((SendSampleData_passes filter tStart data env).find? Pass.planned).map
          fun p => p.plan.skip).getD 0)) ∧
    (∀ p g ts, (SendSampleData_passes filter tStart data env).getLast? = some p →
      p.step = LoopStep.next g ts [] →
      ((SendSampleData_passes filter tStart data env).map Pass.written).flatten
        = data.drop ((((SendSampleData_passes filter tStart data env).find? Pass.planned).map
            fun p => p.plan.skip).getD 0)) ∧
    (tStart < 0 →
      (((SendSampleData_passes filter tStart data env).find? Pass.planned).map
          fun p => p.plan.skip).getD 0 = 0) := by
  induction env with
  | nil =>
    intro filter tStart data _ _ _ _ _
    rw [SendSampleData_passes_nil]
    refine ⟨Nat.zero_le _, ⟨data, rfl⟩, ?_, fun _ => rfl⟩
    intro p g ts h
    cases h
  | cons t rest ih =>
    intro filter tStart data hrate hpos hbs hbuf henv
    obtain ⟨hlock, hplay, hwrite⟩ := henv t (List.mem_cons_self _ _)
    rw [SendSampleData_passes_cons]
    split_ifs with hd
    · refine ⟨Nat.zero_le _, ⟨data, rfl⟩, ?_, fun _ => rfl⟩
      intro p g ts h
      cases h
    · have hk := SendSampleData_body_keeps filter tStart data t
      have hstep0 : Pass.step (Pass.mk filter tStart data t)
          = DSoundRender_SendSampleData_body filter tStart data t := rfl
      by_cases hp0 : Pass.planned
          (Pass.mk filter tStart data t) = true
      · have hseq : tStart < 0 →
            (Pass.plan (Pass.mk filter tStart data t)).skip
              = 0 :=
          fun h => Pass.plan_sequential _ h
        rcases Pass.planned_cases _ hp0 hrate hpos hbs hbuf hlock hplay hwrite with
          ⟨hle, hstep⟩ | ⟨hlt, free, g, hfree, hn1, hstep, hwr⟩
        · simp only at hle hstep
          have hb := hstep0.symm.trans hstep
          rw [hb]
          simp only [List.filter_cons, Pass.writes_ret _ _ _ hstep, List.filter_nil,
            List.map_cons, List.map_nil, Pass.written_ret _ _ _ hstep, List.flatten_cons,
            List.flatten_nil, List.find?_cons, hp0, Option.map_some', Option.getD_some,
            List.append_nil, List.nil_append, List.length_nil, Bool.false_eq_true, if_false]
          refine ⟨Nat.zero_le _, ⟨[], (List.drop_eq_nil_of_le hle).symm⟩, ?_, hseq⟩
          intro p g ts h1 h2
          simp only [List.getLast?_singleton, Option.some.injEq] at h1
          subst h1
          rw [hstep] at h2
          cases h2
        · simp only at hlt hfree hn1 hstep hwr
          have hb := hstep0.symm.trans hstep
          rw [hb] at hk ⊢
          simp only [LoopStep.renderer] at hk
          have hw : Pass.writes (Pass.mk filter tStart data t)
              = true := by
            unfold Pass.writes
            rw [hp0, hstep]
            rfl
          obtain ⟨iA, ⟨tail, iB⟩, iC, iD⟩ := ih g (-1)
            (data.drop ((Pass.plan (Pass.mk filter tStart data t)).skip + min free (data.length - (Pass.plan (Pass.mk filter tStart data t)).skip)))
            (by rw [hk.1, hk.2.1]; exact hrate) (by rw [hk.1]; exact hpos)
            (by rw [hk.1]; exact hbs) (hk.2.2 hbuf)
            (fun u hu => by rw [hk.1]; exact henv u (List.mem_cons_of_mem _ hu))
          have iD0 := iD (by decide)
          rw [iD0, List.drop_zero] at iB iC
          simp only [List.filter_cons, hw, if_true, List.map_cons, List.flatten_cons, hwr,
            List.find?_cons, hp0, Option.map_some', Option.getD_some, List.length_cons]
          generalize (Pass.plan (Pass.mk filter tStart data t)).skip = s at *
          have hmin := Nat.min_le_right free (data.length - s)
          generalize min free (data.length - s) = n at *
          have hsplit : List.take n (List.drop s data) ++ List.drop (s + n) data
              = List.drop s data := by
            rw [← List.drop_drop, List.take_append_drop]
          refine ⟨?_, ⟨tail, ?_⟩, ?_, fun h => ?_⟩
          · rw [List.length_drop] at iA
            omega
          · rw [List.append_assoc, iB, hsplit]
          · intro p g1 ts1 h1 h2
            cases hps : SendSampleData_passes g (-1) (List.drop (s + n) data) rest with
            | nil =>
              rw [hps] at h1
              simp only [List.getLast?_singleton, Option.some.injEq] at h1
              subst h1
              rw [hstep] at h2
              injection h2 with _ _ h3
              rw [List.map_nil, List.flatten_nil, List.append_nil]
              rw [h3, List.append_nil] at hsplit
              exact hsplit
            | cons q qs =>
              rw [hps] at h1 iC
              rw [List.getLast?_cons_cons] at h1
              rw [iC p g1 ts1 h1 h2, hsplit]
          · exact hseq h
      · have hp1 : Pass.planned (Pass.mk filter tStart data t) = false := by
          rw [Bool.not_eq_true] at hp0
          exact hp0
        have hnp : ¬ (filter.state = FILTER_STATE.State_Running ∧
            (DSoundRender_GetWritePos filter tStart t.cursor t.now).hr = HRESULT.S_OK) :=
          fun hc => hp0 ((Pass.planned_iff (Pass.mk filter tStart data t)).2 hc)
        cases hb : DSoundRender_SendSampleData_body filter tStart data t with
        | ret hr g =>
          simp only [List.filter_cons, Pass.writes_blocked _ hp1, List.filter_nil,
            List.map_cons, List.map_nil, Pass.written_blocked _ hp1, List.flatten_cons,
            List.flatten_nil, List.find?_cons, hp1, List.find?_nil, Option.map_none',
            Option.getD_none, List.append_nil, List.nil_append, List.length_nil,
            Bool.false_eq_true, if_false, List.drop_zero]
          refine ⟨Nat.zero_le _, ⟨data, rfl⟩, ?_, fun _ => trivial⟩
          intro p g1 ts1 h1 h2
          simp only [List.getLast?_singleton, Option.some.injEq] at h1
          subst h1
          rw [hstep0, hb] at h2
          cases h2
        | next g ts d =>
          obtain ⟨e1, e2⟩ := (SendSampleData_body_next_tStart filter tStart data t g ts d hb).2
            hnp
          subst e1 e2
          rw [hb] at hk
          simp only [LoopStep.renderer] at hk
          obtain ⟨iA, iB, iC, iD⟩ := ih g ts d
            (by rw [hk.1, hk.2.1]; exact hrate) (by rw [hk.1]; exact hpos)
            (by rw [hk.1]; exact hbs) (hk.2.2 hbuf)
            (fun u hu => by rw [hk.1]; exact henv u (List.mem_cons_of_mem _ hu))
          simp only [List.filter_cons, Pass.writes_blocked _ hp1, List.map_cons,
            Pass.written_blocked _ hp1, List.flatten_cons, List.find?_cons, hp1,
            List.nil_append, Bool.false_eq_true, if_false]
          refine ⟨iA, iB, ?_, iD⟩
          intro p g1 ts1 h1 h2
          cases hps : SendSampleData_passes g ts d rest with
          | nil =>
            rw [hps] at h1
            simp only [List.getLast?_singleton, Option.some.injEq] at h1
            subst h1
            rw [hstep0, hb] at h2
            injection h2 with _ _ h3
            subst h3
            exact absurd (Or.inl rfl) hd
          | cons q qs =>
            rw [hps] at h1 iC
            rw [List.getLast?_cons_cons] at h1
            exact iC p g1 ts1 h1 h2
/-- C28: for a ring of one second of audio (`buf_size = nAvgBytesPerSec > 0`,
at most `2 ^ 31` bytes) with a hardware buffer, and ticks in which the lock
succeeds and the hardware cursors are inside the ring.  Every pass of the loop
of `DSoundRender_SendSampleData` that obtains an `S_OK` plan either returns
`S_OK` (`skip ≥ size`) or goes round with the input shortened by `skip + min
free (size - skip)` bytes, of which `min free (size - skip) ≥ 1` are written.
So a call has at most `size` passes that write; the bytes it writes, in
order, are a leading part of `data[skip ..]` for the `skip` of the first plan,
and they are all of `data[skip ..]` when the last pass leaves no input. -/
theorem C28_feeder_progress (filter : dsound_render) (tStart : Int) (data : List Nat)
    (env : List Tick)
    (hrate : filter.buf_size = filter.mt.nAvgBytesPerSec) (hpos : 0 < filter.buf_size)
    (hbs : filter.buf_size ≤ 2147483648) (hbuf : filter.dsbuffer.isSome = true)
    (henv : ∀ t ∈ env, t.lock_hr = HRESULT.S_OK ∧ t.cursor.playpos < filter.buf_size ∧
      t.cursor.writepos < filter.buf_size) :
    (∀ p ∈ SendSampleData_passes filter tStart data env, p.planned = true →
      (p.data.length ≤ p.plan.skip ∧ p.step = LoopStep.ret HRESULT.S_OK p.plan.filter) ∨
      (p.plan.skip < p.data.length ∧ ∃ free g, p.plan.pfree = some free ∧
        1 ≤ min free (p.data.length - p.plan.skip) ∧
        p.plan.skip + min free (p.data.length - p.plan.skip) ≤ p.data.length ∧
        p.step = LoopStep.next g (-1)
          (p.data.drop (p.plan.skip + min free (p.data.length - p.plan.skip))) ∧
        p.written
          = (p.data.drop p.plan.skip).take (min free (p.data.length - p.plan.skip)))) ∧
    ((SendSampleData_passes filter tStart data env).filter Pass.writes).length
      ≤ data.length ∧
    (∃ tail, SendSampleData_written filter tStart data env ++ tail
      = data.drop (SendSampleData_first_skip filter tStart data env)) ∧
    (∀ p g ts, (SendSampleData_passes filter tStart data env).getLast? = some p →
      p.step = LoopStep.next g ts [] →
      SendSampleData_written filter tStart data env
        = data.drop (SendSampleData_first_skip filter tStart data env)) := by
  obtain ⟨hA, hB, hC, _⟩ :=
    SendSampleData_passes_progress env filter tStart data hrate hpos hbs hbuf henv
  refine ⟨?_, hA, hB, hC⟩
  intro p hp hplanned
  obtain ⟨k1, k2, k3, k4⟩ := SendSampleData_passes_keep env filter tStart data hbuf p hp
  obtain ⟨e1, e2, e3⟩ := henv p.tick k4
  rcases Pass.planned_cases p hplanned (by rw [k1, k2]; exact hrate) (by rw [k1]; exact hpos)
    (by rw [k1]; exact hbs) k3 e1 (by rw [k1]; exact e2) (by rw [k1]; exact e3) with
    h | ⟨h1, free, g, h2, h3, h4, h5⟩
  · exact Or.inl h
  · refine Or.inr ⟨h1, free, g, h2, h3, ?_, h4, h5⟩
    have := Nat.min_le_right free (p.data.length - p.plan.skip)
    omega

/-- Witness for C28: a sample of 97 bytes on a ring of 100 bytes; the first
pass writes 95 bytes and the second pass, with 2 bytes left, is blocked. -/
theorem C28_feeder_progress_witness :
    (clocked_ring.buf_size = clocked_ring.mt.nAvgBytesPerSec ∧ 0 < clocked_ring.buf_size ∧
      clocked_ring.buf_size ≤ 2147483648 ∧ clocked_ring.dsbuffer.isSome = true ∧
      ∀ t ∈ ring_env, t.lock_hr = HRESULT.S_OK ∧ t.cursor.playpos < clocked_ring.buf_size ∧
        t.cursor.writepos < clocked_ring.buf_size) ∧
    ((SendSampleData_passes clocked_ring 500000 ring_sample ring_env).filter
      Pass.writes).length = 1 ∧
    SendSampleData_first_skip clocked_ring 500000 ring_sample ring_env = 0 ∧
    (SendSampleData_written clocked_ring 500000 ring_sample ring_env).length = 95 ∧
    ∃ tail, SendSampleData_written clocked_ring 500000 ring_sample ring_env ++ tail
      = ring_sample.drop (SendSampleData_first_skip clocked_ring 500000 ring_sample ring_env) :=
  ⟨⟨by decide, by decide, by decide, by decide, by decide⟩, by decide, by decide, by decide,
    (C28_feeder_progress clocked_ring 500000 ring_sample ring_env (by decide) (by decide)
      (by decide) (by decide) (by decide)).2.2.1⟩

end DSoundRender
